import Mathlib

/-!
# Shading-mode export context (`usdMaya/shadingModeExporterContext.cpp`) and file-texture writer (`translators/shading/usdFileTextureWriter.cpp`)

A shallow embedding of `PxrUsdMayaShadingModeExportContext`: the assignment
resolver (`GetAssignments`), the material placement and binding engine
(`MakeStandardMaterialPrim` with its static helpers) and the attribute-name
helper (`GetStandardAttrName`); and of `PxrUsdTranslators_FileTextureWriter`:
`Write` and `GetShadingAttributeNameForMayaAttrName`.

The two external collaborators are modelled by the interface the code uses:

* the Maya scene graph is a read-only oracle (`MayaScene`): every query the
  code makes is a field of the oracle;
* the USD stage is a map from prim paths to composed prim data (`UsdStage`),
  with the authoring calls the code makes (`OverridePrim`, `DefinePrim`,
  `Bind`, `CreateMaterialBindSubset`, ...) as state transformers.  Authoring
  is assumed to take effect in the composed stage (the edit target is the
  strongest layer).  USD refuses to author below an instance.  The code
  guards its authoring on bound prims against that (the test of line 351,
  `_UninstancePrim`), so those calls are modelled by their effect; the
  `Define` calls for the `Looks` scope and the material (lines 258 and 333)
  are not guarded, and `DefinePrim` is modelled with its refusal.

Diagnostics (`TF_WARN`, `TF_RUNTIME_ERROR`, `TF_VERIFY`) do not influence
control flow or data and are left out.
-/

namespace UsdMaya

/-! ## `SdfPath` -/

/-- An `SdfPath` restricted to the paths this code manipulates: the empty path
`SdfPath()` and absolute prim paths.  `abs []` is the absolute root path `/`,
`abs ["A", "B"]` is `/A/B`. -/
inductive SdfPath where
  | empty : SdfPath
  | abs (elems : List String) : SdfPath
  deriving DecidableEq, Repr

namespace SdfPath

/-- `SdfPath::AbsoluteRootPath()`. -/
def AbsoluteRootPath : SdfPath := abs []

/-- `SdfPath::IsEmpty()`. -/
def IsEmpty : SdfPath → Bool
  | empty => true
  | abs _ => false

/-- `SdfPath::IsRootPrimPath()`: an absolute path with exactly one element. -/
def IsRootPrimPath : SdfPath → Bool
  | abs [_] => true
  | _ => false

/-- An absolute prim path: at least one element (neither empty nor `/`). -/
def IsPrimPath : SdfPath → Bool
  | abs (_ :: _) => true
  | _ => false

/-- `SdfPath::GetParentPath()`: the parent of `/` is the empty path, and the
empty path is its own parent. -/
def GetParentPath : SdfPath → SdfPath
  | empty => empty
  | abs [] => empty
  | abs l => abs l.dropLast

/-- `SdfPath::AppendChild(name)`; appending to the empty path yields the empty
path. -/
def AppendChild : SdfPath → String → SdfPath
  | empty, _ => empty
  | abs l, name => abs (l ++ [name])

/-- `SdfPath::GetPrefixes()`: the prefixes from shortest to longest, the path
itself last; the absolute root is not among them, so `/` and the empty path
have no prefixes. -/
def GetPrefixes : SdfPath → List SdfPath
  | empty => []
  | abs l => (l.inits.drop 1).map abs

/-- `SdfPath::HasPrefix(prefix)`. -/
def HasPrefix : SdfPath → SdfPath → Bool
  | abs l, abs p => p.isPrefixOf l
  | _, _ => false

/-- Longest common prefix of two element lists. -/
def commonElems : List String → List String → List String
  | a :: l, b :: m => if a = b then a :: commonElems l m else []
  | _, _ => []

/-- `SdfPath::GetCommonPrefix(path)`: the longest path that is a prefix of
both; empty when either path is empty. -/
def GetCommonPrefix : SdfPath → SdfPath → SdfPath
  | abs l, abs m => abs (commonElems l m)
  | _, _ => empty

/-- `SdfPath::ReplacePrefix(oldPrefix, newPrefix)`: unchanged when the path
does not have `oldPrefix` as a prefix. -/
def ReplacePrefix : SdfPath → SdfPath → SdfPath → SdfPath
  | abs l, abs o, abs n => if o.isPrefixOf l then abs (n ++ l.drop o.length) else abs l
  | p, _, _ => p

/-- The path itself and its ancestors up to and including `/`, longest
first: exactly the paths `q` with `HasPrefix path q`. -/
def ancestorsFromSelf : SdfPath → List SdfPath
  | empty => []
  | abs l => l.inits.reverse.map abs

end SdfPath

/-- `SdfPathFindLongestPrefix(set.begin(), set.end(), path)` on an
`SdfPathSet`: the longest element of the set that is a prefix of `path` (the
path itself included); `none` stands for the `end()` iterator. -/
def SdfPathFindLongestPrefix (set : Finset SdfPath) (path : SdfPath) : Option SdfPath :=
  path.ancestorsFromSelf.find? (fun q => decide (q ∈ set))

/-! ## The Maya scene graph oracle -/

/-- An `MObject` handle; `none` is the null handle `MObject()`. -/
structure MObject where
  handle : Option Nat
  deriving DecidableEq, Repr

/-- `MObject::isNull()`. -/
def MObject.isNull (o : MObject) : Bool := o.handle.isNone

/-- An `MDagPath`, identified by its full path name (the key order of
`MDagPathMap`). -/
structure MDagPath where
  fullPathName : String
  deriving DecidableEq, Repr

/-- Number of values of an `unsigned int`. -/
def UINT_RANGE : Nat := 2 ^ 32

/-- An `MPlug` as the record of the answers it gives to the queries this code
makes.  `array`/`parent` are `none` when the corresponding call fails and
hands back the null plug. -/
inductive MPlug where
  | mk (node : MObject) (partialName : String) (isElement isChild : Bool)
      (logicalIndex : Nat) (array parent : Option MPlug) : MPlug

namespace MPlug

/-- The null plug `MPlug()`. -/
def null : MPlug := mk ⟨none⟩ "" false false 0 none none

/-- `MPlug::node()`. -/
def node : MPlug → MObject
  | mk n _ _ _ _ _ _ => n

/-- `MPlug::partialName(false, false, false, false, false, true)`: the long
attribute name without the node name. -/
def partialName : MPlug → String
  | mk _ n _ _ _ _ _ => n

/-- `MPlug::isElement()`. -/
def isElement : MPlug → Bool
  | mk _ _ e _ _ _ _ => e

/-- `MPlug::isChild()`. -/
def isChild : MPlug → Bool
  | mk _ _ _ c _ _ _ => c

/-- `MPlug::logicalIndex()`, an `unsigned int`. -/
def logicalIndex : MPlug → Nat
  | mk _ _ _ _ i _ _ => i % UINT_RANGE

/-- `MPlug::array()`. -/
def array : MPlug → MPlug
  | mk _ _ _ _ _ (some a) _ => a
  | mk _ _ _ _ _ none _ => null

/-- `MPlug::parent()`. -/
def parent : MPlug → MPlug
  | mk _ _ _ _ _ _ (some p) => p
  | mk _ _ _ _ _ _ none => null

end MPlug

/-- The read-only scene-graph oracle: one field per Maya query made by the
export context. -/
structure MayaScene where
  /-- Status of `MFnDependencyNode(obj, &status)`. -/
  isDependencyNode : MObject → Bool
  /-- `MFnDependencyNode::name()`. -/
  nodeName : MObject → String
  /-- `MNamespace::stripNamespaceFromName`. -/
  stripNamespaceFromName : String → String
  /-- `MFnDependencyNode::findPlug(name, true, &status)`; `none` on failure. -/
  findPlug : MObject → String → Option MPlug
  /-- `MPlug::numConnectedElements()`. -/
  numConnectedElements : MPlug → Nat
  /-- `MPlug::connectionByPhysicalIndex(i)`. -/
  connectionByPhysicalIndex : MPlug → Nat → MPlug
  /-- `PxrUsdMayaUtil::GetConnected(plug)`. -/
  GetConnected : MPlug → MPlug
  /-- `MDagPath::getAllPathsTo(node, allDagPaths)`. -/
  getAllPathsTo : MObject → List MDagPath
  /-- Status of `MFnDagNode(dagPath, &status)`. -/
  isDagNode : MDagPath → Bool
  /-- `MFnDagNode::getConnectedSetsAndMembers(instanceNumber, sets, comps,
  true)`: the two parallel arrays as a list of pairs; `none` on failure. -/
  getConnectedSetsAndMembers : MDagPath → Nat → Option (List (MObject × MObject))
  /-- The indices visited by `MItMeshPolygon faceIt(dagPath, comp)` from
  `reset()` until `isDone()`. -/
  polygonIndices : MDagPath → MObject → List Int

/-! ## Export parameters and the context -/

/-- The fields of `PxrUsdMayaExportParams` read by the context. -/
structure PxrUsdMayaExportParams where
  bindableRoots : List MDagPath
  overrideRootPath : SdfPath
  exportCollectionBasedBindings : Bool

/-- An assignment: bound prim path and face indices (`VtIntArray`). -/
abbrev Assignment := SdfPath × List Int

/-- `PxrUsdMayaShadingModeExportContext::AssignmentVector`. -/
abbrev AssignmentVector := List Assignment

/-- The data members of `PxrUsdMayaShadingModeExportContext` (the stage is
threaded explicitly through the operations that write it). -/
structure PxrUsdMayaShadingModeExportContext where
  _shadingEngine : MObject
  _dagPathToUsdMap : MDagPath → Option SdfPath
  _exportParams : PxrUsdMayaExportParams
  _bindableRoots : Finset SdfPath
  _surfaceShaderPlugName : String

/-- The root-namespace rewrite of lines 84-86 and 188-190:
`usdPath.ReplacePrefix(usdPath.GetPrefixes()[0], overrideRootPath)` when the
override is not empty.  `none` when `GetPrefixes()` has no element 0. -/
def applyOverrideRootPath (overrideRootPath usdPath : SdfPath) : Option SdfPath :=
  if !overrideRootPath.IsEmpty then
    match usdPath.GetPrefixes with
    | [] => none
    | p0 :: _ => some (usdPath.ReplacePrefix p0 overrideRootPath)
  else
    some usdPath

/-- The `TF_FOR_ALL` loop of the constructor over `exportParams.bindableRoots`. -/
def collectBindableRoots (dagPathToUsdMap : MDagPath → Option SdfPath)
    (exportParams : PxrUsdMayaExportParams) :
    List MDagPath → Finset SdfPath → Option (Finset SdfPath)
  | [], roots => some roots
  | bindableRootDagPath :: rest, roots =>
    match dagPathToUsdMap bindableRootDagPath with
    | none => collectBindableRoots dagPathToUsdMap exportParams rest roots
    | some usdPath =>
      match applyOverrideRootPath exportParams.overrideRootPath usdPath with
      | none => none
      | some usdPath =>
        collectBindableRoots dagPathToUsdMap exportParams rest (insert usdPath roots)

/-- The constructor.  `none` only when the root rewrite reads past the end of
an empty prefix list. -/
def PxrUsdMayaShadingModeExportContext.create (shadingEngine : MObject)
    (dagPathToUsdMap : MDagPath → Option SdfPath)
    (exportParams : PxrUsdMayaExportParams) :
    Option PxrUsdMayaShadingModeExportContext :=
  let bindableRoots :=
    if exportParams.bindableRoots.isEmpty then
      some {SdfPath.AbsoluteRootPath}
    else
      collectBindableRoots dagPathToUsdMap exportParams exportParams.bindableRoots ∅
  bindableRoots.map fun roots =>
    { _shadingEngine := shadingEngine
      _dagPathToUsdMap := dagPathToUsdMap
      _exportParams := exportParams
      _bindableRoots := roots
      _surfaceShaderPlugName := "surfaceShader" }

/-! ## `GetAssignments` -/

/-- The inner loop over `sgObjs`/`compObjs` (lines 208-222). -/
def collectMembers (scene : MayaScene) (shadingEngine : MObject) (dagPath : MDagPath)
    (usdPath : SdfPath) : List (MObject × MObject) → AssignmentVector → AssignmentVector
  | [], ret => ret
  | (sgObj, compObj) :: rest, ret =>
    if sgObj ≠ shadingEngine then
      collectMembers scene shadingEngine dagPath usdPath rest ret
    else
      let faceIndices : List Int :=
        if !compObj.isNull then scene.polygonIndices dagPath compObj else []
      collectMembers scene shadingEngine dagPath usdPath rest (ret ++ [(usdPath, faceIndices)])

/-- Lines 149-155: a plug `instObjGroups[x].objectGroups[y]` is replaced by the
plug `instObjGroups[x]` two levels up. -/
def instObjGroupsPlug (connectedPlug : MPlug) : MPlug :=
  if connectedPlug.isElement && connectedPlug.array.isChild then
    connectedPlug.array.parent
  else connectedPlug

/-- Lines 174-222: the rest of an iteration once the DAG path of the instance
is known, on the state `(ret, seenBoundPrimPaths)`. -/
def assignDagPath (scene : MayaScene) (ctx : PxrUsdMayaShadingModeExportContext)
    (dagPath : MDagPath) (instanceNumber : Nat) (st : AssignmentVector × Finset SdfPath) :
    Option (AssignmentVector × Finset SdfPath) :=
  if !scene.isDagNode dagPath then
    some st
  else
    match ctx._dagPathToUsdMap dagPath with
    | none => some st
    | some usdPath =>
      match applyOverrideRootPath ctx._exportParams.overrideRootPath usdPath with
      | none => none
      | some usdPath =>
        if usdPath ∈ st.2 then
          some st
        else
          let seenBoundPrimPaths := insert usdPath st.2
          if SdfPathFindLongestPrefix ctx._bindableRoots usdPath = none then
            some (st.1, seenBoundPrimPaths)
          else
            match scene.getConnectedSetsAndMembers dagPath instanceNumber with
            | none => some (st.1, seenBoundPrimPaths)
            | some members =>
              some (collectMembers scene ctx._shadingEngine dagPath usdPath members st.1,
                seenBoundPrimPaths)

/-- One iteration of the loop over the connected elements of `dagSetMembers`
(lines 141-222) on the state `(ret, seenBoundPrimPaths)`. -/
def getAssignmentsBody (scene : MayaScene) (ctx : PxrUsdMayaShadingModeExportContext)
    (dsmPlug : MPlug) (i : Nat) (st : AssignmentVector × Finset SdfPath) :
    Option (AssignmentVector × Finset SdfPath) :=
  let dsmElemPlug := scene.connectionByPhysicalIndex dsmPlug i
  let connectedPlug := instObjGroupsPlug (scene.GetConnected dsmElemPlug)
  let instanceNumber := connectedPlug.logicalIndex
  let allDagPaths := scene.getAllPathsTo connectedPlug.node
  if h : instanceNumber ≥ allDagPaths.length then
    some st
  else
    assignDagPath scene ctx (allDagPaths.get ⟨instanceNumber, Nat.lt_of_not_ge h⟩)
      instanceNumber st

/-- The `for` loop over the physical indices of the connected elements. -/
def getAssignmentsLoop (scene : MayaScene) (ctx : PxrUsdMayaShadingModeExportContext)
    (dsmPlug : MPlug) :
    List Nat → AssignmentVector × Finset SdfPath → Option (AssignmentVector × Finset SdfPath)
  | [], st => some st
  | i :: rest, st =>
    match getAssignmentsBody scene ctx dsmPlug i st with
    | none => none
    | some st => getAssignmentsLoop scene ctx dsmPlug rest st

/-- `PxrUsdMayaShadingModeExportContext::GetAssignments()`.  `none` only when
the root rewrite reads past the end of an empty prefix list. -/
def GetAssignments (scene : MayaScene) (ctx : PxrUsdMayaShadingModeExportContext) :
    Option AssignmentVector :=
  if !scene.isDependencyNode ctx._shadingEngine then
    some []
  else
    match scene.findPlug ctx._shadingEngine "dagSetMembers" with
    | none => some []
    | some dsmPlug =>
      (getAssignmentsLoop scene ctx dsmPlug
        (List.range (scene.numConnectedElements dsmPlug)) ([], ∅)).map Prod.fst

/-! ## `GetStandardAttrName` -/

/-- The text `%d` produces for an `unsigned int` argument: the 32 bits are
read back as an `int`. -/
def printfSignedOfUnsigned (u : Nat) : String :=
  let v := u % UINT_RANGE
  if v < UINT_RANGE / 2 then toString v else "-" ++ toString (UINT_RANGE - v)

/-- `PxrUsdMayaShadingModeExportContext::GetStandardAttrName`; the failure
sentinel `TfToken()` converts to the empty string. -/
def GetStandardAttrName (plug : MPlug) (allowMultiElementArrays : Bool) : String :=
  if plug.isElement then
    let mayaPlgName := plug.array.partialName
    let logicalIdx := plug.logicalIndex
    if allowMultiElementArrays then
      mayaPlgName ++ "_" ++ printfSignedOfUnsigned logicalIdx
    else if logicalIdx = 0 then
      mayaPlgName
    else
      ""
  else
    plug.partialName

/-! ## The USD stage -/

/-- The composed data of one prim, as far as this code reads or authors it. -/
structure UsdPrimData where
  /-- The specifier is `def` (`true`) or `over` (`false`). -/
  defined : Bool
  typeName : String
  /-- `UsdPrim::IsInstance()`; cleared by `SetInstanceable(false)`. -/
  isInstance : Bool
  /-- Target of the `material:binding` relationship. -/
  materialBinding : Option SdfPath
  /-- `UsdGeomSubset` attribute `elementType`. -/
  elementType : Option String
  /-- `UsdGeomSubset` attribute `indices`. -/
  indices : Option (List Int)
  /-- `UsdGeomSubset` attribute `familyName`. -/
  familyName : Option String
  /-- Attribute `subsetFamily:materialBind:familyType` of the owning prim. -/
  materialBindFamilyType : Option String
  /-- `isPartition` of the old-style material face set, when it exists. -/
  faceSetIsPartition : Option Bool
  /-- Face groups of the old-style material face set with binding targets. -/
  faceGroups : List (List Int × SdfPath)
  deriving DecidableEq, Repr

/-- A prim freshly created by `OverridePrim`: an untyped `over`. -/
def overPrimData : UsdPrimData :=
  { defined := false, typeName := "", isInstance := false, materialBinding := none,
    elementType := none, indices := none, familyName := none,
    materialBindFamilyType := none, faceSetIsPartition := none, faceGroups := [] }

/-- A stage: the prim data at each prim path that has a prim.  The
pseudo-root `/` always exists and carries no data; only prim paths are ever
read or written. -/
abbrev UsdStage := SdfPath → Option UsdPrimData

/-- A `UsdPrim` handle: the path of a prim of the stage, or `none` for the
invalid prim `UsdPrim()`. -/
abbrev UsdPrim := Option SdfPath

/-- `UsdPrim::GetPath()`; the invalid prim has the empty path. -/
def UsdPrim.GetPath (prim : UsdPrim) : SdfPath := prim.getD SdfPath.empty

namespace UsdStage

/-- The prim data at a prim path (`none` for `/` and the empty path). -/
def data (stage : UsdStage) (path : SdfPath) : Option UsdPrimData :=
  if path.IsPrimPath then stage path else none

/-- `UsdStage::GetPrimAtPath(path)`: the pseudo-root for `/`, the prim at a
prim path when there is one, the invalid prim otherwise. -/
def GetPrimAtPath (stage : UsdStage) (path : SdfPath) : UsdPrim :=
  if path = SdfPath.AbsoluteRootPath then some path
  else if (stage.data path).isSome then some path
  else none

/-- `UsdPrim::IsInstance()` of the prim at `path`. -/
def IsInstance (stage : UsdStage) (path : SdfPath) : Bool :=
  match stage.data path with
  | some d => d.isInstance
  | none => false

/-- `UsdPrim::IsDefined()`: the prim and all its ancestors have a defining
specifier. -/
def IsDefined (stage : UsdStage) (path : SdfPath) : Bool :=
  path.GetPrefixes.all fun q =>
    match stage q with
    | some d => d.defined
    | none => false

/-- Author opinions on a held prim: `f` is applied to the data of the prim
when the handle is valid, is not the pseudo-root and the prim exists. -/
def author (stage : UsdStage) (prim : UsdPrim) (f : UsdPrimData → UsdPrimData) : UsdStage :=
  match prim with
  | none => stage
  | some path =>
    match stage.data path with
    | none => stage
    | some d => fun q => if q = path then some (f d) else stage q

/-- `UsdStage::OverridePrim(path)`: the existing prim, or else `over` prims
are created at the path and at its nonexistent ancestors. -/
def OverridePrim (stage : UsdStage) (path : SdfPath) : UsdStage × UsdPrim :=
  match stage.GetPrimAtPath path with
  | some prim => (stage, some prim)
  | none =>
    if path.IsPrimPath then
      (fun q =>
          if q ∈ path.GetPrefixes ∧ (stage q).isNone then some overPrimData else stage q,
        some path)
    else
      (stage, none)

/-- The authoring of `UsdStage::DefinePrim(path, typeName)` once the path has
passed validation: the prim is returned as it is when already defined with a
matching type; otherwise a `def` with `typeName` is authored at the path and
`def` specifiers at its nonexistent or undefined ancestors. -/
def DefinePrimSpec (stage : UsdStage) (path : SdfPath) (typeName : String) : UsdStage × UsdPrim :=
  if path = SdfPath.AbsoluteRootPath then
    (stage, some path)
  else if !path.IsPrimPath then
    (stage, none)
  else if stage.IsDefined path &&
      (typeName = "" || (stage path).map (fun d => d.typeName) = some typeName) then
    (stage, some path)
  else
    (fun q =>
        if q = path then
          some { (stage q).getD overPrimData with
            defined := true
            typeName := if typeName = "" then ((stage q).getD overPrimData).typeName
              else typeName }
        else if q ∈ path.GetParentPath.GetPrefixes then
          some { (stage q).getD overPrimData with defined := true }
        else stage q,
      some path)

/-- `UsdStage::_IsObjectDescendantOfInstance(path)`: some strict ancestor of
the path is an instance prim. -/
def IsObjectDescendantOfInstance (stage : UsdStage) (path : SdfPath) : Bool :=
  path.GetParentPath.GetPrefixes.any fun q => stage.IsInstance q

/-- `UsdStage::DefinePrim(path, typeName)`: below an instance nothing can be
authored, the call fails and hands back the invalid prim; otherwise the prim
is defined. -/
def DefinePrim (stage : UsdStage) (path : SdfPath) (typeName : String) : UsdStage × UsdPrim :=
  if stage.IsObjectDescendantOfInstance path then
    (stage, none)
  else
    stage.DefinePrimSpec path typeName

end UsdStage

/-- `UsdPrim::SetInstanceable(false)`. -/
def SetInstanceableFalse (stage : UsdStage) (prim : UsdPrim) : UsdStage :=
  stage.author prim fun d => { d with isInstance := false }

/-- `UsdShadeMaterialBindingAPI(prim).Bind(material)` and
`material.Bind(prim)`: the direct binding relationship of `prim` targets the
material's path. -/
def Bind (stage : UsdStage) (prim : UsdPrim) (material : UsdPrim) : UsdStage :=
  stage.author prim fun d => { d with materialBinding := some material.GetPath }

/-- `UsdShadeMaterialBindingAPI(prim).SetMaterialBindSubsetsFamilyType(t)`. -/
def SetMaterialBindSubsetsFamilyType (stage : UsdStage) (prim : UsdPrim) (familyType : String) :
    UsdStage :=
  stage.author prim fun d => { d with materialBindFamilyType := some familyType }

/-- `UsdGeomSubset::GetFamilyType(geom, materialBind)`: the empty token when
the attribute is not there. -/
def GetMaterialBindSubsetsFamilyType (stage : UsdStage) (prim : UsdPrim) : String :=
  match stage.data prim.GetPath with
  | some d => d.materialBindFamilyType.getD ""
  | none => ""

/-- `UsdGeomSubset::CreateGeomSubset(geom, subsetName, elementType, indices,
familyName)`: defines the subset prim at `geom/subsetName` and sets its three
attributes.  The code reaches it through line 381 only, on the prim that
`_UninstancePrim` has just returned, so the definition is modelled by its
authoring. -/
def CreateGeomSubset (stage : UsdStage) (geom : UsdPrim) (subsetName elementType : String)
    (indices : List Int) (familyName : String) : UsdStage × UsdPrim :=
  let subsetPath := geom.GetPath.AppendChild subsetName
  let defined := stage.DefinePrimSpec subsetPath "GeomSubset"
  (defined.1.author defined.2 fun d =>
      { d with
        elementType := some elementType
        indices := some indices
        familyName := some familyName },
    defined.2)

/-- `UsdShadeMaterialBindingAPI(prim).CreateMaterialBindSubset(subsetName,
indices, elementType)`: creates the subset in the `materialBind` family and
makes the family `nonOverlapping` when its type is unset or `unrestricted`. -/
def CreateMaterialBindSubset (stage : UsdStage) (prim : UsdPrim) (subsetName : String)
    (indices : List Int) (elementType : String) : UsdStage × UsdPrim :=
  let result := CreateGeomSubset stage prim subsetName elementType indices "materialBind"
  let familyType := GetMaterialBindSubsetsFamilyType result.1 prim
  if familyType = "" ∨ familyType = "unrestricted" then
    (SetMaterialBindSubsetsFamilyType result.1 prim "nonOverlapping", result.2)
  else
    result

/-- `material.CreateMaterialFaceSet(prim)` followed by
`faceSet.AppendFaceGroup(faceIndices, materialPath)`: the old-style face set
is created as a partition when absent and gets one more face group. -/
def AppendMaterialFaceGroup (stage : UsdStage) (prim : UsdPrim) (faceIndices : List Int)
    (materialPath : SdfPath) : UsdStage :=
  stage.author prim fun d =>
    { d with
      faceSetIsPartition := some (d.faceSetIsPartition.getD true)
      faceGroups := d.faceGroups ++ [(faceIndices, materialPath)] }

/-! ## Material placement and binding -/

/-- What lies outside the context object: the scene oracle,
`PxrUsdMayaUtil::SanitizeName` and the environment setting
`PIXMAYA_EXPORT_OLD_STYLE_FACESETS`. -/
structure ExportEnv where
  scene : MayaScene
  SanitizeName : String → String
  PIXMAYA_EXPORT_OLD_STYLE_FACESETS : Bool

/-- The `TF_FOR_ALL` loop of `_GetMaterialParent` (lines 232-242). -/
def commonAncestorLoop (stage : UsdStage) : AssignmentVector → SdfPath → SdfPath
  | [], commonAncestor => commonAncestor
  | (assn, _) :: rest, commonAncestor =>
    if (stage.GetPrimAtPath assn).isSome then
      if commonAncestor.IsEmpty then
        commonAncestorLoop stage rest assn
      else
        commonAncestorLoop stage rest (commonAncestor.GetCommonPrefix assn)
    else
      commonAncestorLoop stage rest commonAncestor

/-- The loop `while (!loc.IsRootPrimPath()) loc = loc.GetParentPath();` with a
bound on the number of iterations; `none` when the bound is exhausted. -/
def climbToRootPrimPath : Nat → SdfPath → Option SdfPath
  | 0, _ => none
  | fuel + 1, shaderExportLocation =>
    if shaderExportLocation.IsRootPrimPath then some shaderExportLocation
    else climbToRootPrimPath fuel shaderExportLocation.GetParentPath

/-- `SdfPath::GetPathElementCount()`. -/
def SdfPath.GetPathElementCount : SdfPath → Nat
  | SdfPath.empty => 0
  | SdfPath.abs l => l.length

/-- `_GetMaterialParent(stage, assignments)`; `none` if the climbing loop did
not terminate within one iteration per path element. -/
def _GetMaterialParent (stage : UsdStage) (assignments : AssignmentVector) :
    Option (UsdStage × UsdPrim) :=
  let commonAncestor := commonAncestorLoop stage assignments SdfPath.empty
  if commonAncestor.IsEmpty then
    some (stage, none)
  else if commonAncestor = SdfPath.AbsoluteRootPath then
    some (stage, some SdfPath.AbsoluteRootPath)
  else
    match climbToRootPrimPath commonAncestor.GetPathElementCount commonAncestor with
    | none => none
    | some shaderExportLocation =>
      some (stage.DefinePrim (shaderExportLocation.AppendChild "Looks") "Scope")

/-- `_IsInstanceProxyPath(stage, path)`. -/
def _IsInstanceProxyPath (stage : UsdStage) (path : SdfPath) : Bool :=
  path.GetParentPath.GetPrefixes.any fun q =>
    match stage.GetPrimAtPath q with
    | some prim => stage.IsInstance prim
    | none => false

/-- The loop of `_UninstancePrim` over the prefixes, with its `break`. -/
def uninstanceLoop (stage : UsdStage) : List SdfPath → UsdStage
  | [] => stage
  | q :: rest =>
    match stage.GetPrimAtPath q with
    | some prim =>
      if stage.IsInstance prim then
        uninstanceLoop (SetInstanceableFalse stage (some prim)) rest
      else
        uninstanceLoop stage rest
    | none => stage

/-- `_UninstancePrim(stage, path, reason)`. -/
def _UninstancePrim (stage : UsdStage) (path : SdfPath) : UsdStage × UsdPrim :=
  (uninstanceLoop stage path.GetPrefixes).OverridePrim path

/-- The result of `MakeStandardMaterialPrim`: the stage after the call, the
returned prim and the set behind the `boundPrimPaths` pointer (`none` for a
null pointer). -/
structure MakeResult where
  stage : UsdStage
  prim : UsdPrim
  boundPrimPaths : Option (Finset SdfPath)

/-- The body of the loop over `assignmentsToBind` (lines 340-397). -/
def bindAssignment (env : ExportEnv) (ctx : PxrUsdMayaShadingModeExportContext)
    (material : UsdPrim) (materialPath : SdfPath) (materialName : String)
    (st : UsdStage × Option (Finset SdfPath)) (a : Assignment) :
    UsdStage × Option (Finset SdfPath) :=
  let boundPrimPath := a.1
  let faceIndices := a.2
  if faceIndices.isEmpty then
    let stage :=
      if !ctx._exportParams.exportCollectionBasedBindings then
        if _IsInstanceProxyPath st.1 boundPrimPath then
          st.1
        else
          let boundPrim := st.1.OverridePrim boundPrimPath
          Bind boundPrim.1 boundPrim.2 material
      else
        st.1
    (stage, st.2.map fun s => insert boundPrimPath s)
  else if env.PIXMAYA_EXPORT_OLD_STYLE_FACESETS then
    let boundPrim := _UninstancePrim st.1 boundPrimPath
    (AppendMaterialFaceGroup boundPrim.1 boundPrim.2 faceIndices materialPath, st.2)
  else
    let boundPrim := _UninstancePrim st.1 boundPrimPath
    let faceSubset :=
      CreateMaterialBindSubset boundPrim.1 boundPrim.2 materialName faceIndices "face"
    let stage :=
      if !ctx._exportParams.exportCollectionBasedBindings then
        Bind faceSubset.1 faceSubset.2 material
      else
        faceSubset.1
    (SetMaterialBindSubsetsFamilyType stage boundPrim.2 "partition",
      st.2.map fun s => insert faceSubset.2.GetPath s)

/-- The material name of lines 317-328 before sanitizing; `none` when the
shading engine is not a dependency node (the call returns early). -/
def materialNameOf (env : ExportEnv) (ctx : PxrUsdMayaShadingModeExportContext)
    (name : String) : Option String :=
  if name.isEmpty then
    if !env.scene.isDependencyNode ctx._shadingEngine then none
    else some (env.scene.stripNamespaceFromName (env.scene.nodeName ctx._shadingEngine))
  else
    some name

/-- `PxrUsdMayaShadingModeExportContext::MakeStandardMaterialPrim`; `none` if
the call did not terminate. -/
def MakeStandardMaterialPrim (env : ExportEnv) (ctx : PxrUsdMayaShadingModeExportContext)
    (stage : UsdStage) (assignmentsToBind : AssignmentVector) (name : String)
    (boundPrimPaths : Option (Finset SdfPath)) : Option MakeResult :=
  match materialNameOf env ctx name with
  | none => some ⟨stage, none, boundPrimPaths⟩
  | some materialName =>
    let materialName := env.SanitizeName materialName
    match _GetMaterialParent stage assignmentsToBind with
    | none => none
    | some (stage, none) => some ⟨stage, none, boundPrimPaths⟩
    | some (stage, some materialParent) =>
      let materialPath := materialParent.AppendChild materialName
      let material := stage.DefinePrim materialPath "Material"
      let st := assignmentsToBind.foldl
        (bindAssignment env ctx material.2 materialPath materialName)
        (material.1, boundPrimPaths)
      some ⟨st.1, material.2, st.2⟩

/-! ## The file-texture shader writer (`translators/shading/usdFileTextureWriter.cpp`)

The writer authors the inputs and outputs of one `UsdShadeShader` prim.  The
USD attribute store is a write-only sink for it, so the authoring is modelled
by the sequence of schema calls the writer makes on that prim.  Plug values
come from the scene-graph oracle.  A `float` is never computed with, only
copied, so it is identified by its bit pattern. -/

/-- A `TfToken`, identified by its text; `TfToken()` is the empty text. -/
abbrev TfToken := String

/-- A `float`, as its IEEE-754 single-precision bit pattern. -/
structure float where
  bits : Nat
  deriving DecidableEq, Repr

/-- The literal `1.0f`. -/
def float.one : float := ⟨0x3F800000⟩

/-- The literal `0.0f`. -/
def float.zero : float := ⟨0⟩

/-- A `GfVec4f`. -/
structure GfVec4f where
  x : float
  y : float
  z : float
  w : float
  deriving DecidableEq, Repr

/-- The assignment `v[i] = a`. -/
def GfVec4f.set (v : GfVec4f) : Nat → float → GfVec4f
  | 0, a => { v with x := a }
  | 1, a => { v with y := a }
  | 2, a => { v with z := a }
  | 3, a => { v with w := a }
  | _, _ => v

/-- `GfVec3f::dimension`. -/
def GfVec3f.dimension : Nat := 3

/-- A `UsdTimeCode`, as the bit pattern of its `double`. -/
structure UsdTimeCode where
  bits : Nat
  deriving DecidableEq, Repr

/-- The members of `SdfValueTypeNames` the writer uses. -/
inductive SdfValueTypeName where
  | Asset | Float | Float2 | Float3 | Float4 | Token
  deriving DecidableEq, Repr

/-- The values the writer hands to `Set`. -/
inductive VtValue where
  | asset (path : String) : VtValue
  | vec4f (v : GfVec4f) : VtValue
  | token (t : TfToken) : VtValue
  deriving DecidableEq, Repr

/-- `UsdShadeAttributeType`. -/
inductive UsdShadeAttributeType where
  | Invalid | Input | Output
  deriving DecidableEq, Repr

/-- `UsdShadeUtils::GetPrefixForAttributeType`. -/
def UsdShadeUtils.GetPrefixForAttributeType : UsdShadeAttributeType → String
  | UsdShadeAttributeType.Input => "inputs:"
  | UsdShadeAttributeType.Output => "outputs:"
  | UsdShadeAttributeType.Invalid => ""

/-- `UsdShadeUtils::GetFullName(baseName, type)`: the namespace prefix of the
attribute type followed by the base name. -/
def UsdShadeUtils.GetFullName (baseName : TfToken) (type : UsdShadeAttributeType) : TfToken :=
  UsdShadeUtils.GetPrefixForAttributeType type ++ baseName

/-- A schema call that authors on the shader prim of the writer. -/
inductive ShaderAuthoring where
  /-- `shaderSchema.CreateOutput(name, typeName)`. -/
  | CreateOutput (name : TfToken) (typeName : SdfValueTypeName) : ShaderAuthoring
  /-- `shaderSchema.CreateInput(name, typeName).Set(value, time)`. -/
  | CreateInputSet (name : TfToken) (typeName : SdfValueTypeName) (value : VtValue)
      (time : UsdTimeCode) : ShaderAuthoring
  deriving DecidableEq, Repr

/-- The name of the input a call creates and sets, if it is such a call. -/
def ShaderAuthoring.inputName : ShaderAuthoring → Option TfToken
  | ShaderAuthoring.CreateInputSet name _ _ _ => some name
  | ShaderAuthoring.CreateOutput _ _ => none

/-- What lies outside the writer object: the scene oracle with the plug
queries of `Write`, the path arithmetic on the file name, and the `Write` of
the base class. -/
structure ShaderWriterEnv where
  scene : MayaScene
  /-- `UsdMayaUtil::IsAuthored(plug)`. -/
  IsAuthored : MPlug → Bool
  /-- `MPlug::child(i)`. -/
  child : MPlug → Nat → MPlug
  /-- `MPlug::asString(&status)`; `none` when the status is not `kSuccess`. -/
  asString : MPlug → Option String
  /-- `MPlug::asFloat(&status)`; `none` when the status is not `kSuccess`. -/
  asFloat : MPlug → Option float
  /-- `MPlug::asBool(&status)`; `none` when the status is not `kSuccess`. -/
  asBool : MPlug → Option Bool
  /-- `boost::filesystem::relative(fileTextureName, usdDir, ec).generic_string()`
  for the directory `usdDir` of the root layer; `none` when `ec` is set. -/
  relativeToUsdDir : String → Option String
  /-- The calls made by `UsdMayaShaderWriter::Write(usdTime)`. -/
  UsdMayaShaderWriter_Write : UsdTimeCode → List ShaderAuthoring

/-- The members of the writer that `Write` and
`GetShadingAttributeNameForMayaAttrName` read.  `_usdPrim` is only ever
assigned from a `UsdShadeShader`, so `UsdShadeShader(_usdPrim)` is valid
exactly when `_usdPrim` is. -/
structure PxrUsdTranslators_FileTextureWriter where
  /-- `GetMayaObject()`. -/
  mayaObject : MObject
  _usdPrim : UsdPrim

/-- The state of a run of `Write`: the calls made so far, and whether the
function has returned. -/
abbrev WriteState := Except (List ShaderAuthoring) (List ShaderAuthoring)

/-- The loops `for (size_t i = 0u; i < GfVec3f::dimension; ++i)` that read the
children of a colour plug into a vector; `none` when a read fails. -/
def readChildren (env : ShaderWriterEnv) (plug : MPlug) : List Nat → GfVec4f → Option GfVec4f
  | [], v => some v
  | i :: rest, v =>
    match env.asFloat (env.child plug i) with
    | none => none
    | some a => readChildren env plug rest (v.set i a)

/-- Lines 198-229: the `file` input.  `Except.error` carries the calls made
when `Write` returns early. -/
def writeFile (env : ShaderWriterEnv) (writer : PxrUsdTranslators_FileTextureWriter)
    (usdTime : UsdTimeCode) (calls : List ShaderAuthoring) : WriteState :=
  match env.scene.findPlug writer.mayaObject "fileTextureName" with
  | none => Except.error calls
  | some fileTextureNamePlug =>
    match env.asString fileTextureNamePlug with
    | none => Except.error calls
    | some fileTextureName =>
      let fileTextureName :=
        match env.relativeToUsdDir fileTextureName with
        | some relativePath => relativePath
        | none => fileTextureName
      Except.ok (calls ++
        [ShaderAuthoring.CreateInputSet "file" SdfValueTypeName.Asset
          (VtValue.asset fileTextureName) usdTime])

/-- Lines 246-255 and 297-306: the three children of an authored colour plug
are read into the vector and the `is...Authored` flag is set; `none` when a
read fails. -/
def readColor (env : ShaderWriterEnv) (colorPlug : MPlug) (st : Bool × GfVec4f) :
    Option (Bool × GfVec4f) :=
  if env.IsAuthored colorPlug then
    (readChildren env colorPlug (List.range GfVec3f.dimension) st.2).map fun v => (true, v)
  else
    some st

/-- Lines 267-274 and 318-325: an authored alpha plug is read into component
3 and the `is...Authored` flag is set; `none` when the read fails. -/
def readAlpha (env : ShaderWriterEnv) (alphaPlug : MPlug) (st : Bool × GfVec4f) :
    Option (Bool × GfVec4f) :=
  if env.IsAuthored alphaPlug then
    (env.asFloat alphaPlug).map fun a => (true, st.2.set 3 a)
  else
    some st

/-- Lines 231-280 (`scale` from `colorGain`, `alphaGain`, initial value ones)
and lines 282-331 (`bias` from `colorOffset`, `alphaOffset`, initial value
zeros): the two passages differ in these names and values only.  The state
is the pair of the `is...Authored` flag and the vector. -/
def writeGain (env : ShaderWriterEnv) (writer : PxrUsdTranslators_FileTextureWriter)
    (usdTime : UsdTimeCode) (colorName alphaName : String) (inputName : TfToken)
    (initial : GfVec4f) (calls : List ShaderAuthoring) : WriteState :=
  match env.scene.findPlug writer.mayaObject colorName with
  | none => Except.error calls
  | some colorPlug =>
    match readColor env colorPlug (false, initial) with
    | none => Except.error calls
    | some st =>
      match env.scene.findPlug writer.mayaObject alphaName with
      | none => Except.error calls
      | some alphaPlug =>
        match readAlpha env alphaPlug st with
        | none => Except.error calls
        | some st =>
          if st.1 then
            Except.ok (calls ++
              [ShaderAuthoring.CreateInputSet inputName SdfValueTypeName.Float4
                (VtValue.vec4f st.2) usdTime])
          else
            Except.ok calls

/-- Lines 333-358: the `fallback` input from `defaultColor`, authored whether
or not the plug is authored. -/
def writeFallback (env : ShaderWriterEnv) (writer : PxrUsdTranslators_FileTextureWriter)
    (usdTime : UsdTimeCode) (calls : List ShaderAuthoring) : WriteState :=
  match env.scene.findPlug writer.mayaObject "defaultColor" with
  | none => Except.error calls
  | some defaultColorPlug =>
    match readChildren env defaultColorPlug (List.range GfVec3f.dimension)
        ⟨float.zero, float.zero, float.zero, float.one⟩ with
    | none => Except.error calls
    | some fallback =>
      Except.ok (calls ++
        [ShaderAuthoring.CreateInputSet "fallback" SdfValueTypeName.Float4
          (VtValue.vec4f fallback) usdTime])

/-- Lines 360-380 (`wrapS` from `wrapU`) and lines 382-402 (`wrapT` from
`wrapV`). -/
def writeWrap (env : ShaderWriterEnv) (writer : PxrUsdTranslators_FileTextureWriter)
    (usdTime : UsdTimeCode) (plugName : String) (inputName : TfToken)
    (calls : List ShaderAuthoring) : WriteState :=
  match env.scene.findPlug writer.mayaObject plugName with
  | none => Except.error calls
  | some wrapPlug =>
    if env.IsAuthored wrapPlug then
      match env.asBool wrapPlug with
      | none => Except.error calls
      | some wrap =>
        let wrapToken : TfToken := if wrap then "repeat" else "black"
        Except.ok (calls ++
          [ShaderAuthoring.CreateInputSet inputName SdfValueTypeName.Token
            (VtValue.token wrapToken) usdTime])
    else
      Except.ok calls

/-- The calls made when the run ends, by an early `return` or at the closing
brace. -/
def WriteState.calls : WriteState → List ShaderAuthoring
  | Except.ok calls => calls
  | Except.error calls => calls

/-- `PxrUsdTranslators_FileTextureWriter::Write(usdTime)`: the calls made on
the shader prim, those of the base class first. -/
def PxrUsdTranslators_FileTextureWriter.Write (env : ShaderWriterEnv)
    (writer : PxrUsdTranslators_FileTextureWriter) (usdTime : UsdTimeCode) :
    List ShaderAuthoring :=
  let calls := env.UsdMayaShaderWriter_Write usdTime
  if !env.scene.isDependencyNode writer.mayaObject then
    calls
  else if !writer._usdPrim.isSome then
    calls
  else
    WriteState.calls do
      let calls ← writeFile env writer usdTime calls
      let calls ← writeGain env writer usdTime "colorGain" "alphaGain" "scale"
        ⟨float.one, float.one, float.one, float.one⟩ calls
      let calls ← writeGain env writer usdTime "colorOffset" "alphaOffset" "bias"
        ⟨float.zero, float.zero, float.zero, float.zero⟩ calls
      let calls ← writeFallback env writer usdTime calls
      let calls ← writeWrap env writer usdTime "wrapU" "wrapS" calls
      writeWrap env writer usdTime "wrapV" "wrapT" calls

/-- `PxrUsdTranslators_FileTextureWriter::GetShadingAttributeNameForMayaAttrName`:
the returned token and the calls made on the shader prim. -/
def PxrUsdTranslators_FileTextureWriter.GetShadingAttributeNameForMayaAttrName
    (writer : PxrUsdTranslators_FileTextureWriter) (mayaAttrName : TfToken) :
    TfToken × List ShaderAuthoring :=
  let named : TfToken × SdfValueTypeName :=
    if mayaAttrName = "outColor" then
      ("rgb", SdfValueTypeName.Float3)
    else if mayaAttrName = "outColorR" then
      ("r", SdfValueTypeName.Float)
    else if mayaAttrName = "outColorG" then
      ("g", SdfValueTypeName.Float)
    else if mayaAttrName = "outColorB" then
      ("b", SdfValueTypeName.Float)
    else if mayaAttrName = "outAlpha" ∨ mayaAttrName = "outTransparency" ∨
        mayaAttrName = "outTransparencyR" ∨ mayaAttrName = "outTransparencyG" ∨
        mayaAttrName = "outTransparencyB" then
      ("a", SdfValueTypeName.Float)
    else
      ("", SdfValueTypeName.Float)
  let usdAttrName := named.1
  let usdTypeName := named.2
  if !usdAttrName.isEmpty then
    if !writer._usdPrim.isSome then
      ("", [])
    else
      (UsdShadeUtils.GetFullName usdAttrName UsdShadeAttributeType.Output,
        [ShaderAuthoring.CreateOutput usdAttrName usdTypeName])
  else
    (usdAttrName, [])

/-! ## Vocabulary of the statements and example data -/

/-- The face indices pushed for a member component (lines 213-220). -/
def faceIndicesOf (scene : MayaScene) (dagPath : MDagPath) (compObj : MObject) : List Int :=
  if !compObj.isNull then scene.polygonIndices dagPath compObj else []

/-- The root rewrite never reads past the end of a prefix list: there is no
override root, or every target path of the table has at least one element. -/
def RootRewriteDefined (ctx : PxrUsdMayaShadingModeExportContext) : Prop :=
  ctx._exportParams.overrideRootPath.IsEmpty = true ∨
    ∀ d p, ctx._dagPathToUsdMap d = some p → p.IsPrimPath = true

/-- Each answer of `getConnectedSetsAndMembers` lists the shading engine of
the context at most once. -/
def MembersListedOnce (scene : MayaScene) (ctx : PxrUsdMayaShadingModeExportContext) : Prop :=
  ∀ dagPath n members, scene.getConnectedSetsAndMembers dagPath n = some members →
    (members.filter fun m => decide (m.1 = ctx._shadingEngine)).length ≤ 1

/-- The shading engine of the example scene. -/
def exampleShadingEngine : MObject := ⟨some 1⟩

/-- The mesh shape of the example scene. -/
def exampleMesh : MObject := ⟨some 2⟩

/-- The plug `pCubeShape1.instObjGroups[0]`. -/
def exampleInstObjGroups : MPlug :=
  MPlug.mk exampleMesh "instObjGroups[0]" true false 0
    (some (MPlug.mk exampleMesh "instObjGroups" false false 0 none none)) none

/-- The plug `pCubeShape1.instObjGroups[0].objectGroups[y]`. -/
def exampleObjectGroups (y : Nat) : MPlug :=
  MPlug.mk exampleMesh "objectGroups" true false y
    (some (MPlug.mk exampleMesh "objectGroups" false true 0 none (some exampleInstObjGroups)))
    none

/-- The DAG path of the cube shape. -/
def exampleDagPath : MDagPath := ⟨"|pCube1|pCubeShape1"⟩

/-- The scene: `dagSetMembers[0]` and `dagSetMembers[1]` of the shading engine
are fed by the two object groups of the one instance of the shape, and the
shape lists the shading engine once per face group. -/
def exampleScene : MayaScene where
  isDependencyNode := fun _ => true
  nodeName := fun _ => "lambert2SG"
  stripNamespaceFromName := fun n => n
  findPlug := fun _ name =>
    if name = "dagSetMembers" then
      some (MPlug.mk exampleShadingEngine "dagSetMembers" false false 0 none none)
    else none
  numConnectedElements := fun _ => 2
  connectionByPhysicalIndex := fun dsmPlug i =>
    MPlug.mk exampleShadingEngine "dagSetMembers" true false i (some dsmPlug) none
  GetConnected := fun dsmElemPlug => exampleObjectGroups dsmElemPlug.logicalIndex
  getAllPathsTo := fun _ => [exampleDagPath]
  isDagNode := fun _ => true
  getConnectedSetsAndMembers := fun _ _ =>
    some [(exampleShadingEngine, ⟨some 10⟩), (exampleShadingEngine, ⟨some 11⟩)]
  polygonIndices := fun _ comp => if comp = ⟨some 10⟩ then [0, 1, 2] else [3, 4, 5]

/-- The same scene with both face groups gathered in one component. -/
def exampleSceneMerged : MayaScene :=
  { exampleScene with
    getConnectedSetsAndMembers := fun _ _ => some [(exampleShadingEngine, ⟨some 10⟩)] }

/-- The table sends the cube shape to `/pCube1/pCubeShape1`. -/
def exampleDagPathToUsdMap : MDagPath → Option SdfPath := fun d =>
  if d = exampleDagPath then some (SdfPath.abs ["pCube1", "pCubeShape1"]) else none

/-- Default export parameters: no bindable roots, no override root, direct
bindings. -/
def exampleExportParams : PxrUsdMayaExportParams :=
  { bindableRoots := [], overrideRootPath := SdfPath.empty,
    exportCollectionBasedBindings := false }

/-- The context the constructor builds for the example. -/
def exampleContext : PxrUsdMayaShadingModeExportContext :=
  { _shadingEngine := exampleShadingEngine
    _dagPathToUsdMap := exampleDagPathToUsdMap
    _exportParams := exampleExportParams
    _bindableRoots := {SdfPath.AbsoluteRootPath}
    _surfaceShaderPlugName := "surfaceShader" }

/-- Export parameters naming one bindable root that the table does not map. -/
def exampleUnmappedRootParams : PxrUsdMayaExportParams :=
  { bindableRoots := [⟨"|group1"⟩], overrideRootPath := SdfPath.empty,
    exportCollectionBasedBindings := false }

/-- The loop over the assignments of `MakeStandardMaterialPrim` when the
material could not be defined at `materialParent/materialName`: it runs with
the invalid material, and the invalid prim is returned. -/
def bindAllUndefined (env : ExportEnv) (ctx : PxrUsdMayaShadingModeExportContext)
    (stage : UsdStage) (materialParent : SdfPath) (materialName : String)
    (assignments : AssignmentVector) (boundPrimPaths : Option (Finset SdfPath)) : MakeResult :=
  let materialPath := materialParent.AppendChild materialName
  let st := assignments.foldl (bindAssignment env ctx none materialPath materialName)
    (stage, boundPrimPaths)
  ⟨st.1, none, st.2⟩

/-- The definition of the material under `materialParent`, when it is not
refused, and the loop over the assignments of `MakeStandardMaterialPrim` that
follows it. -/
def bindAll (env : ExportEnv) (ctx : PxrUsdMayaShadingModeExportContext)
    (stage : UsdStage) (materialParent : SdfPath) (materialName : String)
    (assignments : AssignmentVector) (boundPrimPaths : Option (Finset SdfPath)) : MakeResult :=
  let materialPath := materialParent.AppendChild materialName
  let material := stage.DefinePrimSpec materialPath "Material"
  let st := assignments.foldl (bindAssignment env ctx material.2 materialPath materialName)
    (material.1, boundPrimPaths)
  ⟨st.1, material.2, st.2⟩

/-- The bound prim paths of the vector that have a prim on the stage, in
order. -/
def existingTargets (stage : UsdStage) (assignments : AssignmentVector) : List SdfPath :=
  (assignments.map Prod.fst).filter fun p => (stage.GetPrimAtPath p).isSome

/-- Where the spec places the material for the common prefix `P`: `/<name>`
for the absolute root, `<T>/Looks/<name>` for a prefix with top-level
ancestor-or-self `<T>`. -/
def materialLocation : SdfPath → String → SdfPath
  | SdfPath.empty, _ => SdfPath.empty
  | SdfPath.abs [], materialName => SdfPath.abs [materialName]
  | SdfPath.abs (top :: _), materialName => SdfPath.abs [top, "Looks", materialName]

/-- A stage holding the cube of the example scene: `/pCube1` and
`/pCube1/pCubeShape1`. -/
def exampleStage : UsdStage := fun p =>
  if p = SdfPath.abs ["pCube1"] then some { overPrimData with defined := true, typeName := "Xform" }
  else if p = SdfPath.abs ["pCube1", "pCubeShape1"] then
    some { overPrimData with defined := true, typeName := "Mesh" }
  else none

/-- The environment of the examples: names are already legal identifiers and
old-style face sets are off. -/
def exampleEnv : ExportEnv :=
  { scene := exampleScene, SanitizeName := fun n => n,
    PIXMAYA_EXPORT_OLD_STYLE_FACESETS := false }

/-- The cube of the example stage and a sphere that has no prim there. -/
def exampleCubeAndSphere : AssignmentVector :=
  [(SdfPath.abs ["pCube1", "pCubeShape1"], []), (SdfPath.abs ["pSphere1", "pSphereShape1"], [])]

/-- The ways the data `d` of an existing prim at `q` may have become `d'`
during a step of the binding loop that binds the material at `M`, creates the
subset at `subsetPath` with `faces` and tags the family of `familyPath`. -/
def StepFrame (M subsetPath familyPath : SdfPath) (faces : List Int) (q : SdfPath)
    (d d' : UsdPrimData) : Prop :=
  (d'.isInstance = true → d.isInstance = true) ∧
  (d'.materialBinding = d.materialBinding ∨ d'.materialBinding = some M) ∧
  (d'.materialBindFamilyType = d.materialBindFamilyType ∨ q = familyPath) ∧
  (d'.typeName = d.typeName ∨ (q = subsetPath ∧ d'.typeName = "GeomSubset")) ∧
  (d'.elementType = d.elementType ∨ (q = subsetPath ∧ d'.elementType = some "face")) ∧
  (d'.familyName = d.familyName ∨ (q = subsetPath ∧ d'.familyName = some "materialBind")) ∧
  (d'.indices = d.indices ∨ (q = subsetPath ∧ d'.indices = some faces))

/-- Every prim of `s` is still there in `s'`, changed at most as `StepFrame`
allows. -/
def Frames (M subsetPath familyPath : SdfPath) (faces : List Int) (s s' : UsdStage) : Prop :=
  ∀ q d, s q = some d → ∃ d', s' q = some d' ∧ StepFrame M subsetPath familyPath faces q d d'

/-- The step creates a geometry subset: the face indices are not empty and
old-style face sets are off. -/
def IsSubsetStep (env : ExportEnv) (a : Assignment) : Prop :=
  a.2 ≠ [] ∧ env.PIXMAYA_EXPORT_OLD_STYLE_FACESETS = false

/-- The four things a geometry subset created for `faces` carries. -/
def IsFaceSubset (faces : List Int) (d : UsdPrimData) : Prop :=
  d.typeName = "GeomSubset" ∧ d.elementType = some "face" ∧ d.indices = some faces ∧
    d.familyName = some "materialBind"

/-- The stage right after `MakeStandardMaterialPrim` has defined the `Looks`
scope (when the common ancestor `P` is not `/`) and the material prim, neither
definition being refused. -/
def stageWithMaterial (stage : UsdStage) (P : SdfPath) (materialName : String) : UsdStage :=
  match P with
  | SdfPath.empty => stage
  | SdfPath.abs [] => (stage.DefinePrimSpec (SdfPath.abs [materialName]) "Material").1
  | SdfPath.abs (top :: _) =>
    ((stage.DefinePrimSpec (SdfPath.abs [top, "Looks"]) "Scope").1.DefinePrimSpec
      (SdfPath.abs [top, "Looks", materialName]) "Material").1

/-- The two face groups of the cube, as `GetAssignments` returns them for the
example scene. -/
def exampleTwoFaceGroups : AssignmentVector :=
  [(SdfPath.abs ["pCube1", "pCubeShape1"], [0, 1, 2]),
    (SdfPath.abs ["pCube1", "pCubeShape1"], [3, 4, 5])]

/-- Some strict ancestor of `t` is an instance prim of the stage. -/
def HasInstanceAncestor (stage : UsdStage) (t : SdfPath) : Prop :=
  ∃ q, q ≠ t ∧ t.HasPrefix q = true ∧ stage.IsInstance q = true

/-- The element `colorEntryList[2147483648]` of an array attribute. -/
def exampleLargeIndexPlug : MPlug :=
  MPlug.mk ⟨some 3⟩ "colorEntryList[2147483648]" true false 2147483648
    (some (MPlug.mk ⟨some 3⟩ "colorEntryList" false false 0 none none)) none

/-- An edit of the data of one prim: the fields it overwrites. -/
structure PrimEdit where
  /-- Make the specifier `def`. -/
  defined : Bool
  typeName : Option String
  /-- Clear the instance flag. -/
  clearInstance : Bool
  materialBinding : Option SdfPath
  elementType : Option String
  indices : Option (List Int)
  familyName : Option String
  materialBindFamilyType : Option String

/-- The data after the edit. -/
def PrimEdit.apply (e : PrimEdit) (d : UsdPrimData) : UsdPrimData :=
  { defined := e.defined || d.defined
    typeName := e.typeName.getD d.typeName
    isInstance := !e.clearInstance && d.isInstance
    materialBinding := e.materialBinding.orElse fun _ => d.materialBinding
    elementType := e.elementType.orElse fun _ => d.elementType
    indices := e.indices.orElse fun _ => d.indices
    familyName := e.familyName.orElse fun _ => d.familyName
    materialBindFamilyType := e.materialBindFamilyType.orElse fun _ => d.materialBindFamilyType
    faceSetIsPartition := d.faceSetIsPartition
    faceGroups := d.faceGroups }

/-- The edit `e₁` followed by the edit `e₂`. -/
def PrimEdit.comp (e₂ e₁ : PrimEdit) : PrimEdit :=
  { defined := e₂.defined || e₁.defined
    typeName := e₂.typeName.orElse fun _ => e₁.typeName
    clearInstance := e₂.clearInstance || e₁.clearInstance
    materialBinding := e₂.materialBinding.orElse fun _ => e₁.materialBinding
    elementType := e₂.elementType.orElse fun _ => e₁.elementType
    indices := e₂.indices.orElse fun _ => e₁.indices
    familyName := e₂.familyName.orElse fun _ => e₁.familyName
    materialBindFamilyType :=
      e₂.materialBindFamilyType.orElse fun _ => e₁.materialBindFamilyType }

/-- The edit that changes nothing. -/
def PrimEdit.none : PrimEdit :=
  { defined := false, typeName := Option.none, clearInstance := false,
    materialBinding := Option.none, elementType := Option.none, indices := Option.none,
    familyName := Option.none, materialBindFamilyType := Option.none }

/-- Ensure a prim exists at `q` (an untyped `over` when it did not) and apply
the edit to it. -/
def editAt (q : SdfPath) (e : PrimEdit) (s : UsdStage) : UsdStage :=
  fun r => if r = q then some (e.apply ((s q).getD overPrimData)) else s r

/-- Apply a log of edits in order. -/
def applyEdits (W : List (SdfPath × PrimEdit)) (s : UsdStage) : UsdStage :=
  W.foldl (fun s w => editAt w.1 w.2 s) s

/-- The net edit a log makes at `r`, when it touches `r`. -/
def netEdit : List (SdfPath × PrimEdit) → SdfPath → Option PrimEdit
  | [], _ => Option.none
  | (q, e) :: W, r =>
    if r = q then
      some (match netEdit W r with
        | Option.none => e
        | some e' => e'.comp e)
    else netEdit W r

/-- The edit of `SetInstanceable(false)`. -/
def clearInstanceEdit : PrimEdit := { PrimEdit.none with clearInstance := true }

/-- The edit of a direct binding to the material at `M`. -/
def bindEdit (M : SdfPath) : PrimEdit := { PrimEdit.none with materialBinding := some M }

/-- The edit that sets the family type of the material-bind subsets. -/
def familyTypeEdit (T : String) : PrimEdit :=
  { PrimEdit.none with materialBindFamilyType := some T }

/-- The edit that sets the three attributes of a material-bind face subset. -/
def subsetAttrsEdit (faces : List Int) : PrimEdit :=
  { PrimEdit.none with
    elementType := some "face", indices := some faces, familyName := some "materialBind" }

/-- The edit `DefinePrim` makes at the ancestors: the specifier becomes `def`. -/
def defEdit : PrimEdit := { PrimEdit.none with defined := true }

/-- The edit `DefinePrim` makes at the path: a `def` of type `T`. -/
def defTypeEdit (T : String) : PrimEdit :=
  { PrimEdit.none with defined := true, typeName := some T }

/-- The edits of `DefinePrim(path, T)` when it is not refused. -/
def defineEdits (path : SdfPath) (T : String) : List (SdfPath × PrimEdit) :=
  path.GetParentPath.GetPrefixes.map (fun q => (q, defEdit)) ++ [(path, defTypeEdit T)]

/-- The edits of one step of the binding loop on a stage that has the bound
prim and its ancestors, with old-style face sets off, when a whole-object
bound prim path is no instance proxy path. -/
def stepEdits (coll : Bool) (M : SdfPath) (materialName : String) (a : Assignment) :
    List (SdfPath × PrimEdit) :=
  if a.2.isEmpty then
    if coll || !a.1.IsPrimPath then [] else [(a.1, bindEdit M)]
  else
    a.1.GetPrefixes.map (fun q => (q, clearInstanceEdit)) ++
      (defineEdits (a.1.AppendChild materialName) "GeomSubset" ++
        [(a.1.AppendChild materialName, subsetAttrsEdit a.2)]) ++
      ((if coll then [] else [(a.1.AppendChild materialName, bindEdit M)]) ++
        (if a.1.IsPrimPath then [(a.1, familyTypeEdit "partition")] else []))

/-- The stage has every bound prim of the list with its ancestors, and, when
direct bindings are authored, no whole-object bound prim path is an instance
proxy path. -/
def ReadyToBind (ctx : PxrUsdMayaShadingModeExportContext) (l : AssignmentVector)
    (s : UsdStage) : Prop :=
  ∀ a ∈ l,
    ((s.GetPrimAtPath a.1).isSome = true ∧ ∀ q ∈ a.1.GetPrefixes, (s q).isSome = true) ∧
      (a.2 = [] → ctx._exportParams.exportCollectionBasedBindings = false →
        _IsInstanceProxyPath s a.1 = false)

/-- The edits that define the `Looks` scope and the material prim for the
common ancestor `P`. -/
def materialEdits (P : SdfPath) (materialName : String) : List (SdfPath × PrimEdit) :=
  match P with
  | SdfPath.empty => []
  | SdfPath.abs [] => defineEdits (SdfPath.abs [materialName]) "Material"
  | SdfPath.abs (top :: _) =>
    defineEdits (SdfPath.abs [top, "Looks"]) "Scope" ++
      defineEdits (SdfPath.abs [top, "Looks", materialName]) "Material"

/-- The whole log of a successful call. -/
def totalEdits (coll : Bool) (P : SdfPath) (materialName : String)
    (assignments : AssignmentVector) : List (SdfPath × PrimEdit) :=
  materialEdits P materialName ++
    assignments.flatMap (stepEdits coll (materialLocation P materialName) materialName)

/-- An instance `/inst` with two meshes below it. -/
def exampleInstanceStage : UsdStage := fun p =>
  if p = SdfPath.abs ["inst"] then
    some { overPrimData with defined := true, typeName := "Xform", isInstance := true }
  else if p = SdfPath.abs ["inst", "a"] ∨ p = SdfPath.abs ["inst", "b"] then
    some { overPrimData with defined := true, typeName := "Mesh" }
  else none

/-- A group `/grp` that holds an instance `/grp/inst` with two meshes below
it. -/
def exampleGroupInstanceStage : UsdStage := fun p =>
  if p = SdfPath.abs ["grp"] then
    some { overPrimData with defined := true, typeName := "Xform" }
  else if p = SdfPath.abs ["grp", "inst"] then
    some { overPrimData with defined := true, typeName := "Xform", isInstance := true }
  else if p = SdfPath.abs ["grp", "inst", "a"] ∨ p = SdfPath.abs ["grp", "inst", "b"] then
    some { overPrimData with defined := true, typeName := "Mesh" }
  else none

/-- A set `/set` whose `Looks` scope is an instance with a mesh `/set/Looks/x`
below it. -/
def exampleLooksInstanceStage : UsdStage := fun p =>
  if p = SdfPath.abs ["set"] then
    some { overPrimData with defined := true, typeName := "Xform" }
  else if p = SdfPath.abs ["set", "Looks"] then
    some { overPrimData with defined := true, typeName := "Scope", isInstance := true }
  else if p = SdfPath.abs ["set", "Looks", "x"] then
    some { overPrimData with defined := true, typeName := "Mesh" }
  else none

/-- The environment of the examples with a shading engine that is no
dependency node. -/
def exampleEnvNoDependencyNode : ExportEnv :=
  { exampleEnv with scene := { exampleScene with isDependencyNode := fun _ => false } }

/-- A writer holding a valid shader prim `/Looks/lambert2SG/file1` for the
`file` node with handle 5. -/
def exampleFileTextureWriter : PxrUsdTranslators_FileTextureWriter :=
  { mayaObject := ⟨some 5⟩, _usdPrim := some (SdfPath.abs ["Looks", "lambert2SG", "file1"]) }

/-- The native output names the file-texture writer translates. -/
def fileTextureOutputNames : List TfToken :=
  ["outColor", "outColorR", "outColorG", "outColorB", "outAlpha", "outTransparency",
    "outTransparencyR", "outTransparencyG", "outTransparencyB"]

/-- The run of `Write` has made the calls `calls` and then calls that all
satisfy `P`. -/
def ExtendsWith (P : ShaderAuthoring → Prop) (calls : List ShaderAuthoring)
    (st : WriteState) : Prop :=
  ∃ ext, st.calls = calls ++ ext ∧ ∀ c ∈ ext, P c

/-- A plug of the example `file` node, named by its attribute. -/
def examplePlug (name : String) : MPlug := MPlug.mk ⟨some 5⟩ name false false 0 none none

/-- The example `file` node: `colorGain` is authored with children of bit
patterns 10, 20, 30 and `alphaGain` is not authored; every lookup and read
succeeds. -/
def exampleWriterEnv : ShaderWriterEnv where
  scene := { exampleScene with findPlug := fun _ name => some (examplePlug name) }
  IsAuthored := fun plug => decide (plug.partialName = "colorGain")
  child := fun plug i => examplePlug (plug.partialName ++ toString i)
  asString := fun _ => some "textures/wood.png"
  asFloat := fun plug =>
    if plug.partialName = "colorGain0" then some ⟨10⟩
    else if plug.partialName = "colorGain1" then some ⟨20⟩
    else if plug.partialName = "colorGain2" then some ⟨30⟩
    else some ⟨0⟩
  asBool := fun _ => some true
  relativeToUsdDir := fun _ => none
  UsdMayaShaderWriter_Write := fun _ => []

/-- The prims of the stage are closed under parent: with a prim, every
ancestor prefix of its path has a prim. -/
def ParentClosed (stage : UsdStage) : Prop :=
  ∀ q, q.IsPrimPath = true → (stage q).isSome = true →
    ∀ p ∈ q.GetPrefixes, (stage p).isSome = true

/-- The instance number resolved for the connected element with physical
index `k` of `dsmPlug` is out of range: it is at least the number of DAG
paths to the owning node (line 162). -/
def InstanceNumberOutOfRange (scene : MayaScene) (dsmPlug : MPlug) (k : Nat) : Prop :=
  (instObjGroupsPlug (scene.GetConnected (scene.connectionByPhysicalIndex dsmPlug k))).logicalIndex ≥
    (scene.getAllPathsTo
      (instObjGroupsPlug (scene.GetConnected (scene.connectionByPhysicalIndex dsmPlug k))).node).length

/-- The scene graph with the connected element of physical index `k` removed
from every plug that has one: the later connected elements move down by one
and everything else is as before. -/
def removeConnectedElement (scene : MayaScene) (k : Nat) : MayaScene :=
  { scene with
    numConnectedElements := fun plug =>
      if k < scene.numConnectedElements plug then scene.numConnectedElements plug - 1
      else scene.numConnectedElements plug
    connectionByPhysicalIndex := fun plug i =>
      if k < scene.numConnectedElements plug then
        scene.connectionByPhysicalIndex plug (if i < k then i else i + 1)
      else scene.connectionByPhysicalIndex plug i }

/-- The example scene with a third connected element `dagSetMembers[2]`, fed
from `instObjGroups[7]` of the mesh, which has only one DAG path. -/
def exampleSceneStaleInstance : MayaScene :=
  { exampleScene with
    numConnectedElements := fun _ => 3
    GetConnected := fun dsmElemPlug =>
      if dsmElemPlug.logicalIndex = 1 then
        MPlug.mk exampleMesh "instObjGroups[7]" true false 7
          (some (MPlug.mk exampleMesh "instObjGroups" false false 0 none none)) none
      else exampleObjectGroups dsmElemPlug.logicalIndex }

/-- A table that sends the cube shape to the absolute root path `/`. -/
def exampleRootTable : MDagPath → Option SdfPath := fun d =>
  if d = exampleDagPath then some SdfPath.AbsoluteRootPath else none

/-- Export parameters with the override root `/ns` and the cube shape as the
one bindable root. -/
def exampleOverrideParams : PxrUsdMayaExportParams :=
  { bindableRoots := [exampleDagPath], overrideRootPath := SdfPath.abs ["ns"],
    exportCollectionBasedBindings := false }

/-- A context with the override root `/ns` over the table `exampleRootTable`. -/
def exampleRootTableContext : PxrUsdMayaShadingModeExportContext :=
  { exampleContext with
    _dagPathToUsdMap := exampleRootTable
    _exportParams := { exampleExportParams with overrideRootPath := SdfPath.abs ["ns"] } }

/-! ## Facts about paths -/

theorem SdfPath.mem_ancestorsFromSelf {path q : SdfPath} :
    q ∈ path.ancestorsFromSelf ↔ path.HasPrefix q = true := by
  cases path with
  | empty => cases q <;> simp [SdfPath.ancestorsFromSelf, SdfPath.HasPrefix]
  | abs l =>
    cases q with
    | empty => simp [SdfPath.ancestorsFromSelf, SdfPath.HasPrefix]
    | abs m => simp [SdfPath.ancestorsFromSelf, SdfPath.HasPrefix, List.mem_inits]

theorem SdfPathFindLongestPrefix_some {set : Finset SdfPath} {path r : SdfPath}
    (h : SdfPathFindLongestPrefix set path = some r) : r ∈ set ∧ path.HasPrefix r = true := by
  unfold SdfPathFindLongestPrefix at h
  have h1 := List.find?_some h
  have h2 := List.mem_of_find?_eq_some h
  exact ⟨by simpa using h1, SdfPath.mem_ancestorsFromSelf.mp h2⟩

theorem SdfPathFindLongestPrefix_eq_none {set : Finset SdfPath} {path : SdfPath} :
    SdfPathFindLongestPrefix set path = none ↔ ∀ r ∈ set, path.HasPrefix r = false := by
  unfold SdfPathFindLongestPrefix
  rw [List.find?_eq_none]
  constructor
  · intro h r hr
    by_contra hp
    have hp' : path.HasPrefix r = true := by simpa using hp
    have := h r (SdfPath.mem_ancestorsFromSelf.mpr hp')
    simp [hr] at this
  · intro h r hr
    have hp := SdfPath.mem_ancestorsFromSelf.mp hr
    intro hmem
    have hmem' : r ∈ set := by simpa using hmem
    rw [h r hmem'] at hp
    exact Bool.noConfusion hp

/-! ## Facts about `GetAssignments` -/

theorem collectMembers_eq (scene : MayaScene) (se : MObject) (dagPath : MDagPath)
    (usdPath : SdfPath) (members : List (MObject × MObject)) (ret : AssignmentVector) :
    collectMembers scene se dagPath usdPath members ret =
      ret ++ (members.filter fun m => decide (m.1 = se)).map
        fun m => (usdPath, faceIndicesOf scene dagPath m.2) := by
  induction members generalizing ret with
  | nil => simp [collectMembers]
  | cons m rest ih =>
    obtain ⟨sg, comp⟩ := m
    by_cases h : sg = se
    · simp [collectMembers, h, ih, faceIndicesOf]
    · simp [collectMembers, h, ih]

/-- What one iteration of the loop can do to the state: leave it alone, only
remember a path, or remember a new path and push the members found for it. -/
theorem assignDagPath_cases (scene : MayaScene) (ctx : PxrUsdMayaShadingModeExportContext)
    (dagPath : MDagPath) (n : Nat) (st st' : AssignmentVector × Finset SdfPath)
    (h : assignDagPath scene ctx dagPath n st = some st') :
    st' = st ∨
    ∃ usdPath, usdPath ∉ st.2 ∧ st'.2 = insert usdPath st.2 ∧
      (st'.1 = st.1 ∨
        ∃ members r,
          scene.getConnectedSetsAndMembers dagPath n = some members ∧
          SdfPathFindLongestPrefix ctx._bindableRoots usdPath = some r ∧
          st'.1 = collectMembers scene ctx._shadingEngine dagPath usdPath members st.1) := by
  unfold assignDagPath at h
  split at h
  · left; exact (Option.some.inj h).symm
  · split at h
    · left; exact (Option.some.inj h).symm
    · split at h
      · exact Option.noConfusion h
      · rename_i usdPath _
        split at h
        · left; exact (Option.some.inj h).symm
        · rename_i hseen
          right
          refine ⟨usdPath, hseen, ?_⟩
          simp only at h
          split at h
          · have := (Option.some.inj h).symm
            subst this
            exact ⟨rfl, Or.inl rfl⟩
          · rename_i hroot
            obtain ⟨r, hr⟩ := Option.ne_none_iff_exists'.mp hroot
            split at h
            · have := (Option.some.inj h).symm
              subst this
              exact ⟨rfl, Or.inl rfl⟩
            · rename_i members hm
              have := (Option.some.inj h).symm
              subst this
              exact ⟨rfl, Or.inr ⟨members, r, hm, hr, rfl⟩⟩

theorem getAssignmentsBody_cases (scene : MayaScene) (ctx : PxrUsdMayaShadingModeExportContext)
    (dsmPlug : MPlug) (i : Nat) (st st' : AssignmentVector × Finset SdfPath)
    (h : getAssignmentsBody scene ctx dsmPlug i st = some st') :
    st' = st ∨
    ∃ usdPath, usdPath ∉ st.2 ∧ st'.2 = insert usdPath st.2 ∧
      (st'.1 = st.1 ∨
        ∃ dagPath n members r,
          scene.getConnectedSetsAndMembers dagPath n = some members ∧
          SdfPathFindLongestPrefix ctx._bindableRoots usdPath = some r ∧
          st'.1 = collectMembers scene ctx._shadingEngine dagPath usdPath members st.1) := by
  unfold getAssignmentsBody at h
  simp only at h
  split at h
  · left; exact (Option.some.inj h).symm
  · rcases assignDagPath_cases _ _ _ _ _ _ h with h1 | ⟨p, hp, hs, h2⟩
    · exact Or.inl h1
    · refine Or.inr ⟨p, hp, hs, ?_⟩
      rcases h2 with h2 | ⟨members, r, hm, hr, h3⟩
      · exact Or.inl h2
      · exact Or.inr ⟨_, _, members, r, hm, hr, h3⟩

/-- A loop invariant carried from the initial state to the final state. -/
theorem getAssignmentsLoop_invariant (scene : MayaScene)
    (ctx : PxrUsdMayaShadingModeExportContext) (dsmPlug : MPlug)
    (Inv : AssignmentVector × Finset SdfPath → Prop)
    (hstep : ∀ i st st', Inv st → getAssignmentsBody scene ctx dsmPlug i st = some st' → Inv st')
    (is : List Nat) (st st' : AssignmentVector × Finset SdfPath) (h0 : Inv st)
    (h : getAssignmentsLoop scene ctx dsmPlug is st = some st') : Inv st' := by
  induction is generalizing st with
  | nil =>
    simp only [getAssignmentsLoop] at h
    exact (Option.some.inj h) ▸ h0
  | cons i rest ih =>
    simp only [getAssignmentsLoop] at h
    split at h
    · exact Option.noConfusion h
    · rename_i st1 h1
      exact ih st1 (hstep i st st1 h0 h1) h

/-- An invariant of the loop holds of the vector `GetAssignments` returns. -/
theorem GetAssignments_invariant (scene : MayaScene)
    (ctx : PxrUsdMayaShadingModeExportContext)
    (Inv : AssignmentVector × Finset SdfPath → Prop) (h0 : Inv ([], ∅))
    (hstep : ∀ dsmPlug i st st', Inv st →
      getAssignmentsBody scene ctx dsmPlug i st = some st' → Inv st')
    (v : AssignmentVector) (h : GetAssignments scene ctx = some v) :
    ∃ seen, Inv (v, seen) := by
  unfold GetAssignments at h
  split at h
  · exact ⟨∅, (Option.some.inj h) ▸ h0⟩
  · split at h
    · exact ⟨∅, (Option.some.inj h) ▸ h0⟩
    · rename_i dsmPlug _
      rw [Option.map_eq_some'] at h
      obtain ⟨st', hl, hv⟩ := h
      refine ⟨st'.2, ?_⟩
      have := getAssignmentsLoop_invariant scene ctx dsmPlug Inv (hstep dsmPlug) _ _ _ h0 hl
      rw [← hv]
      exact this

theorem applyOverrideRootPath_isSome (o p : SdfPath)
    (h : o.IsEmpty = true ∨ p.IsPrimPath = true) : (applyOverrideRootPath o p).isSome = true := by
  unfold applyOverrideRootPath
  rcases h with h | h
  · simp [h]
  · cases p with
    | empty => simp [SdfPath.IsPrimPath] at h
    | abs l =>
      cases l with
      | nil => simp [SdfPath.IsPrimPath] at h
      | cons a l =>
        by_cases ho : o.IsEmpty
        · simp [ho]
        · cases l <;> simp [ho, SdfPath.GetPrefixes, List.inits]

theorem assignDagPath_isSome (scene : MayaScene) (ctx : PxrUsdMayaShadingModeExportContext)
    (hdef : RootRewriteDefined ctx) (dagPath : MDagPath) (n : Nat)
    (st : AssignmentVector × Finset SdfPath) :
    (assignDagPath scene ctx dagPath n st).isSome = true := by
  unfold assignDagPath
  split
  · rfl
  · split
    · rfl
    · rename_i usdPath hmap
      have hsome := applyOverrideRootPath_isSome ctx._exportParams.overrideRootPath usdPath
        (hdef.imp id fun h => h _ _ hmap)
      split
      · rename_i hnone
        rw [hnone] at hsome
        exact Bool.noConfusion hsome
      · simp only
        split
        · rfl
        · split
          · rfl
          · split <;> rfl

theorem getAssignmentsLoop_isSome (scene : MayaScene) (ctx : PxrUsdMayaShadingModeExportContext)
    (hdef : RootRewriteDefined ctx) (dsmPlug : MPlug) (is : List Nat)
    (st : AssignmentVector × Finset SdfPath) :
    (getAssignmentsLoop scene ctx dsmPlug is st).isSome = true := by
  induction is generalizing st with
  | nil => rfl
  | cons i rest ih =>
    simp only [getAssignmentsLoop]
    have hb : (getAssignmentsBody scene ctx dsmPlug i st).isSome = true := by
      unfold getAssignmentsBody
      simp only
      split
      · rfl
      · exact assignDagPath_isSome scene ctx hdef _ _ _
    split
    · rename_i hnone
      rw [hnone] at hb
      exact Bool.noConfusion hb
    · exact ih _

/-- `GetAssignments` returns a vector whenever the root rewrite is defined. -/
theorem GetAssignments_isSome (scene : MayaScene) (ctx : PxrUsdMayaShadingModeExportContext)
    (hdef : RootRewriteDefined ctx) : (GetAssignments scene ctx).isSome = true := by
  unfold GetAssignments
  split
  · rfl
  · split
    · rfl
    · rw [Option.isSome_map']
      exact getAssignmentsLoop_isSome scene ctx hdef _ _ _

theorem exampleSceneMerged_listed_once : MembersListedOnce exampleSceneMerged exampleContext := by
  intro dagPath n members h
  have : members = [(exampleShadingEngine, ⟨some 10⟩)] := (Option.some.inj h).symm
  subst this
  decide

theorem SdfPathFindLongestPrefix_root (l : List String) :
    SdfPathFindLongestPrefix {SdfPath.AbsoluteRootPath} (SdfPath.abs l) =
      some SdfPath.AbsoluteRootPath := by
  cases h : SdfPathFindLongestPrefix {SdfPath.AbsoluteRootPath} (SdfPath.abs l) with
  | none =>
    have := SdfPathFindLongestPrefix_eq_none.mp h SdfPath.AbsoluteRootPath (by simp)
    simp [SdfPath.HasPrefix, SdfPath.AbsoluteRootPath] at this
  | some r =>
    have := (SdfPathFindLongestPrefix_some h).1
    rw [Finset.mem_singleton] at this
    rw [this]

theorem collectBindableRoots_unmapped (dagPathToUsdMap : MDagPath → Option SdfPath)
    (exportParams : PxrUsdMayaExportParams) (roots : List MDagPath) (acc : Finset SdfPath)
    (h : ∀ d ∈ roots, dagPathToUsdMap d = none) :
    collectBindableRoots dagPathToUsdMap exportParams roots acc = some acc := by
  induction roots with
  | nil => rfl
  | cons d rest ih =>
    simp only [collectBindableRoots, h d (List.mem_cons_self _ _)]
    exact ih fun d hd => h d (List.mem_cons_of_mem _ hd)

/-! ## Facts about material placement -/

theorem climbToRootPrimPath_cons (a : String) (n : Nat) (l : List String) (h : l.length = n) :
    climbToRootPrimPath (n + 1) (SdfPath.abs (a :: l)) = some (SdfPath.abs [a]) := by
  induction n generalizing l with
  | zero =>
    have : l = [] := List.length_eq_zero.mp h
    subst this
    rfl
  | succ n ih =>
    obtain ⟨b, l', rfl⟩ : ∃ b l', l = b :: l' := by
      cases l with
      | nil => simp at h
      | cons b l' => exact ⟨b, l', rfl⟩
    have hp : (SdfPath.abs (a :: b :: l')).GetParentPath = SdfPath.abs (a :: (b :: l').dropLast) := by
      simp [SdfPath.GetParentPath, List.dropLast]
    rw [climbToRootPrimPath]
    simp only [SdfPath.IsRootPrimPath, hp]
    apply ih
    simp at h ⊢
    omega

theorem DefinePrimSpec_snd (stage : UsdStage) (a : String) (l : List String) (typeName : String) :
    (stage.DefinePrimSpec (SdfPath.abs (a :: l)) typeName).2 = some (SdfPath.abs (a :: l)) := by
  unfold UsdStage.DefinePrimSpec
  simp only [SdfPath.AbsoluteRootPath, SdfPath.IsPrimPath]
  split
  · rename_i h; cases h
  · split
    · rename_i h; simp at h
    · split <;> rfl

theorem isObjectDescendantOfInstance_top (s : UsdStage) (n : String) :
    s.IsObjectDescendantOfInstance (SdfPath.abs [n]) = false := by
  simp [UsdStage.IsObjectDescendantOfInstance, SdfPath.GetParentPath, SdfPath.GetPrefixes]

theorem isObjectDescendantOfInstance_looks (s : UsdStage) (a : String) :
    s.IsObjectDescendantOfInstance (SdfPath.abs [a, "Looks"]) = s.IsInstance (SdfPath.abs [a]) := by
  simp [UsdStage.IsObjectDescendantOfInstance, SdfPath.GetParentPath, SdfPath.GetPrefixes,
    List.inits]

theorem isObjectDescendantOfInstance_material (s : UsdStage) (a n : String) :
    s.IsObjectDescendantOfInstance (SdfPath.abs [a, "Looks", n]) =
      (s.IsInstance (SdfPath.abs [a]) || s.IsInstance (SdfPath.abs [a, "Looks"])) := by
  simp [UsdStage.IsObjectDescendantOfInstance, SdfPath.GetParentPath, SdfPath.GetPrefixes,
    List.inits]

theorem DefinePrim_of_descendant {s : UsdStage} {p : SdfPath} (T : String)
    (h : s.IsObjectDescendantOfInstance p = true) : s.DefinePrim p T = (s, none) := by
  simp [UsdStage.DefinePrim, h]

theorem DefinePrim_of_not_descendant {s : UsdStage} {p : SdfPath} (T : String)
    (h : s.IsObjectDescendantOfInstance p = false) : s.DefinePrim p T = s.DefinePrimSpec p T := by
  simp [UsdStage.DefinePrim, h]

/-- The authoring of `DefinePrim` leaves the instance flags as they are. -/
theorem DefinePrimSpec_IsInstance (s : UsdStage) (p : SdfPath) (T : String) (q : SdfPath) :
    (s.DefinePrimSpec p T).1.IsInstance q = s.IsInstance q := by
  unfold UsdStage.DefinePrimSpec
  split
  · rfl
  · split
    · rfl
    · split
      · rfl
      · unfold UsdStage.IsInstance UsdStage.data
        by_cases hq : q.IsPrimPath = true
        · simp only [hq, if_true]
          by_cases h1 : q = p
          · subst h1
            simp only [if_true]
            cases s q <;> rfl
          · simp only [h1, if_false]
            by_cases h2 : q ∈ p.GetParentPath.GetPrefixes
            · simp only [h2, if_true]
              cases s q <;> rfl
            · simp only [h2, if_false]
        · simp only [hq]
          rfl

/-- `_GetMaterialParent` in closed form: it always terminates. -/
theorem _GetMaterialParent_eq (stage : UsdStage) (assignments : AssignmentVector) :
    _GetMaterialParent stage assignments =
      match commonAncestorLoop stage assignments SdfPath.empty with
      | SdfPath.empty => some (stage, none)
      | SdfPath.abs [] => some (stage, some SdfPath.AbsoluteRootPath)
      | SdfPath.abs (a :: _) => some (stage.DefinePrim (SdfPath.abs [a, "Looks"]) "Scope") := by
  unfold _GetMaterialParent
  simp only
  cases hP : commonAncestorLoop stage assignments SdfPath.empty with
  | empty => simp [SdfPath.IsEmpty]
  | abs l =>
    cases l with
    | nil => simp [SdfPath.IsEmpty, SdfPath.AbsoluteRootPath]
    | cons a l =>
      simp only [SdfPath.IsEmpty, SdfPath.AbsoluteRootPath, SdfPath.GetPathElementCount,
        List.length_cons, climbToRootPrimPath_cons a l.length l rfl, SdfPath.AppendChild]
      simp only [List.singleton_append, Bool.false_eq_true, if_false]
      rw [if_neg (by simp)]

/-- `MakeStandardMaterialPrim` in closed form: it always terminates.  With a
material name and a common ancestor below the top-level prim `/a`, the call
returns at line 403 when `/a` is an instance (the `Looks` scope is refused),
runs the loop with the invalid material when `/a/Looks` is an instance (the
material is refused), and otherwise defines both and runs the loop. -/
theorem MakeStandardMaterialPrim_eq (env : ExportEnv) (ctx : PxrUsdMayaShadingModeExportContext)
    (stage : UsdStage) (assignments : AssignmentVector) (name : String)
    (boundPrimPaths : Option (Finset SdfPath)) :
    MakeStandardMaterialPrim env ctx stage assignments name boundPrimPaths =
      match materialNameOf env ctx name with
      | none => some ⟨stage, none, boundPrimPaths⟩
      | some materialName =>
        match commonAncestorLoop stage assignments SdfPath.empty with
        | SdfPath.empty => some ⟨stage, none, boundPrimPaths⟩
        | SdfPath.abs [] =>
          some (bindAll env ctx stage SdfPath.AbsoluteRootPath (env.SanitizeName materialName)
            assignments boundPrimPaths)
        | SdfPath.abs (a :: _) =>
          if stage.IsInstance (SdfPath.abs [a]) = true then
            some ⟨stage, none, boundPrimPaths⟩
          else if stage.IsInstance (SdfPath.abs [a, "Looks"]) = true then
            some (bindAllUndefined env ctx
              (stage.DefinePrimSpec (SdfPath.abs [a, "Looks"]) "Scope").1
              (SdfPath.abs [a, "Looks"]) (env.SanitizeName materialName)
              assignments boundPrimPaths)
          else
            some (bindAll env ctx (stage.DefinePrimSpec (SdfPath.abs [a, "Looks"]) "Scope").1
              (SdfPath.abs [a, "Looks"]) (env.SanitizeName materialName)
              assignments boundPrimPaths) := by
  unfold MakeStandardMaterialPrim
  cases materialNameOf env ctx name with
  | none => rfl
  | some materialName =>
    simp only [_GetMaterialParent_eq]
    cases hP : commonAncestorLoop stage assignments SdfPath.empty with
    | empty => rfl
    | abs l =>
      cases l with
      | nil =>
        simp only [SdfPath.AbsoluteRootPath, SdfPath.AppendChild, List.nil_append, bindAll,
          DefinePrim_of_not_descendant "Material" (isObjectDescendantOfInstance_top stage _)]
      | cons a l =>
        simp only
        by_cases h1 : stage.IsInstance (SdfPath.abs [a]) = true
        · rw [if_pos h1, DefinePrim_of_descendant "Scope"
            ((isObjectDescendantOfInstance_looks stage a).trans h1)]
        · rw [if_neg h1]
          have h1' : stage.IsInstance (SdfPath.abs [a]) = false := by simpa using h1
          rw [DefinePrim_of_not_descendant "Scope"
            ((isObjectDescendantOfInstance_looks stage a).trans h1')]
          have hsnd := DefinePrimSpec_snd stage a ["Looks"] "Scope"
          have hi1 := DefinePrimSpec_IsInstance stage (SdfPath.abs [a, "Looks"]) "Scope"
            (SdfPath.abs [a])
          have hi2 := DefinePrimSpec_IsInstance stage (SdfPath.abs [a, "Looks"]) "Scope"
            (SdfPath.abs [a, "Looks"])
          generalize stage.DefinePrimSpec (SdfPath.abs [a, "Looks"]) "Scope" = d at hsnd hi1 hi2 ⊢
          obtain ⟨stage1, prim1⟩ := d
          simp only at hsnd hi1 hi2
          subst hsnd
          simp only
          by_cases h2 : stage.IsInstance (SdfPath.abs [a, "Looks"]) = true
          · rw [if_pos h2]
            have hb : stage1.IsObjectDescendantOfInstance
                (SdfPath.abs [a, "Looks", env.SanitizeName materialName]) = true := by
              rw [isObjectDescendantOfInstance_material, hi1, hi2, h2, Bool.or_true]
            simp only [SdfPath.AppendChild, List.cons_append, List.nil_append,
              DefinePrim_of_descendant "Material" hb, bindAllUndefined]
          · rw [if_neg h2]
            have h2' : stage.IsInstance (SdfPath.abs [a, "Looks"]) = false := by simpa using h2
            have hb : stage1.IsObjectDescendantOfInstance
                (SdfPath.abs [a, "Looks", env.SanitizeName materialName]) = false := by
              rw [isObjectDescendantOfInstance_material, hi1, hi2, h1', h2', Bool.or_false]
            simp only [SdfPath.AppendChild, List.cons_append, List.nil_append,
              DefinePrim_of_not_descendant "Material" hb, bindAll]

theorem SdfPath.hasPrefix_abs (l q : List String) :
    (SdfPath.abs l).HasPrefix (SdfPath.abs q) = true ↔ q <+: l := by
  simp [SdfPath.HasPrefix]

theorem commonElems_prefix (q c l : List String) :
    q <+: SdfPath.commonElems c l ↔ q <+: c ∧ q <+: l := by
  induction c generalizing l q with
  | nil =>
    cases l with
    | nil => simp [SdfPath.commonElems, List.prefix_nil]
    | cons b l =>
      simp only [SdfPath.commonElems, List.prefix_nil]
      constructor
      · rintro rfl; exact ⟨rfl, List.nil_prefix⟩
      · exact fun h => h.1
  | cons a c ih =>
    cases l with
    | nil =>
      simp only [SdfPath.commonElems, List.prefix_nil]
      constructor
      · rintro rfl; exact ⟨List.nil_prefix, rfl⟩
      · exact fun h => h.2
    | cons b l =>
      cases q with
      | nil => simp
      | cons x q =>
        by_cases hab : a = b
        · subst hab
          simp only [SdfPath.commonElems, if_true, List.cons_prefix_cons, ih]
          tauto
        · simp only [SdfPath.commonElems, hab, if_false, List.prefix_nil, List.cons_prefix_cons]
          constructor
          · intro h; cases h
          · rintro ⟨⟨rfl, -⟩, ⟨rfl, -⟩⟩
            exact absurd rfl hab

theorem SdfPath.hasPrefix_GetCommonPrefix (c l : List String) (Q : SdfPath) :
    ((SdfPath.abs c).GetCommonPrefix (SdfPath.abs l)).HasPrefix Q = true ↔
      (SdfPath.abs c).HasPrefix Q = true ∧ (SdfPath.abs l).HasPrefix Q = true := by
  cases Q with
  | empty => simp [SdfPath.HasPrefix, SdfPath.GetCommonPrefix]
  | abs q =>
    simp only [SdfPath.GetCommonPrefix, SdfPath.hasPrefix_abs]
    exact commonElems_prefix q c l

theorem GetPrimAtPath_isSome_abs {stage : UsdStage} {p : SdfPath}
    (h : (stage.GetPrimAtPath p).isSome = true) : ∃ l, p = SdfPath.abs l := by
  cases p with
  | empty => simp [UsdStage.GetPrimAtPath, UsdStage.data, SdfPath.IsPrimPath,
      SdfPath.AbsoluteRootPath] at h
  | abs l => exact ⟨l, rfl⟩

theorem commonAncestorLoop_abs (stage : UsdStage) (assignments : AssignmentVector)
    (c : List String) :
    ∃ c', commonAncestorLoop stage assignments (SdfPath.abs c) = SdfPath.abs c' ∧
      ∀ Q, (SdfPath.abs c').HasPrefix Q = true ↔
        ((SdfPath.abs c).HasPrefix Q = true ∧
          ∀ p ∈ existingTargets stage assignments, p.HasPrefix Q = true) := by
  induction assignments generalizing c with
  | nil => exact ⟨c, rfl, fun Q => by simp [existingTargets]⟩
  | cons a rest ih =>
    obtain ⟨p, faces⟩ := a
    by_cases hp : (stage.GetPrimAtPath p).isSome = true
    · obtain ⟨l, rfl⟩ := GetPrimAtPath_isSome_abs hp
      obtain ⟨c', hc', hQ⟩ := ih (SdfPath.commonElems c l)
      refine ⟨c', ?_, fun Q => ?_⟩
      · simp only [commonAncestorLoop, hp, if_true, SdfPath.IsEmpty, Bool.false_eq_true,
          if_false, SdfPath.GetCommonPrefix]
        exact hc'
      · rw [hQ Q]
        have := SdfPath.hasPrefix_GetCommonPrefix c l Q
        simp only [SdfPath.GetCommonPrefix] at this
        rw [this]
        simp only [existingTargets, List.map_cons, List.filter_cons, hp, if_true,
          List.mem_cons, forall_eq_or_imp]
        tauto
    · obtain ⟨c', hc', hQ⟩ := ih c
      refine ⟨c', ?_, fun Q => ?_⟩
      · simp only [commonAncestorLoop, hp, if_false]
        exact hc'
      · rw [hQ Q]
        simp only [existingTargets, List.map_cons, List.filter_cons, hp, if_false]
        simp [existingTargets]

/-- The loop of `_GetMaterialParent` leaves the empty path when no bound prim
path exists on the stage, and otherwise the longest common prefix of those
that exist. -/
theorem commonAncestorLoop_empty (stage : UsdStage) (assignments : AssignmentVector) :
    (existingTargets stage assignments = [] ∧
        commonAncestorLoop stage assignments SdfPath.empty = SdfPath.empty) ∨
      ∃ c, commonAncestorLoop stage assignments SdfPath.empty = SdfPath.abs c ∧
        existingTargets stage assignments ≠ [] ∧
        ∀ Q, (SdfPath.abs c).HasPrefix Q = true ↔
          ∀ p ∈ existingTargets stage assignments, p.HasPrefix Q = true := by
  induction assignments with
  | nil => exact Or.inl ⟨rfl, rfl⟩
  | cons a rest ih =>
    obtain ⟨p, faces⟩ := a
    by_cases hp : (stage.GetPrimAtPath p).isSome = true
    · right
      obtain ⟨l, rfl⟩ := GetPrimAtPath_isSome_abs hp
      obtain ⟨c', hc', hQ⟩ := commonAncestorLoop_abs stage rest l
      refine ⟨c', ?_, ?_, fun Q => ?_⟩
      · simp only [commonAncestorLoop, hp, if_true, SdfPath.IsEmpty]
        exact hc'
      · simp [existingTargets, hp]
      · rw [hQ Q]
        simp only [existingTargets, List.map_cons, List.filter_cons, hp, if_true,
          List.mem_cons, forall_eq_or_imp]
    · rcases ih with ⟨h1, h2⟩ | ⟨c, h1, h2, h3⟩
      · left
        refine ⟨?_, ?_⟩
        · simp only [existingTargets, List.map_cons, List.filter_cons, hp, if_false]
          exact h1
        · simp only [commonAncestorLoop, hp, if_false]
          exact h2
      · right
        refine ⟨c, ?_, ?_, ?_⟩
        · simp only [commonAncestorLoop, hp, if_false]
          exact h1
        · simp only [existingTargets, List.map_cons, List.filter_cons, hp, if_false]
          exact h2
        · simp only [existingTargets, List.map_cons, List.filter_cons, hp, if_false]
          exact h3

theorem SdfPath.hasPrefix_self (l : List String) :
    (SdfPath.abs l).HasPrefix (SdfPath.abs l) = true := by
  simp [SdfPath.HasPrefix]

theorem existingTargets_eq_nil {stage : UsdStage} {assignments : AssignmentVector}
    (h : ∀ a ∈ assignments, stage.GetPrimAtPath a.1 = none) :
    existingTargets stage assignments = [] := by
  unfold existingTargets
  rw [List.filter_eq_nil_iff]
  intro p hp
  obtain ⟨a, ha, rfl⟩ := List.mem_map.mp hp
  simp [h a ha]

theorem bindAll_prim (env : ExportEnv) (ctx : PxrUsdMayaShadingModeExportContext)
    (stage : UsdStage) (parent : List String) (materialName : String)
    (assignments : AssignmentVector) (boundPrimPaths : Option (Finset SdfPath)) :
    (bindAll env ctx stage (SdfPath.abs parent) materialName assignments boundPrimPaths).prim =
      some (SdfPath.abs (parent ++ [materialName])) := by
  simp only [bindAll, SdfPath.AppendChild]
  cases parent with
  | nil => exact DefinePrimSpec_snd stage materialName [] "Material"
  | cons a l => exact DefinePrimSpec_snd stage a (l ++ [materialName]) "Material"

/-- `MakeStandardMaterialPrim` always returns. -/
theorem MakeStandardMaterialPrim_isSome (env : ExportEnv)
    (ctx : PxrUsdMayaShadingModeExportContext) (stage : UsdStage)
    (assignments : AssignmentVector) (name : String) (boundPrimPaths : Option (Finset SdfPath)) :
    ∃ r, MakeStandardMaterialPrim env ctx stage assignments name boundPrimPaths = some r := by
  rw [MakeStandardMaterialPrim_eq]
  cases materialNameOf env ctx name with
  | none => exact ⟨_, rfl⟩
  | some materialName =>
    cases commonAncestorLoop stage assignments SdfPath.empty with
    | empty => exact ⟨_, rfl⟩
    | abs l =>
      cases l with
      | nil => exact ⟨_, rfl⟩
      | cons a l =>
        simp only
        split
        · exact ⟨_, rfl⟩
        · split <;> exact ⟨_, rfl⟩

/-! ## How the authoring calls change the prim data -/

theorem author_apply (s : UsdStage) (prim : UsdPrim) (f : UsdPrimData → UsdPrimData)
    (q : SdfPath) :
    (s.author prim f) q = if prim = some q ∧ q.IsPrimPath = true then (s q).map f else s q := by
  unfold UsdStage.author
  cases prim with
  | none => simp
  | some path =>
    simp only [UsdStage.data]
    by_cases hpp : path.IsPrimPath = true
    · simp only [hpp, if_true]
      cases hs : s path with
      | none =>
        by_cases hq : path = q
        · subst hq; simp [hs]
        · simp [hq]
      | some d =>
        by_cases hq : q = path
        · subst hq; simp [hs, hpp]
        · have : path ≠ q := fun h => hq h.symm
          simp [hq, this]
    · simp only [hpp]
      by_cases hq : path = q
      · subst hq; simp [hpp]
      · simp [hq]

theorem SdfPath.mem_GetPrefixes_self {p : SdfPath} (h : p.IsPrimPath = true) :
    p ∈ p.GetPrefixes := by
  cases p with
  | empty => simp [SdfPath.IsPrimPath] at h
  | abs l =>
    cases l with
    | nil => simp [SdfPath.IsPrimPath] at h
    | cons a l =>
      simp only [SdfPath.GetPrefixes, List.inits_cons, List.drop_succ_cons, List.drop_zero,
        List.map_map, List.mem_map]
      exact ⟨l, (List.mem_inits _ _).mpr (List.prefix_refl l), rfl⟩

theorem SdfPath.isPrimPath_of_mem_GetPrefixes {p q : SdfPath} (h : q ∈ p.GetPrefixes) :
    q.IsPrimPath = true := by
  cases p with
  | empty => simp [SdfPath.GetPrefixes] at h
  | abs l =>
    cases l with
    | nil => simp [SdfPath.GetPrefixes, List.inits] at h
    | cons a l =>
      simp only [SdfPath.GetPrefixes, List.inits_cons, List.drop_succ_cons, List.drop_zero,
        List.map_map, List.mem_map] at h
      obtain ⟨m, -, rfl⟩ := h
      rfl

theorem GetPrimAtPath_eq_some {s : UsdStage} {p prim : SdfPath}
    (h : s.GetPrimAtPath p = some prim) : prim = p := by
  unfold UsdStage.GetPrimAtPath at h
  split at h
  · exact (Option.some.inj h).symm
  · split at h
    · exact (Option.some.inj h).symm
    · exact Option.noConfusion h

theorem GetPrimAtPath_primPath {s : UsdStage} {p : SdfPath} (hp : p.IsPrimPath = true) :
    s.GetPrimAtPath p = if (s p).isSome then some p else none := by
  have hne : p ≠ SdfPath.AbsoluteRootPath := by
    rintro rfl
    simp [SdfPath.IsPrimPath, SdfPath.AbsoluteRootPath] at hp
  simp [UsdStage.GetPrimAtPath, UsdStage.data, hp, hne]

theorem OverridePrim_keep (s : UsdStage) (p q : SdfPath) (d : UsdPrimData) (h : s q = some d) :
    (s.OverridePrim p).1 q = some d := by
  unfold UsdStage.OverridePrim
  split
  · exact h
  · split
    · simp [h]
    · exact h

theorem OverridePrim_snd {s : UsdStage} {p : SdfPath} (hp : p.IsPrimPath = true) :
    (s.OverridePrim p).2 = some p := by
  unfold UsdStage.OverridePrim
  split
  · rename_i prim h
    rw [GetPrimAtPath_eq_some h]
  · simp [hp]

theorem OverridePrim_exists {s : UsdStage} {p : SdfPath} (hp : p.IsPrimPath = true) :
    ((s.OverridePrim p).1 p).isSome = true := by
  unfold UsdStage.OverridePrim
  rw [GetPrimAtPath_primPath hp]
  by_cases h : (s p).isSome = true
  · simp [h]
  · simp only [h]
    simp only [hp, if_true, Bool.false_eq_true, if_false]
    have hnone : (s p).isNone = true := by
      cases hs : s p with
      | none => rfl
      | some d => simp [hs] at h
    simp [SdfPath.mem_GetPrefixes_self hp, hnone]

theorem SdfPath.isPrimPath_ne_root {p : SdfPath} (hp : p.IsPrimPath = true) :
    p ≠ SdfPath.AbsoluteRootPath := by
  rintro rfl
  simp [SdfPath.IsPrimPath, SdfPath.AbsoluteRootPath] at hp

/-- What `DefinePrimSpec` with a type name leaves at the defined path. -/
theorem DefinePrimSpec_at (s : UsdStage) {p : SdfPath} (hp : p.IsPrimPath = true) (T : String)
    (hT : T ≠ "") :
    (s.DefinePrimSpec p T).1 p =
      some { (s p).getD overPrimData with defined := true, typeName := T } := by
  unfold UsdStage.DefinePrimSpec
  rw [if_neg (SdfPath.isPrimPath_ne_root hp)]
  simp only [hp, Bool.not_true, Bool.false_eq_true, if_false, hT, decide_False, Bool.false_or]
  split
  · rename_i h
    rw [Bool.and_eq_true] at h
    obtain ⟨hdef, hty⟩ := h
    have hty' : (s p).map (fun d => d.typeName) = some T := by simpa using hty
    cases hs : s p with
    | none => simp [hs] at hty'
    | some d =>
      have hd : d.defined = true := by
        unfold UsdStage.IsDefined at hdef
        rw [List.all_eq_true] at hdef
        have := hdef p (SdfPath.mem_GetPrefixes_self hp)
        simpa [hs] using this
      have ht : d.typeName = T := by simpa [hs] using hty'
      cases d
      simp only [Option.getD_some] at *
      subst hd ht
      exact hs
  · simp

/-- What `DefinePrimSpec` does to the data of an existing prim elsewhere. -/
theorem DefinePrimSpec_other (s : UsdStage) (p : SdfPath) (T : String) {q : SdfPath}
    {d : UsdPrimData} (hq : q ≠ p) (h : s q = some d) :
    (s.DefinePrimSpec p T).1 q = some d ∨ (s.DefinePrimSpec p T).1 q = some { d with defined := true } := by
  unfold UsdStage.DefinePrimSpec
  split
  · exact Or.inl h
  · split
    · exact Or.inl h
    · split
      · exact Or.inl h
      · simp only [hq, if_false]
        split
        · right; simp [h]
        · exact Or.inl h

/-! ## What a step of the binding loop can change -/

theorem stepFrame_refl (M sp fp : SdfPath) (faces : List Int) (q : SdfPath) (d : UsdPrimData) :
    StepFrame M sp fp faces q d d :=
  ⟨id, Or.inl rfl, Or.inl rfl, Or.inl rfl, Or.inl rfl, Or.inl rfl, Or.inl rfl⟩

theorem stepFrame_trans {M sp fp : SdfPath} {faces : List Int} {q : SdfPath}
    {d₁ d₂ d₃ : UsdPrimData} (h₁ : StepFrame M sp fp faces q d₁ d₂)
    (h₂ : StepFrame M sp fp faces q d₂ d₃) : StepFrame M sp fp faces q d₁ d₃ := by
  obtain ⟨a₁, b₁, c₁, t₁, e₁, f₁, i₁⟩ := h₁
  obtain ⟨a₂, b₂, c₂, t₂, e₂, f₂, i₂⟩ := h₂
  refine ⟨fun h => a₁ (a₂ h), ?_, ?_, ?_, ?_, ?_, ?_⟩
  · rcases b₂ with h | h
    · rw [h]; exact b₁
    · exact Or.inr h
  · rcases c₂ with h | h
    · rw [h]; exact c₁
    · exact Or.inr h
  · rcases t₂ with h | h
    · rw [h]; exact t₁
    · exact Or.inr h
  · rcases e₂ with h | h
    · rw [h]; exact e₁
    · exact Or.inr h
  · rcases f₂ with h | h
    · rw [h]; exact f₁
    · exact Or.inr h
  · rcases i₂ with h | h
    · rw [h]; exact i₁
    · exact Or.inr h

theorem frames_refl (M sp fp : SdfPath) (faces : List Int) (s : UsdStage) :
    Frames M sp fp faces s s :=
  fun q d h => ⟨d, h, stepFrame_refl M sp fp faces q d⟩

theorem frames_trans {M sp fp : SdfPath} {faces : List Int} {s₁ s₂ s₃ : UsdStage}
    (h₁ : Frames M sp fp faces s₁ s₂) (h₂ : Frames M sp fp faces s₂ s₃) :
    Frames M sp fp faces s₁ s₃ := by
  intro q d hd
  obtain ⟨d₂, hd₂, hf₂⟩ := h₁ q d hd
  obtain ⟨d₃, hd₃, hf₃⟩ := h₂ q d₂ hd₂
  exact ⟨d₃, hd₃, stepFrame_trans hf₂ hf₃⟩

theorem author_frames {M sp fp : SdfPath} {faces : List Int} (s : UsdStage) (prim : UsdPrim)
    (f : UsdPrimData → UsdPrimData)
    (hf : ∀ q d, prim = some q → StepFrame M sp fp faces q d (f d)) :
    Frames M sp fp faces s (s.author prim f) := by
  intro q d hd
  rw [author_apply]
  split
  · rename_i h
    exact ⟨f d, by simp [hd], hf q d h.1⟩
  · exact ⟨d, hd, stepFrame_refl _ _ _ _ _ _⟩

theorem OverridePrim_frames (M sp fp : SdfPath) (faces : List Int) (s : UsdStage)
    (p : SdfPath) : Frames M sp fp faces s (s.OverridePrim p).1 :=
  fun q d hd => ⟨d, OverridePrim_keep s p q d hd, stepFrame_refl _ _ _ _ _ _⟩

theorem DefinePrimSpec_fst_of_not_primPath (s : UsdStage) {p : SdfPath} (T : String)
    (hp : p.IsPrimPath = false) : (s.DefinePrimSpec p T).1 = s := by
  unfold UsdStage.DefinePrimSpec
  split
  · rfl
  · simp [hp]

theorem DefinePrimSpec_subset_frames (M fp : SdfPath) (faces : List Int) (s : UsdStage)
    (sp : SdfPath) : Frames M sp fp faces s (s.DefinePrimSpec sp "GeomSubset").1 := by
  intro q d hd
  by_cases hq : q = sp
  · subst hq
    by_cases hp : q.IsPrimPath = true
    · refine ⟨_, DefinePrimSpec_at s hp "GeomSubset" (by decide), ?_⟩
      simp only [hd, Option.getD_some]
      exact ⟨id, Or.inl rfl, Or.inl rfl, Or.inr ⟨rfl, rfl⟩, Or.inl rfl, Or.inl rfl, Or.inl rfl⟩
    · rw [DefinePrimSpec_fst_of_not_primPath s "GeomSubset" (by simpa using hp)]
      exact ⟨d, hd, stepFrame_refl _ _ _ _ _ _⟩
  · rcases DefinePrimSpec_other s sp "GeomSubset" hq hd with h | h
    · exact ⟨d, h, stepFrame_refl _ _ _ _ _ _⟩
    · exact ⟨_, h, id, Or.inl rfl, Or.inl rfl, Or.inl rfl, Or.inl rfl, Or.inl rfl, Or.inl rfl⟩

theorem SetInstanceableFalse_frames (M sp fp : SdfPath) (faces : List Int) (s : UsdStage)
    (prim : UsdPrim) : Frames M sp fp faces s (SetInstanceableFalse s prim) :=
  author_frames s prim _ fun _ _ _ =>
    ⟨fun h => Bool.noConfusion h, Or.inl rfl, Or.inl rfl, Or.inl rfl, Or.inl rfl, Or.inl rfl,
      Or.inl rfl⟩

theorem uninstanceLoop_frames (M sp fp : SdfPath) (faces : List Int) (s : UsdStage)
    (l : List SdfPath) : Frames M sp fp faces s (uninstanceLoop s l) := by
  induction l generalizing s with
  | nil => exact frames_refl _ _ _ _ _
  | cons q rest ih =>
    simp only [uninstanceLoop]
    split
    · split
      · exact frames_trans (SetInstanceableFalse_frames M sp fp faces s _) (ih _)
      · exact ih _
    · exact frames_refl _ _ _ _ _

theorem _UninstancePrim_frames (M sp fp : SdfPath) (faces : List Int) (s : UsdStage)
    (p : SdfPath) : Frames M sp fp faces s (_UninstancePrim s p).1 :=
  frames_trans (uninstanceLoop_frames M sp fp faces s _) (OverridePrim_frames M sp fp faces _ p)

theorem Bind_frames (sp fp : SdfPath) (faces : List Int) (s : UsdStage) (prim material : UsdPrim) :
    Frames material.GetPath sp fp faces s (Bind s prim material) :=
  author_frames s prim _ fun _ _ _ =>
    ⟨id, Or.inr rfl, Or.inl rfl, Or.inl rfl, Or.inl rfl, Or.inl rfl, Or.inl rfl⟩

theorem SetMaterialBindSubsetsFamilyType_frames (M sp : SdfPath) (faces : List Int)
    (s : UsdStage) (prim : UsdPrim) (T : String) :
    Frames M sp prim.GetPath faces s (SetMaterialBindSubsetsFamilyType s prim T) :=
  author_frames s prim _ fun q _ h =>
    ⟨id, Or.inl rfl, Or.inr (by rw [h]; rfl), Or.inl rfl, Or.inl rfl, Or.inl rfl, Or.inl rfl⟩

theorem CreateGeomSubset_frames (M fp : SdfPath) (s : UsdStage) (geom : UsdPrim)
    (subsetName : String) (indices : List Int) :
    Frames M (geom.GetPath.AppendChild subsetName) fp indices s
      (CreateGeomSubset s geom subsetName "face" indices "materialBind").1 := by
  unfold CreateGeomSubset
  simp only
  refine frames_trans (DefinePrimSpec_subset_frames M fp indices s _) (author_frames _ _ _ ?_)
  intro q d hq
  have hq' : q = geom.GetPath.AppendChild subsetName := by
    cases hp : geom.GetPath.AppendChild subsetName with
    | empty =>
      have : (s.DefinePrimSpec (geom.GetPath.AppendChild subsetName) "GeomSubset").2 = none := by
        rw [hp]; rfl
      rw [this] at hq
      exact Option.noConfusion hq
    | abs l =>
      cases l with
      | nil =>
        cases hg : geom.GetPath with
        | empty => rw [hg] at hp; simp [SdfPath.AppendChild] at hp
        | abs m => rw [hg] at hp; simp [SdfPath.AppendChild] at hp
      | cons a l =>
        rw [hp, DefinePrimSpec_snd] at hq
        exact (Option.some.inj hq).symm
  exact ⟨id, Or.inl rfl, Or.inl rfl, Or.inl rfl, Or.inr ⟨hq', rfl⟩, Or.inr ⟨hq', rfl⟩,
    Or.inr ⟨hq', rfl⟩⟩

theorem CreateMaterialBindSubset_frames (M : SdfPath) (s : UsdStage) (prim : UsdPrim)
    (subsetName : String) (indices : List Int) :
    Frames M (prim.GetPath.AppendChild subsetName) prim.GetPath indices s
      (CreateMaterialBindSubset s prim subsetName indices "face").1 := by
  unfold CreateMaterialBindSubset
  simp only
  split
  · exact frames_trans (CreateGeomSubset_frames M _ s prim subsetName indices)
      (SetMaterialBindSubsetsFamilyType_frames M _ indices _ prim _)
  · exact CreateGeomSubset_frames M _ s prim subsetName indices

theorem OverridePrim_snd_GetPath (s : UsdStage) (p : SdfPath) :
    (s.OverridePrim p).2.GetPath = p := by
  unfold UsdStage.OverridePrim
  split
  · rename_i prim h
    rw [GetPrimAtPath_eq_some h]
    rfl
  · rename_i h
    split
    · rfl
    · rename_i hp
      cases p with
      | empty => rfl
      | abs l =>
        cases l with
        | nil => simp [UsdStage.GetPrimAtPath, SdfPath.AbsoluteRootPath] at h
        | cons a l => simp [SdfPath.IsPrimPath] at hp

theorem isEmpty_eq_false_of_ne_nil {l : List Int} (h : l ≠ []) : l.isEmpty = false := by
  cases l with
  | nil => exact absurd rfl h
  | cons _ _ => rfl

theorem AppendMaterialFaceGroup_frames (M sp fp : SdfPath) (faces : List Int) (s : UsdStage)
    (prim : UsdPrim) (faceIndices : List Int) (materialPath : SdfPath) :
    Frames M sp fp faces s (AppendMaterialFaceGroup s prim faceIndices materialPath) :=
  author_frames s prim _ fun _ _ _ =>
    ⟨id, Or.inl rfl, Or.inl rfl, Or.inl rfl, Or.inl rfl, Or.inl rfl, Or.inl rfl⟩

/-- A step that creates a subset changes prim data only as `StepFrame` allows
for the subset `a.1/materialName` and the family of `a.1`. -/
theorem bindAssignment_frames_subset (env : ExportEnv) (ctx : PxrUsdMayaShadingModeExportContext)
    (material : UsdPrim) (materialPath : SdfPath) (materialName : String)
    (st : UsdStage × Option (Finset SdfPath)) (a : Assignment) (h : IsSubsetStep env a) :
    Frames material.GetPath (a.1.AppendChild materialName) a.1 a.2 st.1
      (bindAssignment env ctx material materialPath materialName st a).1 := by
  unfold bindAssignment
  simp only [isEmpty_eq_false_of_ne_nil h.1, h.2, Bool.false_eq_true, if_false]
  have hu := _UninstancePrim_frames material.GetPath (a.1.AppendChild materialName) a.1 a.2
    st.1 a.1
  have hpath : (_UninstancePrim st.1 a.1).2.GetPath = a.1 := OverridePrim_snd_GetPath _ _
  have hc := CreateMaterialBindSubset_frames material.GetPath (_UninstancePrim st.1 a.1).1
    (_UninstancePrim st.1 a.1).2 materialName a.2
  rw [hpath] at hc
  have hf := fun s => SetMaterialBindSubsetsFamilyType_frames material.GetPath
    (a.1.AppendChild materialName) a.2 s (_UninstancePrim st.1 a.1).2 "partition"
  rw [hpath] at hf
  split
  · exact frames_trans (frames_trans hu (frames_trans hc (Bind_frames _ _ _ _ _ _))) (hf _)
  · exact frames_trans (frames_trans hu hc) (hf _)

/-- A step that creates no subset leaves family types and subset attributes
alone. -/
theorem bindAssignment_frames_other (env : ExportEnv) (ctx : PxrUsdMayaShadingModeExportContext)
    (material : UsdPrim) (materialPath : SdfPath) (materialName : String)
    (st : UsdStage × Option (Finset SdfPath)) (a : Assignment) (h : ¬ IsSubsetStep env a) :
    Frames material.GetPath SdfPath.empty SdfPath.empty a.2 st.1
      (bindAssignment env ctx material materialPath materialName st a).1 := by
  unfold bindAssignment
  simp only
  split
  · split
    · split
      · exact frames_refl _ _ _ _ _
      · exact frames_trans (OverridePrim_frames _ _ _ _ _ _) (Bind_frames _ _ _ _ _ _)
    · exact frames_refl _ _ _ _ _
  · rename_i hne
    split
    · exact frames_trans (_UninstancePrim_frames _ _ _ _ _ _)
        (AppendMaterialFaceGroup_frames _ _ _ _ _ _ _ _)
    · rename_i hleg
      exfalso
      apply h
      refine ⟨?_, by simpa using hleg⟩
      intro hnil
      rw [hnil] at hne
      exact hne rfl

/-- The set behind `boundPrimPaths` only grows, and stays absent when absent. -/
theorem bindAssignment_bound (env : ExportEnv) (ctx : PxrUsdMayaShadingModeExportContext)
    (material : UsdPrim) (materialPath : SdfPath) (materialName : String)
    (st : UsdStage × Option (Finset SdfPath)) (a : Assignment) :
    (∀ b, st.2 = some b →
      ∃ b', (bindAssignment env ctx material materialPath materialName st a).2 = some b' ∧
        b ⊆ b') := by
  intro b hb
  unfold bindAssignment
  simp only
  split
  · simp only [hb, Option.map_some']
    exact ⟨_, rfl, Finset.subset_insert _ _⟩
  · split
    · exact ⟨b, hb, Finset.Subset.refl _⟩
    · simp only [hb, Option.map_some']
      exact ⟨_, rfl, Finset.subset_insert _ _⟩

theorem author_preserves (P : UsdPrimData → Prop) (s : UsdStage) (prim : UsdPrim)
    (f : UsdPrimData → UsdPrimData) (hf : ∀ d, P d → P (f d)) {q : SdfPath} {d : UsdPrimData}
    (hd : s q = some d) (hP : P d) : ∃ d', (s.author prim f) q = some d' ∧ P d' := by
  rw [author_apply]
  split
  · exact ⟨f d, by simp [hd], hf d hP⟩
  · exact ⟨d, hd, hP⟩

theorem SdfPath.appendChild_isPrimPath {t : SdfPath} (ht : t.IsPrimPath = true) (name : String) :
    (t.AppendChild name).IsPrimPath = true := by
  cases t with
  | empty => simp [SdfPath.IsPrimPath] at ht
  | abs l =>
    cases l with
    | nil => simp [SdfPath.IsPrimPath] at ht
    | cons a l => rfl

theorem _UninstancePrim_snd {s : UsdStage} {t : SdfPath} (ht : t.IsPrimPath = true) :
    (_UninstancePrim s t).2 = some t := OverridePrim_snd ht

theorem _UninstancePrim_exists {s : UsdStage} {t : SdfPath} (ht : t.IsPrimPath = true) :
    ((_UninstancePrim s t).1 t).isSome = true := OverridePrim_exists ht

theorem DefinePrimSpec_snd_primPath (s : UsdStage) {p : SdfPath} (hp : p.IsPrimPath = true)
    (T : String) : (s.DefinePrimSpec p T).2 = some p := by
  cases p with
  | empty => simp [SdfPath.IsPrimPath] at hp
  | abs l =>
    cases l with
    | nil => simp [SdfPath.IsPrimPath] at hp
    | cons a l => exact DefinePrimSpec_snd s a l T

theorem CreateGeomSubset_spec (s : UsdStage) {t : SdfPath} (ht : t.IsPrimPath = true)
    (subsetName : String) (faces : List Int) :
    (CreateGeomSubset s (some t) subsetName "face" faces "materialBind").2 =
        some (t.AppendChild subsetName) ∧
      ∃ d, (CreateGeomSubset s (some t) subsetName "face" faces "materialBind").1
          (t.AppendChild subsetName) = some d ∧ IsFaceSubset faces d := by
  have hsp := SdfPath.appendChild_isPrimPath ht subsetName
  unfold CreateGeomSubset
  simp only [UsdPrim.GetPath, Option.getD_some]
  rw [DefinePrimSpec_snd_primPath s hsp]
  refine ⟨rfl, ?_⟩
  rw [author_apply]
  simp only [hsp, and_self, if_true, DefinePrimSpec_at s hsp "GeomSubset" (by decide),
    Option.map_some']
  exact ⟨_, rfl, rfl, rfl, rfl, rfl⟩

theorem CreateMaterialBindSubset_spec (s : UsdStage) {t : SdfPath} (ht : t.IsPrimPath = true)
    (subsetName : String) (faces : List Int) :
    (CreateMaterialBindSubset s (some t) subsetName faces "face").2 =
        some (t.AppendChild subsetName) ∧
      ∃ d, (CreateMaterialBindSubset s (some t) subsetName faces "face").1
          (t.AppendChild subsetName) = some d ∧ IsFaceSubset faces d := by
  obtain ⟨h2, d, hd, hP⟩ := CreateGeomSubset_spec s ht subsetName faces
  unfold CreateMaterialBindSubset
  simp only
  split
  · refine ⟨h2, ?_⟩
    unfold SetMaterialBindSubsetsFamilyType
    dsimp only
    refine author_preserves (IsFaceSubset faces) _ _ _ ?_ hd hP
    exact fun _ h => h
  · exact ⟨h2, d, hd, hP⟩

/-- What a subset-creating step establishes for a bound prim path that is a
prim path: the family of the bound prim is a partition, the subset
`t/materialName` exists with element type `face` and the face indices, and its
path is recorded. -/
theorem bindAssignment_subset_spec (env : ExportEnv) (ctx : PxrUsdMayaShadingModeExportContext)
    (material : UsdPrim) (materialPath : SdfPath) (materialName : String)
    (st : UsdStage × Option (Finset SdfPath)) (t : SdfPath) (faces : List Int)
    (h : IsSubsetStep env (t, faces)) (ht : t.IsPrimPath = true) :
    (∃ d, (bindAssignment env ctx material materialPath materialName st (t, faces)).1 t = some d ∧
        d.materialBindFamilyType = some "partition") ∧
      (∃ d, (bindAssignment env ctx material materialPath materialName st (t, faces)).1
          (t.AppendChild materialName) = some d ∧ IsFaceSubset faces d) ∧
      (bindAssignment env ctx material materialPath materialName st (t, faces)).2 =
        st.2.map fun b => insert (t.AppendChild materialName) b := by
  have hf : faces ≠ [] := h.1
  unfold bindAssignment
  simp only [isEmpty_eq_false_of_ne_nil hf, h.2, Bool.false_eq_true, if_false,
    _UninstancePrim_snd ht]
  obtain ⟨h2, d, hd, hP⟩ := CreateMaterialBindSubset_spec (_UninstancePrim st.1 t).1 ht
    materialName faces
  have hex : ∃ d0, (CreateMaterialBindSubset (_UninstancePrim st.1 t).1 (some t) materialName
      faces "face").1 t = some d0 := by
    obtain ⟨d0, hd0⟩ := Option.isSome_iff_exists.mp (@_UninstancePrim_exists st.1 t ht)
    have := CreateMaterialBindSubset_frames SdfPath.empty (_UninstancePrim st.1 t).1 (some t)
      materialName faces t d0 hd0
    obtain ⟨d', hd', -⟩ := this
    exact ⟨d', hd'⟩
  obtain ⟨d0, hd0⟩ := hex
  rw [h2]
  refine ⟨?_, ?_, rfl⟩
  · unfold SetMaterialBindSubsetsFamilyType
    rw [author_apply]
    simp only [ht, and_self, if_true]
    split
    · obtain ⟨d1, hd1, -⟩ := author_preserves (fun _ => True) _ (some (t.AppendChild materialName))
        (fun d => { d with materialBinding := some material.GetPath }) (fun _ _ => trivial)
        hd0 trivial
      unfold Bind
      rw [hd1]
      exact ⟨_, rfl, rfl⟩
    · rw [hd0]
      exact ⟨_, rfl, rfl⟩
  · unfold SetMaterialBindSubsetsFamilyType
    split
    · unfold Bind
      obtain ⟨d1, hd1, hP1⟩ := author_preserves (IsFaceSubset faces) _
        (some (t.AppendChild materialName))
        (fun d => { d with materialBinding := some material.GetPath }) (fun _ h => h) hd hP
      refine author_preserves (IsFaceSubset faces) _ _ _ ?_ hd1 hP1
      exact fun _ h => h
    · refine author_preserves (IsFaceSubset faces) _ _ _ ?_ hd hP
      exact fun _ h => h

/-- The decomposition of a call that returned a valid prim: the material name,
the material path, the stage right after the material prim was defined there,
and the loop over the assignments run from that stage. -/
theorem MakeStandardMaterialPrim_success (env : ExportEnv)
    (ctx : PxrUsdMayaShadingModeExportContext) (stage : UsdStage)
    (assignments : AssignmentVector) (name : String) (boundPrimPaths : Option (Finset SdfPath))
    (r : MakeResult)
    (hcall : MakeStandardMaterialPrim env ctx stage assignments name boundPrimPaths = some r)
    (hsucc : r.prim.isSome = true) :
    ∃ n materialPath stage0,
      materialNameOf env ctx name = some n ∧
      materialPath = materialLocation (commonAncestorLoop stage assignments SdfPath.empty)
        (env.SanitizeName n) ∧
      stage0 = stageWithMaterial stage (commonAncestorLoop stage assignments SdfPath.empty)
        (env.SanitizeName n) ∧
      r.prim = some materialPath ∧ materialPath.IsPrimPath = true ∧
      (∃ d, stage0 materialPath = some d ∧ d.typeName = "Material" ∧ d.defined = true) ∧
      (r.stage, r.boundPrimPaths) =
        assignments.foldl
          (bindAssignment env ctx (some materialPath) materialPath (env.SanitizeName n))
          (stage0, boundPrimPaths) := by
  rw [MakeStandardMaterialPrim_eq] at hcall
  cases hn : materialNameOf env ctx name with
  | none =>
    rw [hn] at hcall
    rw [← Option.some.inj hcall] at hsucc
    exact Bool.noConfusion hsucc
  | some n =>
    rw [hn] at hcall
    have key : ∀ (stage1 : UsdStage) (parent : List String),
        r = bindAll env ctx stage1 (SdfPath.abs parent) (env.SanitizeName n) assignments
          boundPrimPaths →
        r.prim = some (SdfPath.abs (parent ++ [env.SanitizeName n])) ∧
        (SdfPath.abs (parent ++ [env.SanitizeName n])).IsPrimPath = true ∧
        (∃ d, (stage1.DefinePrimSpec (SdfPath.abs (parent ++ [env.SanitizeName n])) "Material").1
            (SdfPath.abs (parent ++ [env.SanitizeName n])) = some d ∧
          d.typeName = "Material" ∧ d.defined = true) ∧
        (r.stage, r.boundPrimPaths) =
          assignments.foldl
            (bindAssignment env ctx (some (SdfPath.abs (parent ++ [env.SanitizeName n])))
              (SdfPath.abs (parent ++ [env.SanitizeName n])) (env.SanitizeName n))
            ((stage1.DefinePrimSpec (SdfPath.abs (parent ++ [env.SanitizeName n])) "Material").1,
              boundPrimPaths) := by
      intro stage1 parent hr
      have hpp : (SdfPath.abs (parent ++ [env.SanitizeName n])).IsPrimPath = true := by
        cases parent <;> rfl
      refine ⟨?_, hpp, ?_, ?_⟩
      · rw [hr]
        exact bindAll_prim _ _ _ _ _ _ _
      · exact ⟨_, DefinePrimSpec_at stage1 hpp "Material" (by decide), rfl, rfl⟩
      · rw [hr]
        simp only [bindAll, SdfPath.AppendChild, DefinePrimSpec_snd_primPath stage1 hpp]
    cases hP : commonAncestorLoop stage assignments SdfPath.empty with
    | empty =>
      rw [hP] at hcall
      rw [← Option.some.inj hcall] at hsucc
      exact Bool.noConfusion hsucc
    | abs l =>
      rw [hP] at hcall
      cases l with
      | nil =>
        obtain ⟨h1, h2, h3, h4⟩ := key stage [] (Option.some.inj hcall).symm
        exact ⟨n, _, _, rfl, rfl, rfl, h1, h2, h3, h4⟩
      | cons a l =>
        simp only at hcall
        by_cases hT : stage.IsInstance (SdfPath.abs [a]) = true
        · rw [if_pos hT] at hcall
          rw [← Option.some.inj hcall] at hsucc
          exact Bool.noConfusion hsucc
        · rw [if_neg hT] at hcall
          by_cases hL : stage.IsInstance (SdfPath.abs [a, "Looks"]) = true
          · rw [if_pos hL] at hcall
            rw [← Option.some.inj hcall] at hsucc
            exact Bool.noConfusion hsucc
          · rw [if_neg hL] at hcall
            obtain ⟨h1, h2, h3, h4⟩ := key _ [a, "Looks"] (Option.some.inj hcall).symm
            exact ⟨n, _, _, rfl, rfl, rfl, h1, h2, h3, h4⟩

theorem foldl_invariant {α β : Type} (f : β → α → β) (Inv : β → Prop) (l : List α)
    (hstep : ∀ b a, a ∈ l → Inv b → Inv (f b a)) (b : β) (h0 : Inv b) : Inv (l.foldl f b) := by
  induction l generalizing b with
  | nil => exact h0
  | cons a rest ih =>
    simp only [List.foldl_cons]
    exact ih (fun b a' ha' => hstep b a' (List.mem_cons_of_mem _ ha')) _
      (hstep b a (List.mem_cons_self _ _) h0)

theorem SdfPath.appendChild_inj {t u : SdfPath} (ht : t.IsPrimPath = true) (name : String)
    (h : t.AppendChild name = u.AppendChild name) : t = u := by
  cases t with
  | empty => simp [SdfPath.IsPrimPath] at ht
  | abs l =>
    cases u with
    | empty => simp [SdfPath.AppendChild] at h
    | abs m =>
      simp only [SdfPath.AppendChild, SdfPath.abs.injEq] at h
      rw [List.append_left_inj] at h
      rw [h]

theorem SdfPath.isPrimPath_ne_empty {p : SdfPath} (hp : p.IsPrimPath = true) :
    p ≠ SdfPath.empty := by
  rintro rfl
  simp [SdfPath.IsPrimPath] at hp

theorem IsInstance_isPrimPath {s : UsdStage} {q : SdfPath} (h : s.IsInstance q = true) :
    q.IsPrimPath = true := by
  unfold UsdStage.IsInstance UsdStage.data at h
  by_cases hq : q.IsPrimPath = true
  · exact hq
  · simp [hq] at h

theorem SdfPath.mem_GetPrefixes_GetParentPath {t q : SdfPath} :
    q ∈ t.GetParentPath.GetPrefixes ↔
      q.IsPrimPath = true ∧ q ≠ t ∧ t.HasPrefix q = true := by
  cases t with
  | empty => simp [SdfPath.GetParentPath, SdfPath.GetPrefixes, SdfPath.HasPrefix]
  | abs l =>
    rcases List.eq_nil_or_concat l with rfl | ⟨init, x, rfl⟩
    · simp only [SdfPath.GetParentPath, SdfPath.GetPrefixes, List.not_mem_nil, false_iff]
      rintro ⟨hq, hne, hpre⟩
      cases q with
      | empty => simp [SdfPath.IsPrimPath] at hq
      | abs m =>
        rw [SdfPath.hasPrefix_abs, List.prefix_nil] at hpre
        subst hpre
        exact hne rfl
    · rw [List.concat_eq_append]
      have hpar : (SdfPath.abs (init ++ [x])).GetParentPath = SdfPath.abs init := by
        cases init with
        | nil => rfl
        | cons a tl =>
          show SdfPath.abs ((a :: tl) ++ [x]).dropLast = SdfPath.abs (a :: tl)
          rw [List.dropLast_concat]
      rw [hpar]
      cases q with
      | empty =>
        simp only [SdfPath.GetPrefixes, SdfPath.IsPrimPath, Bool.false_eq_true, false_and,
          iff_false, List.mem_map, not_exists, not_and]
        intro m _ h
        cases h
      | abs m =>
        simp only [SdfPath.GetPrefixes, List.mem_map, SdfPath.abs.injEq, exists_eq_right,
          SdfPath.hasPrefix_abs, ne_eq, List.prefix_concat_iff]
        constructor
        · intro hm
          have hm' := List.mem_of_mem_drop hm
          rw [List.mem_inits] at hm'
          have hne : m ≠ [] := by
            rintro rfl
            cases init <;> simp [List.inits] at hm
          refine ⟨?_, ?_, Or.inr hm'⟩
          · cases m with
            | nil => exact absurd rfl hne
            | cons _ _ => rfl
          · rintro rfl
            have := hm'.length_le
            simp at this
        · rintro ⟨hpp, hne, hpre⟩
          rcases hpre with rfl | hpre
          · exact absurd rfl hne
          · cases m with
            | nil => simp [SdfPath.IsPrimPath] at hpp
            | cons a m =>
              have hmem : (a :: m) ∈ init.inits := (List.mem_inits _ _).mpr hpre
              cases init with
              | nil => simp at hpre
              | cons b init =>
                simp only [List.inits_cons, List.drop_succ_cons, List.drop_zero]
                simp only [List.inits_cons, List.mem_cons, List.mem_map] at hmem
                rcases hmem with hmem | hmem
                · cases hmem
                · simpa using hmem

/-- `_IsInstanceProxyPath` says that some strict ancestor of the path is
an instance prim; the path itself being an instance does not count. -/
theorem _IsInstanceProxyPath_iff (s : UsdStage) (t : SdfPath) :
    _IsInstanceProxyPath s t = true ↔ HasInstanceAncestor s t := by
  unfold _IsInstanceProxyPath HasInstanceAncestor
  rw [List.any_eq_true]
  constructor
  · rintro ⟨q, hq, hinst⟩
    obtain ⟨hpp, hne, hpre⟩ := SdfPath.mem_GetPrefixes_GetParentPath.mp hq
    refine ⟨q, hne, hpre, ?_⟩
    split at hinst
    · rename_i prim hprim
      rw [GetPrimAtPath_eq_some hprim] at hinst
      exact hinst
    · exact Bool.noConfusion hinst
  · rintro ⟨q, hne, hpre, hinst⟩
    have hpp := IsInstance_isPrimPath hinst
    refine ⟨q, SdfPath.mem_GetPrefixes_GetParentPath.mpr ⟨hpp, hne, hpre⟩, ?_⟩
    have hsome : (s q).isSome = true := by
      unfold UsdStage.IsInstance UsdStage.data at hinst
      simp only [hpp, if_true] at hinst
      cases hs : s q with
      | none => simp [hs] at hinst
      | some d => rfl
    rw [GetPrimAtPath_primPath hpp, hsome]
    exact hinst

/-- What a whole-object step does: the path is recorded; nothing is authored
when collection-based bindings are on or the path is an instance proxy path;
otherwise the prim at a prim path gets the direct binding. -/
theorem bindAssignment_whole_object_spec (env : ExportEnv)
    (ctx : PxrUsdMayaShadingModeExportContext) (material : UsdPrim) (materialPath : SdfPath)
    (materialName : String) (st : UsdStage × Option (Finset SdfPath)) (t : SdfPath) :
    (bindAssignment env ctx material materialPath materialName st (t, [])).2 =
        st.2.map (fun b => insert t b) ∧
      ((ctx._exportParams.exportCollectionBasedBindings = true ∨
          _IsInstanceProxyPath st.1 t = true) →
        (bindAssignment env ctx material materialPath materialName st (t, [])).1 = st.1) ∧
      (ctx._exportParams.exportCollectionBasedBindings = false →
        _IsInstanceProxyPath st.1 t = false → t.IsPrimPath = true →
        ∃ d, (bindAssignment env ctx material materialPath materialName st (t, [])).1 t = some d ∧
          d.materialBinding = some material.GetPath) := by
  unfold bindAssignment
  simp only [List.isEmpty_nil, if_true]
  refine ⟨?_, ?_, ?_⟩
  · first | rfl | trivial
  · rintro (h | h)
    · simp [h]
    · simp [h]
  · intro hc hp ht
    simp only [hc, hp, Bool.not_false, if_true, Bool.false_eq_true, if_false]
    rw [OverridePrim_snd ht]
    obtain ⟨d, hd⟩ := Option.isSome_iff_exists.mp (@OverridePrim_exists st.1 t ht)
    unfold Bind
    rw [author_apply]
    simp only [ht, and_self, if_true, hd, Option.map_some']
    exact ⟨_, rfl, rfl⟩

/-- Every step keeps the prims of the stage and a direct binding to the
material. -/
theorem bindAssignment_keeps_binding (env : ExportEnv) (ctx : PxrUsdMayaShadingModeExportContext)
    (material : UsdPrim) (materialPath : SdfPath) (materialName : String)
    (st : UsdStage × Option (Finset SdfPath)) (a : Assignment) (q : SdfPath) :
    ((st.1 q).isSome = true →
        ((bindAssignment env ctx material materialPath materialName st a).1 q).isSome = true) ∧
      ((∃ d, st.1 q = some d ∧ d.materialBinding = some material.GetPath) →
        ∃ d, (bindAssignment env ctx material materialPath materialName st a).1 q = some d ∧
          d.materialBinding = some material.GetPath) := by
  have key : ∀ d, st.1 q = some d →
      ∃ d', (bindAssignment env ctx material materialPath materialName st a).1 q = some d' ∧
        (d'.materialBinding = d.materialBinding ∨ d'.materialBinding = some material.GetPath) := by
    intro d hd
    by_cases hs : IsSubsetStep env a
    · obtain ⟨d', hd', -, hb, -⟩ := bindAssignment_frames_subset env ctx material materialPath
        materialName st a hs q d hd
      exact ⟨d', hd', hb⟩
    · obtain ⟨d', hd', -, hb, -⟩ := bindAssignment_frames_other env ctx material materialPath
        materialName st a hs q d hd
      exact ⟨d', hd', hb⟩
  constructor
  · intro h
    obtain ⟨d, hd⟩ := Option.isSome_iff_exists.mp h
    obtain ⟨d', hd', -⟩ := key d hd
    rw [hd']
    rfl
  · rintro ⟨d, hd, hb⟩
    obtain ⟨d', hd', hb'⟩ := key d hd
    refine ⟨d', hd', ?_⟩
    rcases hb' with h | h
    · exact h.trans hb
    · exact h

/-- The loop keeps the prims of the stage and a direct binding to the
material. -/
theorem bindLoop_keeps_binding (env : ExportEnv) (ctx : PxrUsdMayaShadingModeExportContext)
    (material : UsdPrim) (materialPath : SdfPath) (materialName : String)
    (l : AssignmentVector) (st : UsdStage × Option (Finset SdfPath)) (q : SdfPath) :
    ((st.1 q).isSome = true →
        ((l.foldl (bindAssignment env ctx material materialPath materialName) st).1 q).isSome =
          true) ∧
      ((∃ d, st.1 q = some d ∧ d.materialBinding = some material.GetPath) →
        ∃ d, (l.foldl (bindAssignment env ctx material materialPath materialName) st).1 q =
            some d ∧ d.materialBinding = some material.GetPath) := by
  constructor
  · intro h
    exact foldl_invariant _
      (fun st : UsdStage × Option (Finset SdfPath) => (st.1 q).isSome = true) l
      (fun st a _ h => (bindAssignment_keeps_binding env ctx _ _ _ st a q).1 h) st h
  · intro h
    exact foldl_invariant _
      (fun st : UsdStage × Option (Finset SdfPath) =>
        ∃ d, st.1 q = some d ∧ d.materialBinding = some material.GetPath) l
      (fun st a _ h => (bindAssignment_keeps_binding env ctx _ _ _ st a q).2 h) st h

/-- What `GetStandardAttrName` returns on every branch, as long as the logical
index of an element fits an `int`: the bare name of a non-element plug;
`<array name>_<index>` for an element when multi-element arrays are allowed;
the array name for element 0 and the empty string for any other element when
they are not. -/
theorem GetStandardAttrName_spec (plug : MPlug) (allowMultiElementArrays : Bool) :
    (plug.isElement = false →
      GetStandardAttrName plug allowMultiElementArrays = plug.partialName) ∧
    (plug.isElement = true → allowMultiElementArrays = true →
      plug.logicalIndex < 2 ^ 31 →
      GetStandardAttrName plug allowMultiElementArrays =
        plug.array.partialName ++ "_" ++ toString plug.logicalIndex) ∧
    (plug.isElement = true → allowMultiElementArrays = false → plug.logicalIndex = 0 →
      GetStandardAttrName plug allowMultiElementArrays = plug.array.partialName) ∧
    (plug.isElement = true → allowMultiElementArrays = false → plug.logicalIndex ≠ 0 →
      GetStandardAttrName plug allowMultiElementArrays = "") := by
  refine ⟨fun h => ?_, fun h ha hi => ?_, fun h ha hi => ?_, fun h ha hi => ?_⟩
  · simp [GetStandardAttrName, h]
  · have hlt : plug.logicalIndex < UINT_RANGE := lt_trans hi (by decide)
    have hi' : plug.logicalIndex < UINT_RANGE / 2 := hi
    simp [GetStandardAttrName, h, ha, printfSignedOfUnsigned, Nat.mod_eq_of_lt hlt, hi']
  · simp [GetStandardAttrName, h, ha, hi]
  · simp [GetStandardAttrName, h, ha, hi]

/-! ## Authoring as a log of edits -/

theorem PrimEdit.apply_comp (e₂ e₁ : PrimEdit) (d : UsdPrimData) :
    (e₂.comp e₁).apply d = e₂.apply (e₁.apply d) := by
  obtain ⟨a1, b1, c1, m1, x1, i1, f1, t1⟩ := e₁
  obtain ⟨a2, b2, c2, m2, x2, i2, f2, t2⟩ := e₂
  simp only [PrimEdit.comp, PrimEdit.apply]
  congr 1
  · cases a2 <;> simp
  · cases b2 <;> simp
  · cases c2 <;> cases c1 <;> simp
  · cases m2 <;> simp
  · cases x2 <;> simp
  · cases i2 <;> simp
  · cases f2 <;> simp
  · cases t2 <;> simp

theorem PrimEdit.apply_apply (e : PrimEdit) (d : UsdPrimData) :
    e.apply (e.apply d) = e.apply d := by
  obtain ⟨a, b, c, m, x, i, f, t⟩ := e
  simp only [PrimEdit.apply]
  congr 1
  · cases a <;> simp
  · cases b <;> simp
  · cases c <;> simp
  · cases m <;> simp
  · cases x <;> simp
  · cases i <;> simp
  · cases f <;> simp
  · cases t <;> simp

theorem applyEdits_cons (w : SdfPath × PrimEdit) (W : List (SdfPath × PrimEdit)) (s : UsdStage) :
    applyEdits (w :: W) s = applyEdits W (editAt w.1 w.2 s) := rfl

theorem applyEdits_append (W₁ W₂ : List (SdfPath × PrimEdit)) (s : UsdStage) :
    applyEdits (W₁ ++ W₂) s = applyEdits W₂ (applyEdits W₁ s) := by
  simp [applyEdits, List.foldl_append]

/-- The stage after a log of edits, prim by prim. -/
theorem applyEdits_apply (W : List (SdfPath × PrimEdit)) (s : UsdStage) (r : SdfPath) :
    applyEdits W s r =
      match netEdit W r with
      | Option.none => s r
      | some e => some (e.apply ((s r).getD overPrimData)) := by
  induction W generalizing s with
  | nil => rfl
  | cons w W ih =>
    obtain ⟨q, e⟩ := w
    rw [applyEdits_cons, ih]
    simp only [netEdit]
    by_cases hr : r = q
    · subst hr
      simp only [if_true, editAt]
      cases netEdit W r with
      | none => simp
      | some e' => simp [PrimEdit.apply_comp]
    · simp only [hr, if_false, editAt]

/-- Replaying a log of edits on its own result changes nothing. -/
theorem applyEdits_idem (W : List (SdfPath × PrimEdit)) (s : UsdStage) :
    applyEdits W (applyEdits W s) = applyEdits W s := by
  funext r
  rw [applyEdits_apply W (applyEdits W s) r, applyEdits_apply W s r]
  cases netEdit W r with
  | none => rfl
  | some e => simp [PrimEdit.apply_apply]

theorem editAt_isSome (q : SdfPath) (e : PrimEdit) (s : UsdStage) (r : SdfPath)
    (h : (s r).isSome = true) : (editAt q e s r).isSome = true := by
  unfold editAt
  split
  · rfl
  · exact h

theorem applyEdits_isSome (W : List (SdfPath × PrimEdit)) (s : UsdStage) (r : SdfPath)
    (h : (s r).isSome = true) : (applyEdits W s r).isSome = true := by
  induction W generalizing s with
  | nil => exact h
  | cons w W ih => exact ih _ (editAt_isSome _ _ _ _ h)

theorem editAt_self_isSome (q : SdfPath) (e : PrimEdit) (s : UsdStage) :
    (editAt q e s q).isSome = true := by
  simp [editAt]

/-- Authoring on an existing prim is an edit. -/
theorem author_eq_editAt (s : UsdStage) {q : SdfPath} (f : UsdPrimData → UsdPrimData)
    (e : PrimEdit) (hq : q.IsPrimPath = true) (hs : (s q).isSome = true)
    (hf : ∀ d, f d = e.apply d) : s.author (some q) f = editAt q e s := by
  funext r
  rw [author_apply]
  unfold editAt
  obtain ⟨d, hd⟩ := Option.isSome_iff_exists.mp hs
  by_cases hr : r = q
  · subst hr
    simp [hq, hd, hf]
  · have : ¬ (some q = some r) := fun h => hr (Option.some.inj h).symm
    simp [hr, this]

theorem author_root (s : UsdStage) {q : SdfPath} (f : UsdPrimData → UsdPrimData)
    (hq : q.IsPrimPath = false) : s.author (some q) f = s := by
  funext r
  rw [author_apply]
  split
  · rename_i h
    obtain ⟨h1, h2⟩ := h
    rw [← Option.some.inj h1, hq] at h2
    exact Bool.noConfusion h2
  · rfl

theorem SetInstanceableFalse_eq (s : UsdStage) {q : SdfPath} (hq : q.IsPrimPath = true)
    (hs : (s q).isSome = true) :
    SetInstanceableFalse s (some q) = editAt q clearInstanceEdit s :=
  author_eq_editAt s _ _ hq hs fun d => by
    simp [PrimEdit.apply, clearInstanceEdit, PrimEdit.none]

theorem Bind_eq (s : UsdStage) {q : SdfPath} (M : SdfPath) (hq : q.IsPrimPath = true)
    (hs : (s q).isSome = true) : Bind s (some q) (some M) = editAt q (bindEdit M) s :=
  author_eq_editAt s _ _ hq hs fun d => by
    simp [PrimEdit.apply, bindEdit, PrimEdit.none, UsdPrim.GetPath]

theorem SetMaterialBindSubsetsFamilyType_eq (s : UsdStage) {q : SdfPath} (T : String)
    (hq : q.IsPrimPath = true) (hs : (s q).isSome = true) :
    SetMaterialBindSubsetsFamilyType s (some q) T = editAt q (familyTypeEdit T) s :=
  author_eq_editAt s _ _ hq hs fun d => by
    simp [PrimEdit.apply, familyTypeEdit, PrimEdit.none]

/-- An edit that clears the instance flag of a prim that is no instance
changes nothing. -/
theorem editAt_clearInstance_of_not_instance (s : UsdStage) {q : SdfPath} {d : UsdPrimData}
    (hd : s q = some d) (hi : d.isInstance = false) : editAt q clearInstanceEdit s = s := by
  funext r
  unfold editAt
  split
  · rename_i h
    subst h
    rw [hd]
    cases d
    simp only at hi
    subst hi
    simp [PrimEdit.apply, clearInstanceEdit, PrimEdit.none]
  · rfl

/-- On a stage that has all the prims of the list, the loop of
`_UninstancePrim` is the log of the instance-clearing edits. -/
theorem uninstanceLoop_eq (s : UsdStage) (l : List SdfPath)
    (h : ∀ q ∈ l, q.IsPrimPath = true ∧ (s q).isSome = true) :
    uninstanceLoop s l = applyEdits (l.map fun q => (q, clearInstanceEdit)) s := by
  induction l generalizing s with
  | nil => rfl
  | cons q rest ih =>
    obtain ⟨hq, hs⟩ := h q (List.mem_cons_self _ _)
    have hrest : ∀ s' : UsdStage, (∀ r, (s r).isSome = true → (s' r).isSome = true) →
        ∀ r ∈ rest, r.IsPrimPath = true ∧ (s' r).isSome = true :=
      fun s' hs' r hr => ⟨(h r (List.mem_cons_of_mem _ hr)).1,
        hs' r (h r (List.mem_cons_of_mem _ hr)).2⟩
    simp only [uninstanceLoop, GetPrimAtPath_primPath hq, hs, if_true, List.map_cons,
      applyEdits_cons]
    obtain ⟨d, hd⟩ := Option.isSome_iff_exists.mp hs
    by_cases hi : s.IsInstance q = true
    · simp only [hi, if_true]
      rw [SetInstanceableFalse_eq s hq hs]
      exact ih _ (hrest _ fun r hr => editAt_isSome _ _ _ _ hr)
    · simp only [hi]
      have hdi : d.isInstance = false := by
        unfold UsdStage.IsInstance UsdStage.data at hi
        simpa [hq, hd] using hi
      rw [editAt_clearInstance_of_not_instance s hd hdi]
      exact ih s (hrest s fun r hr => hr)

theorem OverridePrim_of_exists (s : UsdStage) {t : SdfPath}
    (h : (s.GetPrimAtPath t).isSome = true) : s.OverridePrim t = (s, some t) := by
  unfold UsdStage.OverridePrim
  obtain ⟨prim, hprim⟩ := Option.isSome_iff_exists.mp h
  rw [hprim, GetPrimAtPath_eq_some hprim]

/-- The stage after the log of one constant edit at each path of a list. -/
theorem applyEdits_map_const (l : List SdfPath) (e : PrimEdit) (s : UsdStage) (r : SdfPath) :
    applyEdits (l.map fun q => (q, e)) s r =
      if r ∈ l then some (e.apply ((s r).getD overPrimData)) else s r := by
  induction l generalizing s with
  | nil => rfl
  | cons q rest ih =>
    rw [List.map_cons, applyEdits_cons, ih]
    unfold editAt
    by_cases hq : r = q
    · subst hq
      simp [PrimEdit.apply_apply]
    · by_cases hr : r ∈ rest
      · simp [hq, hr]
      · simp [hq, hr]

theorem SdfPath.not_mem_GetPrefixes_GetParentPath_self (p : SdfPath) :
    p ∉ p.GetParentPath.GetPrefixes := fun h =>
  (SdfPath.mem_GetPrefixes_GetParentPath.mp h).2.1 rfl

theorem SdfPath.mem_GetPrefixes_iff {p q : SdfPath} :
    q ∈ p.GetPrefixes ↔ q.IsPrimPath = true ∧ p.HasPrefix q = true := by
  cases p with
  | empty => simp [SdfPath.GetPrefixes, SdfPath.HasPrefix]
  | abs l =>
    cases q with
    | empty =>
      simp only [SdfPath.GetPrefixes, SdfPath.IsPrimPath, Bool.false_eq_true, false_and,
        iff_false, List.mem_map, not_exists, not_and]
      intro m _ h
      cases h
    | abs m =>
      simp only [SdfPath.GetPrefixes, List.mem_map, SdfPath.abs.injEq, exists_eq_right,
        SdfPath.hasPrefix_abs]
      cases l with
      | nil =>
        simp only [List.inits, List.drop_succ_cons, List.drop_nil, List.not_mem_nil,
          List.prefix_nil, false_iff, not_and]
        intro hm hnil
        subst hnil
        simp [SdfPath.IsPrimPath] at hm
      | cons a l =>
        simp only [List.inits_cons, List.drop_succ_cons, List.drop_zero, List.mem_map,
          List.mem_inits]
        constructor
        · rintro ⟨m', hm', rfl⟩
          exact ⟨rfl, List.cons_prefix_cons.mpr ⟨rfl, hm'⟩⟩
        · rintro ⟨hpp, hpre⟩
          cases m with
          | nil => simp [SdfPath.IsPrimPath] at hpp
          | cons b m =>
            obtain ⟨rfl, hpre'⟩ := List.cons_prefix_cons.mp hpre
            exact ⟨m, hpre', rfl⟩

theorem SdfPath.mem_GetPrefixes_of_mem_parent {p q : SdfPath}
    (h : q ∈ p.GetParentPath.GetPrefixes) : q ∈ p.GetPrefixes := by
  obtain ⟨h1, -, h3⟩ := SdfPath.mem_GetPrefixes_GetParentPath.mp h
  exact SdfPath.mem_GetPrefixes_iff.mpr ⟨h1, h3⟩

/-- `DefinePrimSpec` with a type name at a prim path is the log `defineEdits`. -/
theorem DefinePrimSpec_eq (s : UsdStage) {p : SdfPath} (hp : p.IsPrimPath = true) (T : String)
    (hT : T ≠ "") : (s.DefinePrimSpec p T).1 = applyEdits (defineEdits p T) s := by
  funext r
  unfold defineEdits
  rw [applyEdits_append, applyEdits_cons]
  show _ = editAt p (defTypeEdit T) _ r
  unfold editAt
  by_cases hr : r = p
  · subst hr
    simp only [if_true]
    rw [applyEdits_map_const, if_neg (SdfPath.not_mem_GetPrefixes_GetParentPath_self r),
      DefinePrimSpec_at s hp T hT]
    simp [PrimEdit.apply, defTypeEdit, PrimEdit.none]
  · simp only [hr, if_false]
    rw [applyEdits_map_const]
    unfold UsdStage.DefinePrimSpec
    rw [if_neg (SdfPath.isPrimPath_ne_root hp)]
    simp only [hp, Bool.not_true, Bool.false_eq_true, if_false, hT, decide_False, Bool.false_or]
    split
    · rename_i hdef
      rw [Bool.and_eq_true] at hdef
      by_cases hmem : r ∈ p.GetParentPath.GetPrefixes
      · simp only [hmem, if_true]
        have hd := hdef.1
        unfold UsdStage.IsDefined at hd
        rw [List.all_eq_true] at hd
        have := hd r (SdfPath.mem_GetPrefixes_of_mem_parent hmem)
        cases hs : s r with
        | none => simp [hs] at this
        | some d =>
          simp only [hs] at this
          cases d
          simp only at this
          subst this
          simp [PrimEdit.apply, defEdit, PrimEdit.none]
      · simp [hmem]
    · simp only [hr, if_false]
      by_cases hmem : r ∈ p.GetParentPath.GetPrefixes
      · simp [hmem, PrimEdit.apply, defEdit, PrimEdit.none]
      · simp [hmem]

theorem GetPrimAtPath_isSome_mono {s s' : UsdStage}
    (h : ∀ r, (s r).isSome = true → (s' r).isSome = true) {t : SdfPath}
    (ht : (s.GetPrimAtPath t).isSome = true) : (s'.GetPrimAtPath t).isSome = true := by
  unfold UsdStage.GetPrimAtPath at ht ⊢
  by_cases hroot : t = SdfPath.AbsoluteRootPath
  · simp [hroot]
  · simp only [hroot, if_false] at ht ⊢
    by_cases hp : t.IsPrimPath = true
    · simp only [UsdStage.data, hp, if_true] at ht ⊢
      by_cases hs : (s t).isSome = true
      · simp [h t hs]
      · simp [hs] at ht
    · simp [UsdStage.data, hp] at ht

theorem isSome_of_GetPrimAtPath {s : UsdStage} {t : SdfPath} (hp : t.IsPrimPath = true)
    (ht : (s.GetPrimAtPath t).isSome = true) : (s t).isSome = true := by
  rw [GetPrimAtPath_primPath hp] at ht
  by_cases hs : (s t).isSome = true
  · exact hs
  · simp [hs] at ht

theorem _UninstancePrim_eq (s : UsdStage) (t : SdfPath)
    (hex : (s.GetPrimAtPath t).isSome = true ∧ ∀ q ∈ t.GetPrefixes, (s q).isSome = true) :
    _UninstancePrim s t =
      (applyEdits (t.GetPrefixes.map fun q => (q, clearInstanceEdit)) s, some t) := by
  unfold _UninstancePrim
  rw [uninstanceLoop_eq s _ fun q hq => ⟨SdfPath.isPrimPath_of_mem_GetPrefixes hq, hex.2 q hq⟩]
  exact OverridePrim_of_exists _ (GetPrimAtPath_isSome_mono (applyEdits_isSome _ s) hex.1)

theorem applyEdits_snoc_isSome (W : List (SdfPath × PrimEdit)) (p : SdfPath) (e : PrimEdit)
    (s : UsdStage) : (applyEdits (W ++ [(p, e)]) s p).isSome = true := by
  rw [applyEdits_append]
  exact editAt_self_isSome p e _

theorem CreateGeomSubset_eq (s : UsdStage) (l : List String) (subsetName : String)
    (faces : List Int) :
    CreateGeomSubset s (some (SdfPath.abs l)) subsetName "face" faces "materialBind" =
      (applyEdits (defineEdits (SdfPath.abs (l ++ [subsetName])) "GeomSubset" ++
          [(SdfPath.abs (l ++ [subsetName]), subsetAttrsEdit faces)]) s,
        some (SdfPath.abs (l ++ [subsetName]))) := by
  have hsp : (SdfPath.abs (l ++ [subsetName])).IsPrimPath = true := by cases l <;> rfl
  unfold CreateGeomSubset
  simp only [UsdPrim.GetPath, Option.getD_some, SdfPath.AppendChild]
  rw [DefinePrimSpec_snd_primPath s hsp, DefinePrimSpec_eq s hsp "GeomSubset" (by decide),
    applyEdits_append]
  congr 1
  refine author_eq_editAt _ _ _ hsp ?_ fun d => ?_
  · unfold defineEdits
    exact applyEdits_snoc_isSome _ _ _ _
  · simp [PrimEdit.apply, subsetAttrsEdit, PrimEdit.none]

theorem editAt_familyType_absorb (t : SdfPath) (T₁ T₂ : String) (s : UsdStage) :
    editAt t (familyTypeEdit T₂) (editAt t (familyTypeEdit T₁) s) =
      editAt t (familyTypeEdit T₂) s := by
  funext r
  unfold editAt
  by_cases hr : r = t
  · subst hr
    simp [PrimEdit.apply, familyTypeEdit, PrimEdit.none]
  · simp [hr]

theorem editAt_familyType_absorb_through (t sp : SdfPath) (hne : sp ≠ t) (e : PrimEdit)
    (T₁ T₂ : String) (s : UsdStage) :
    editAt t (familyTypeEdit T₂) (editAt sp e (editAt t (familyTypeEdit T₁) s)) =
      editAt t (familyTypeEdit T₂) (editAt sp e s) := by
  funext r
  unfold editAt
  by_cases hr : r = t
  · subst hr
    have : r ≠ sp := fun h => hne h.symm
    simp [this, PrimEdit.apply, familyTypeEdit, PrimEdit.none]
  · by_cases hr' : r = sp
    · subst hr'
      simp [hr, hne]
    · simp [hr, hr']

/-- The end of a subset-creating step on a stage `s₂` that has the subset
prim and the bound prim: the family-type repair of
`CreateMaterialBindSubset`, the optional binding of the subset and the final
`partition` tag amount to the binding edit and the `partition` edit. -/
theorem subsetStepTail_eq (coll : Bool) (M : SdfPath) (t sp : SdfPath) (hne : sp ≠ t)
    (hsp : sp.IsPrimPath = true) (s₂ : UsdStage) (hs₂ : (s₂ sp).isSome = true)
    (ht₂ : t.IsPrimPath = true → (s₂ t).isSome = true) (repair : Bool) :
    SetMaterialBindSubsetsFamilyType
        (if (!coll) = true then
          Bind (if repair = true then SetMaterialBindSubsetsFamilyType s₂ (some t) "nonOverlapping"
            else s₂) (some sp) (some M)
        else (if repair = true then SetMaterialBindSubsetsFamilyType s₂ (some t) "nonOverlapping"
            else s₂))
        (some t) "partition" =
      applyEdits ((if coll = true then [] else [(sp, bindEdit M)]) ++
        (if t.IsPrimPath = true then [(t, familyTypeEdit "partition")] else [])) s₂ := by
  by_cases htp : t.IsPrimPath = true
  · have ht := ht₂ htp
    have hrep : ∀ x : UsdStage, (x t).isSome = true → ∀ T,
        SetMaterialBindSubsetsFamilyType x (some t) T = editAt t (familyTypeEdit T) x :=
      fun x hx T => SetMaterialBindSubsetsFamilyType_eq x T htp hx
    cases coll <;> cases repair <;>
      simp only [Bool.not_false, Bool.not_true, if_true, Bool.false_eq_true, if_false, htp,
        List.nil_append, List.singleton_append, applyEdits_cons, applyEdits]
    · rw [Bind_eq s₂ M hsp hs₂, hrep _ (editAt_isSome _ _ _ _ ht)]
      rfl
    · rw [hrep _ ht, Bind_eq _ M hsp (editAt_isSome _ _ _ _ hs₂),
        hrep _ (editAt_isSome _ _ _ _ (editAt_isSome _ _ _ _ ht)),
        editAt_familyType_absorb_through t sp hne]
      rfl
    · rw [hrep _ ht]
      rfl
    · rw [hrep _ ht, hrep _ (editAt_isSome _ _ _ _ ht), editAt_familyType_absorb]
      rfl
  · have htp' : t.IsPrimPath = false := by simpa using htp
    have hrep : ∀ (x : UsdStage) T, SetMaterialBindSubsetsFamilyType x (some t) T = x :=
      fun x T => author_root x _ htp'
    cases coll <;> cases repair <;>
      simp only [Bool.not_false, Bool.not_true, if_true, Bool.false_eq_true, if_false, htp',
        List.nil_append, List.append_nil, applyEdits_cons, applyEdits, hrep, List.foldl_nil]
    · rw [Bind_eq s₂ M hsp hs₂]
      rfl
    · rw [Bind_eq s₂ M hsp hs₂]
      rfl

theorem CreateMaterialBindSubset_eq (s : UsdStage) (l : List String) (subsetName : String)
    (faces : List Int) :
    CreateMaterialBindSubset s (some (SdfPath.abs l)) subsetName faces "face" =
      (if decide (GetMaterialBindSubsetsFamilyType
              (applyEdits (defineEdits (SdfPath.abs (l ++ [subsetName])) "GeomSubset" ++
                [(SdfPath.abs (l ++ [subsetName]), subsetAttrsEdit faces)]) s)
              (some (SdfPath.abs l)) = "" ∨
            GetMaterialBindSubsetsFamilyType
              (applyEdits (defineEdits (SdfPath.abs (l ++ [subsetName])) "GeomSubset" ++
                [(SdfPath.abs (l ++ [subsetName]), subsetAttrsEdit faces)]) s)
              (some (SdfPath.abs l)) = "unrestricted") = true then
          SetMaterialBindSubsetsFamilyType
            (applyEdits (defineEdits (SdfPath.abs (l ++ [subsetName])) "GeomSubset" ++
              [(SdfPath.abs (l ++ [subsetName]), subsetAttrsEdit faces)]) s)
            (some (SdfPath.abs l)) "nonOverlapping"
        else
          applyEdits (defineEdits (SdfPath.abs (l ++ [subsetName])) "GeomSubset" ++
            [(SdfPath.abs (l ++ [subsetName]), subsetAttrsEdit faces)]) s,
        some (SdfPath.abs (l ++ [subsetName]))) := by
  unfold CreateMaterialBindSubset
  simp only [CreateGeomSubset_eq]
  split
  · rename_i h
    simp only [h, decide_True, if_true]
  · rename_i h
    simp only [h, decide_False, Bool.false_eq_true, if_false]

/-- A step of the binding loop as a log of edits. -/
theorem bindAssignment_eq_edits (env : ExportEnv) (ctx : PxrUsdMayaShadingModeExportContext)
    (M materialPath : SdfPath) (materialName : String) (s : UsdStage)
    (b : Option (Finset SdfPath)) (a : Assignment)
    (hlegacy : env.PIXMAYA_EXPORT_OLD_STYLE_FACESETS = false)
    (hex : (s.GetPrimAtPath a.1).isSome = true ∧ ∀ q ∈ a.1.GetPrefixes, (s q).isSome = true)
    (hproxy : a.2 = [] → ctx._exportParams.exportCollectionBasedBindings = false →
      _IsInstanceProxyPath s a.1 = false) :
    (bindAssignment env ctx (some M) materialPath materialName (s, b) a).1 =
      applyEdits (stepEdits ctx._exportParams.exportCollectionBasedBindings M materialName a)
        s := by
  obtain ⟨t, faces⟩ := a
  simp only at hex hproxy
  obtain ⟨l, rfl⟩ := GetPrimAtPath_isSome_abs hex.1
  by_cases hf : faces = []
  · subst hf
    unfold bindAssignment stepEdits
    simp only [List.isEmpty_nil, if_true]
    cases hc : ctx._exportParams.exportCollectionBasedBindings with
    | true => rfl
    | false =>
      simp only [Bool.not_false, if_true, hproxy rfl hc, Bool.false_eq_true, if_false,
        Bool.false_or, OverridePrim_of_exists s hex.1]
      by_cases hp : (SdfPath.abs l).IsPrimPath = true
      · simp only [hp, Bool.not_true, Bool.false_eq_true, if_false]
        rw [Bind_eq s M hp (isSome_of_GetPrimAtPath hp hex.1)]
        rfl
      · have hp' : (SdfPath.abs l).IsPrimPath = false := by simpa using hp
        simp only [hp', Bool.not_false, if_true]
        exact author_root s _ hp'
  · have hsp : (SdfPath.abs (l ++ [materialName])).IsPrimPath = true := by cases l <;> rfl
    have hne : SdfPath.abs (l ++ [materialName]) ≠ SdfPath.abs l := by
      intro h
      have := congrArg SdfPath.GetPathElementCount h
      simp [SdfPath.GetPathElementCount] at this
    have hR : ∀ A B C : List (SdfPath × PrimEdit),
        applyEdits (A ++ B ++ C) s = applyEdits C (applyEdits B (applyEdits A s)) := by
      intro A B C
      rw [applyEdits_append, applyEdits_append]
    unfold bindAssignment stepEdits
    simp only [isEmpty_eq_false_of_ne_nil hf, hlegacy, Bool.false_eq_true, if_false,
      _UninstancePrim_eq s _ hex, CreateMaterialBindSubset_eq, SdfPath.AppendChild, hR]
    generalize hs1 : applyEdits ((SdfPath.abs l).GetPrefixes.map fun q =>
      (q, clearInstanceEdit)) s = s₁
    generalize hs2 : applyEdits (defineEdits (SdfPath.abs (l ++ [materialName])) "GeomSubset" ++
      [(SdfPath.abs (l ++ [materialName]), subsetAttrsEdit faces)]) s₁ = s₂
    have hs₂ : (s₂ (SdfPath.abs (l ++ [materialName]))).isSome = true := by
      rw [← hs2]
      exact applyEdits_snoc_isSome _ _ _ _
    have ht₂ : (SdfPath.abs l).IsPrimPath = true → (s₂ (SdfPath.abs l)).isSome = true := by
      intro hp
      rw [← hs2, ← hs1]
      exact applyEdits_isSome _ _ _ (applyEdits_isSome _ _ _ (isSome_of_GetPrimAtPath hp hex.1))
    have htail := subsetStepTail_eq ctx._exportParams.exportCollectionBasedBindings M
      (SdfPath.abs l) (SdfPath.abs (l ++ [materialName])) hne hsp s₂ hs₂ ht₂
      (decide (GetMaterialBindSubsetsFamilyType s₂ (some (SdfPath.abs l)) = "" ∨
        GetMaterialBindSubsetsFamilyType s₂ (some (SdfPath.abs l)) = "unrestricted"))
    rw [← htail]

theorem editAt_IsInstance (q : SdfPath) (e : PrimEdit) (s : UsdStage) (r : SdfPath)
    (h : (editAt q e s).IsInstance r = true) : s.IsInstance r = true := by
  unfold UsdStage.IsInstance UsdStage.data at h ⊢
  by_cases hp : r.IsPrimPath = true
  · simp only [hp, if_true] at h ⊢
    unfold editAt at h
    by_cases hr : r = q
    · subst hr
      simp only [if_true] at h
      cases hs : s r with
      | none => simp [hs, PrimEdit.apply, overPrimData] at h
      | some d =>
        simp only [hs, Option.getD_some, PrimEdit.apply, Bool.and_eq_true] at h
        exact h.2
    · simpa [hr] using h
  · simp [hp] at h

theorem applyEdits_IsInstance (W : List (SdfPath × PrimEdit)) (s : UsdStage) (r : SdfPath)
    (h : (applyEdits W s).IsInstance r = true) : s.IsInstance r = true := by
  induction W generalizing s with
  | nil => exact h
  | cons w W ih => exact editAt_IsInstance _ _ _ _ (ih _ h)

theorem readyToBind_applyEdits (ctx : PxrUsdMayaShadingModeExportContext)
    (l : AssignmentVector) (s : UsdStage) (W : List (SdfPath × PrimEdit))
    (h : ReadyToBind ctx l s) : ReadyToBind ctx l (applyEdits W s) := by
  intro a ha
  obtain ⟨⟨h1, h2⟩, h3⟩ := h a ha
  refine ⟨⟨GetPrimAtPath_isSome_mono (applyEdits_isSome W s) h1,
    fun q hq => applyEdits_isSome W s q (h2 q hq)⟩, fun hf hc => ?_⟩
  cases hx : _IsInstanceProxyPath (applyEdits W s) a.1 with
  | false => rfl
  | true =>
    obtain ⟨q, hne, hpre, hinst⟩ := (_IsInstanceProxyPath_iff _ _).mp hx
    have : _IsInstanceProxyPath s a.1 = true :=
      (_IsInstanceProxyPath_iff _ _).mpr ⟨q, hne, hpre, applyEdits_IsInstance W s q hinst⟩
    rw [h3 hf hc] at this
    exact Bool.noConfusion this

/-- The binding loop as a log of edits. -/
theorem bindLoop_eq_edits (env : ExportEnv) (ctx : PxrUsdMayaShadingModeExportContext)
    (M materialPath : SdfPath) (materialName : String)
    (hlegacy : env.PIXMAYA_EXPORT_OLD_STYLE_FACESETS = false) (l : AssignmentVector)
    (s : UsdStage) (b : Option (Finset SdfPath)) (h : ReadyToBind ctx l s) :
    (l.foldl (bindAssignment env ctx (some M) materialPath materialName) (s, b)).1 =
      applyEdits
        (l.flatMap (stepEdits ctx._exportParams.exportCollectionBasedBindings M materialName)) s := by
  induction l generalizing s b with
  | nil => rfl
  | cons a rest ih =>
    obtain ⟨hex, hproxy⟩ := h a (List.mem_cons_self _ _)
    have hstep := bindAssignment_eq_edits env ctx M materialPath materialName s b a hlegacy hex
      hproxy
    have hrest : ReadyToBind ctx rest
        (bindAssignment env ctx (some M) materialPath materialName (s, b) a).1 := by
      rw [hstep]
      exact readyToBind_applyEdits ctx rest s _ fun a' ha' => h a' (List.mem_cons_of_mem _ ha')
    rw [List.foldl_cons, List.flatMap_cons, applyEdits_append, ← hstep]
    exact ih _ _ hrest

theorem stageWithMaterial_eq (s : UsdStage) (P : SdfPath) (materialName : String) :
    stageWithMaterial s P materialName = applyEdits (materialEdits P materialName) s := by
  unfold stageWithMaterial materialEdits
  cases P with
  | empty => rfl
  | abs l =>
    cases l with
    | nil => exact @DefinePrimSpec_eq s (SdfPath.abs [materialName]) rfl "Material" (by decide)
    | cons top l =>
      simp only
      rw [applyEdits_append, ← @DefinePrimSpec_eq s (SdfPath.abs [top, "Looks"]) rfl "Scope"
        (by decide)]
      exact @DefinePrimSpec_eq _ (SdfPath.abs [top, "Looks", materialName]) rfl "Material"
        (by decide)

theorem commonAncestorLoop_congr (s s' : UsdStage) (l : AssignmentVector)
    (h : ∀ a ∈ l, (s.GetPrimAtPath a.1).isSome = (s'.GetPrimAtPath a.1).isSome)
    (acc : SdfPath) : commonAncestorLoop s l acc = commonAncestorLoop s' l acc := by
  induction l generalizing acc with
  | nil => rfl
  | cons a rest ih =>
    obtain ⟨p, f⟩ := a
    have hp := h (p, f) (List.mem_cons_self _ _)
    simp only at hp
    have hrest := fun acc => ih (fun a' ha' => h a' (List.mem_cons_of_mem _ ha')) acc
    simp only [commonAncestorLoop, hp, hrest]

/-- A call with a material name on a stage that is ready to bind and on which
the `Looks` scope and the material can be defined, as a log of edits. -/
theorem MakeStandardMaterialPrim_eq_edits (env : ExportEnv)
    (ctx : PxrUsdMayaShadingModeExportContext) (stage : UsdStage)
    (assignments : AssignmentVector) (name : String) (boundPrimPaths : Option (Finset SdfPath))
    (n : String) (hn : materialNameOf env ctx name = some n)
    (hlegacy : env.PIXMAYA_EXPORT_OLD_STYLE_FACESETS = false)
    (h : ReadyToBind ctx assignments stage)
    (hdef : ∀ top rest,
      commonAncestorLoop stage assignments SdfPath.empty = SdfPath.abs (top :: rest) →
        stage.IsInstance (SdfPath.abs [top]) = false ∧
          stage.IsInstance (SdfPath.abs [top, "Looks"]) = false) :
    ∃ r, MakeStandardMaterialPrim env ctx stage assignments name boundPrimPaths = some r ∧
      r.stage = applyEdits (totalEdits ctx._exportParams.exportCollectionBasedBindings
        (commonAncestorLoop stage assignments SdfPath.empty) (env.SanitizeName n) assignments)
        stage ∧
      r.prim = if commonAncestorLoop stage assignments SdfPath.empty = SdfPath.empty then none
        else some (materialLocation (commonAncestorLoop stage assignments SdfPath.empty)
          (env.SanitizeName n)) := by
  rw [MakeStandardMaterialPrim_eq, hn]
  simp only
  have key : ∀ (stage1 : UsdStage) (parent : List String) (W : List (SdfPath × PrimEdit)),
      stage1 = applyEdits W stage →
      (bindAll env ctx stage1 (SdfPath.abs parent) (env.SanitizeName n) assignments
          boundPrimPaths).stage =
        applyEdits (W ++ defineEdits (SdfPath.abs (parent ++ [env.SanitizeName n])) "Material" ++
          assignments.flatMap (stepEdits ctx._exportParams.exportCollectionBasedBindings
            (SdfPath.abs (parent ++ [env.SanitizeName n])) (env.SanitizeName n))) stage := by
    intro stage1 parent W hW
    have hpp : (SdfPath.abs (parent ++ [env.SanitizeName n])).IsPrimPath = true := by
      cases parent <;> rfl
    simp only [bindAll, SdfPath.AppendChild, DefinePrimSpec_snd_primPath stage1 hpp]
    rw [bindLoop_eq_edits env ctx _ _ _ hlegacy assignments, DefinePrimSpec_eq stage1 hpp "Material"
      (by decide), hW, applyEdits_append, applyEdits_append]
    rw [DefinePrimSpec_eq stage1 hpp "Material" (by decide), hW, ← applyEdits_append]
    exact readyToBind_applyEdits ctx assignments stage _ h
  cases hP : commonAncestorLoop stage assignments SdfPath.empty with
  | empty =>
    refine ⟨_, rfl, ?_, by simp⟩
    have hnil : assignments = [] := by
      cases assignments with
      | nil => rfl
      | cons a rest =>
        exfalso
        rcases commonAncestorLoop_empty stage (a :: rest) with ⟨h1, -⟩ | ⟨c, hc, -, -⟩
        · have hmem : a.1 ∈ existingTargets stage (a :: rest) := by
            unfold existingTargets
            rw [List.mem_filter]
            exact ⟨List.mem_map.mpr ⟨a, List.mem_cons_self _ _, rfl⟩,
              (h a (List.mem_cons_self _ _)).1.1⟩
          rw [h1] at hmem
          exact List.not_mem_nil _ hmem
        · rw [hP] at hc
          exact SdfPath.noConfusion hc
    subst hnil
    rfl
  | abs l =>
    cases l with
    | nil =>
      refine ⟨_, rfl, ?_, ?_⟩
      · have := key stage [] [] rfl
        simpa [totalEdits, materialEdits, materialLocation, SdfPath.AbsoluteRootPath] using this
      · simp only [if_neg (fun h : SdfPath.abs [] = SdfPath.empty => SdfPath.noConfusion h)]
        exact bindAll_prim _ _ _ [] _ _ _
    | cons top l =>
      obtain ⟨hT, hL⟩ := hdef top l hP
      simp only [hT, hL, Bool.false_eq_true, if_false]
      refine ⟨_, rfl, ?_, ?_⟩
      · have := key (stage.DefinePrimSpec (SdfPath.abs [top, "Looks"]) "Scope").1 [top, "Looks"]
          (defineEdits (SdfPath.abs [top, "Looks"]) "Scope")
          (@DefinePrimSpec_eq stage (SdfPath.abs [top, "Looks"]) rfl "Scope" (by decide))
        simpa [totalEdits, materialEdits, materialLocation] using this
      · simp only [if_neg (fun h : SdfPath.abs (top :: l) = SdfPath.empty =>
          SdfPath.noConfusion h)]
        exact bindAll_prim _ _ _ [top, "Looks"] _ _ _

/-! ## Facts about the file-texture writer -/

theorem readChildren_three (env : ShaderWriterEnv) (plug : MPlug) (v : GfVec4f) (r g b : float)
    (h0 : env.asFloat (env.child plug 0) = some r) (h1 : env.asFloat (env.child plug 1) = some g)
    (h2 : env.asFloat (env.child plug 2) = some b) :
    readChildren env plug (List.range GfVec3f.dimension) v = some ⟨r, g, b, v.w⟩ := by
  have hr : List.range GfVec3f.dimension = [0, 1, 2] := by decide
  rw [hr]
  simp [readChildren, h0, h1, h2, GfVec4f.set]

theorem extendsWith_bind {P : ShaderAuthoring → Prop} {calls : List ShaderAuthoring}
    {st : WriteState} (f : List ShaderAuthoring → WriteState) (hst : ExtendsWith P calls st)
    (hf : ∀ calls', ExtendsWith P calls' (f calls')) : ExtendsWith P calls (st >>= f) := by
  obtain ⟨ext, hext, hP⟩ := hst
  cases st with
  | error e => exact ⟨ext, hext, hP⟩
  | ok c =>
    obtain ⟨ext', hext', hP'⟩ := hf c
    refine ⟨ext ++ ext', ?_, ?_⟩
    · show (f c).calls = calls ++ (ext ++ ext')
      rw [hext', ← List.append_assoc]
      congr 1
    · intro x hx
      rcases List.mem_append.mp hx with h | h
      · exact hP x h
      · exact hP' x h

theorem writeGain_extends (env : ShaderWriterEnv) (writer : PxrUsdTranslators_FileTextureWriter)
    (usdTime : UsdTimeCode) (colorName alphaName : String) (inputName : TfToken)
    (initial : GfVec4f) (calls : List ShaderAuthoring) :
    ExtendsWith (fun c => c.inputName = some inputName) calls
      (writeGain env writer usdTime colorName alphaName inputName initial calls) := by
  have hnil : ExtendsWith (fun c => c.inputName = some inputName) calls (Except.error calls) :=
    ⟨[], by simp [WriteState.calls], by simp⟩
  have hnil' : ExtendsWith (fun c => c.inputName = some inputName) calls (Except.ok calls) :=
    ⟨[], by simp [WriteState.calls], by simp⟩
  unfold writeGain
  split
  · exact hnil
  · split
    · exact hnil
    · split
      · exact hnil
      · split
        · exact hnil
        · split
          · exact ⟨_, rfl, by simp [ShaderAuthoring.inputName]⟩
          · exact hnil'

theorem writeFallback_extends (env : ShaderWriterEnv)
    (writer : PxrUsdTranslators_FileTextureWriter) (usdTime : UsdTimeCode)
    (calls : List ShaderAuthoring) :
    ExtendsWith (fun c => c.inputName = some "fallback") calls
      (writeFallback env writer usdTime calls) := by
  unfold writeFallback
  split
  · exact ⟨[], by simp [WriteState.calls], by simp⟩
  · split
    · exact ⟨[], by simp [WriteState.calls], by simp⟩
    · exact ⟨_, rfl, by simp [ShaderAuthoring.inputName]⟩

theorem writeWrap_extends (env : ShaderWriterEnv) (writer : PxrUsdTranslators_FileTextureWriter)
    (usdTime : UsdTimeCode) (plugName : String) (inputName : TfToken)
    (calls : List ShaderAuthoring) :
    ExtendsWith (fun c => c.inputName = some inputName) calls
      (writeWrap env writer usdTime plugName inputName calls) := by
  unfold writeWrap
  split
  · exact ⟨[], by simp [WriteState.calls], by simp⟩
  · split
    · split
      · exact ⟨[], by simp [WriteState.calls], by simp⟩
      · exact ⟨_, rfl, by simp [ShaderAuthoring.inputName]⟩
    · exact ⟨[], by simp [WriteState.calls], by simp⟩

theorem extendsWith_mono {P Q : ShaderAuthoring → Prop} {calls : List ShaderAuthoring}
    {st : WriteState} (h : ExtendsWith P calls st) (hPQ : ∀ c, P c → Q c) :
    ExtendsWith Q calls st := by
  obtain ⟨ext, hext, hP⟩ := h
  exact ⟨ext, hext, fun c hc => hPQ c (hP c hc)⟩

/-- The passages of `Write` after the `scale` passage make no call on the
`scale` input. -/
theorem afterScale_extends (env : ShaderWriterEnv) (writer : PxrUsdTranslators_FileTextureWriter)
    (usdTime : UsdTimeCode) (calls : List ShaderAuthoring) :
    ExtendsWith (fun c => c.inputName ≠ some "scale") calls
      (do
        let calls ← writeGain env writer usdTime "colorOffset" "alphaOffset" "bias"
          ⟨float.zero, float.zero, float.zero, float.zero⟩ calls
        let calls ← writeFallback env writer usdTime calls
        let calls ← writeWrap env writer usdTime "wrapU" "wrapS" calls
        writeWrap env writer usdTime "wrapV" "wrapT" calls) := by
  have hne : ∀ n : TfToken, n ≠ "scale" → ∀ c : ShaderAuthoring,
      c.inputName = some n → c.inputName ≠ some "scale" := by
    intro n hn c hc
    rw [hc]
    intro h
    exact hn (Option.some.inj h)
  refine extendsWith_bind _ (extendsWith_mono (writeGain_extends ..) (hne _ (by decide))) ?_
  intro c1
  refine extendsWith_bind _ (extendsWith_mono (writeFallback_extends ..) (hne _ (by decide))) ?_
  intro c2
  refine extendsWith_bind _ (extendsWith_mono (writeWrap_extends ..) (hne _ (by decide))) ?_
  intro c3
  exact extendsWith_mono (writeWrap_extends ..) (hne _ (by decide))

/-- The entry checks of `Write`: nothing is authored beyond the calls of the
base class when the function set does not attach to the node or the shader
prim is not valid. -/
theorem Write_of_failed_entry_check (env : ShaderWriterEnv)
    (writer : PxrUsdTranslators_FileTextureWriter) (usdTime : UsdTimeCode)
    (h : env.scene.isDependencyNode writer.mayaObject = false ∨ writer._usdPrim = none) :
    writer.Write env usdTime = env.UsdMayaShaderWriter_Write usdTime := by
  unfold PxrUsdTranslators_FileTextureWriter.Write
  rcases h with h | h
  · simp [h]
  · simp [h]

/-- Without a valid shader prim `GetShadingAttributeNameForMayaAttrName`
returns the empty token and makes no call, whatever the name. -/
theorem GetShadingAttributeNameForMayaAttrName_of_invalid_prim
    (writer : PxrUsdTranslators_FileTextureWriter) (h : writer._usdPrim = none)
    (mayaAttrName : TfToken) :
    writer.GetShadingAttributeNameForMayaAttrName mayaAttrName = ("", []) := by
  have aux : ∀ t : TfToken,
      (if (!t.isEmpty) = true then (("", []) : TfToken × List ShaderAuthoring) else (t, [])) =
        ("", []) := by
    intro t
    by_cases ht : t.isEmpty = true
    · simp [ht, (String.isEmpty_iff t).mp ht]
    · simp [ht]
  unfold PxrUsdTranslators_FileTextureWriter.GetShadingAttributeNameForMayaAttrName
  simp only [h, Option.isSome_none, Bool.not_false, if_true]
  exact aux _

/-! ## Facts about `_UninstancePrim` -/

theorem inits_pairwise_initial (l : List String) : l.inits.Pairwise (fun a b => a <+: b) := by
  induction l with
  | nil => simp
  | cons x l ih =>
    rw [List.inits_cons, List.pairwise_cons]
    refine ⟨fun b _ => List.nil_prefix, ?_⟩
    rw [List.pairwise_map]
    exact ih.imp fun h => List.cons_prefix_cons.mpr ⟨rfl, h⟩

/-- In the prefix list of a path, an earlier entry is a prefix of a later
one. -/
theorem SdfPath.GetPrefixes_pairwise (p : SdfPath) :
    p.GetPrefixes.Pairwise (fun a b => a ∈ b.GetPrefixes) := by
  cases p with
  | empty => simp [SdfPath.GetPrefixes]
  | abs l =>
    have h : (l.inits.drop 1).Pairwise (fun a b => a <+: b) :=
      (inits_pairwise_initial l).sublist (List.drop_sublist _ _)
    have h' : ((l.inits.drop 1).map SdfPath.abs).Pairwise (fun a b => b.HasPrefix a = true) := by
      rw [List.pairwise_map]
      exact h.imp fun hab => (SdfPath.hasPrefix_abs _ _).mpr hab
    refine List.Pairwise.imp_of_mem ?_ h'
    intro a b ha _ hab
    exact SdfPath.mem_GetPrefixes_iff.mpr ⟨SdfPath.isPrimPath_of_mem_GetPrefixes ha, hab⟩

theorem SetInstanceableFalse_data (s : UsdStage) (prim : UsdPrim) (x : SdfPath) :
    SetInstanceableFalse s prim x = s x ∨
      ∃ d, s x = some d ∧ SetInstanceableFalse s prim x = some { d with isInstance := false } := by
  unfold SetInstanceableFalse UsdStage.author
  cases prim with
  | none => exact Or.inl rfl
  | some path =>
    simp only
    cases hd : s.data path with
    | none => exact Or.inl rfl
    | some d =>
      simp only
      by_cases hx : x = path
      · subst hx
        right
        refine ⟨d, ?_, by simp⟩
        unfold UsdStage.data at hd
        split at hd
        · exact hd
        · exact Option.noConfusion hd
      · left
        simp [hx]

/-- The loop of `_UninstancePrim` keeps every prim and changes at most its
instance flag, and only to clear it. -/
theorem uninstanceLoop_data (s : UsdStage) (l : List SdfPath) (q : SdfPath) :
    uninstanceLoop s l q = s q ∨
      ∃ d, s q = some d ∧ uninstanceLoop s l q = some { d with isInstance := false } := by
  induction l generalizing s with
  | nil => exact Or.inl rfl
  | cons r rest ih =>
    cases hprim : s.GetPrimAtPath r with
    | none =>
      left
      simp [uninstanceLoop, hprim]
    | some prim =>
      by_cases hi : s.IsInstance prim = true
      · have e : uninstanceLoop s (r :: rest) =
            uninstanceLoop (SetInstanceableFalse s (some prim)) rest := by
          simp [uninstanceLoop, hprim, hi]
        rw [e]
        rcases ih (SetInstanceableFalse s (some prim)) with h | ⟨d, hd, h⟩
        · rw [h]
          exact SetInstanceableFalse_data s (some prim) q
        · rcases SetInstanceableFalse_data s (some prim) q with h' | ⟨d', hd', h'⟩
          · right
            exact ⟨d, h' ▸ hd, h⟩
          · right
            rw [h'] at hd
            cases hd
            exact ⟨d', hd', h⟩
      · have e : uninstanceLoop s (r :: rest) = uninstanceLoop s rest := by
          simp [uninstanceLoop, hprim, hi]
        rw [e]
        exact ih s

theorem uninstanceLoop_isSome (s : UsdStage) (l : List SdfPath) (q : SdfPath) :
    (uninstanceLoop s l q).isSome = (s q).isSome := by
  rcases uninstanceLoop_data s l q with h | ⟨d, hd, h⟩
  · rw [h]
  · rw [h, hd]
    rfl

theorem uninstanceLoop_of_not_mem (s : UsdStage) (l : List SdfPath) (q : SdfPath)
    (hq : q ∉ l) : uninstanceLoop s l q = s q := by
  induction l generalizing s with
  | nil => rfl
  | cons r rest ih =>
    have hqr : q ≠ r := fun h => hq (h ▸ List.mem_cons_self _ _)
    have hrest : q ∉ rest := fun h => hq (List.mem_cons_of_mem _ h)
    cases hprim : s.GetPrimAtPath r with
    | none => simp [uninstanceLoop, hprim]
    | some prim =>
      have hprim' := GetPrimAtPath_eq_some hprim
      subst hprim'
      by_cases hi : s.IsInstance prim = true
      · have e : uninstanceLoop s (prim :: rest) =
            uninstanceLoop (SetInstanceableFalse s (some prim)) rest := by
          simp [uninstanceLoop, hprim, hi]
        rw [e, ih _ hrest]
        unfold SetInstanceableFalse UsdStage.author
        simp only
        cases hd : s.data prim with
        | none => rfl
        | some d => simp [hqr]
      · have e : uninstanceLoop s (prim :: rest) = uninstanceLoop s rest := by
          simp [uninstanceLoop, hprim, hi]
        rw [e]
        exact ih s hrest

theorem IsInstance_eq_of_data {s s' : UsdStage} {q : SdfPath} (h : s' q = s q) :
    s'.IsInstance q = s.IsInstance q := by
  unfold UsdStage.IsInstance UsdStage.data
  rw [h]

theorem IsInstance_false_of_none {s : UsdStage} {q : SdfPath} (h : (s q).isSome = false) :
    s.IsInstance q = false := by
  unfold UsdStage.IsInstance UsdStage.data
  cases hs : s q with
  | none => by_cases hp : q.IsPrimPath = true <;> simp [hp]
  | some d => simp [hs] at h

theorem IsInstance_false_of_data {s : UsdStage} {q : SdfPath} {d : UsdPrimData}
    (h : s q = some d) (hd : d.isInstance = false) : s.IsInstance q = false := by
  unfold UsdStage.IsInstance UsdStage.data
  by_cases hp : q.IsPrimPath = true <;> simp [hp, h, hd]

/-- The loop only clears instance flags. -/
theorem uninstanceLoop_IsInstance_le (s : UsdStage) (l : List SdfPath) (q : SdfPath)
    (h : s.IsInstance q = false) : (uninstanceLoop s l).IsInstance q = false := by
  rcases uninstanceLoop_data s l q with h' | ⟨d, hd, h'⟩
  · rw [IsInstance_eq_of_data h']
    exact h
  · exact IsInstance_false_of_data h' rfl

/-- On a list of prim paths in which a later entry has a prim only if every
earlier one has, the loop leaves no entry an instance. -/
theorem uninstanceLoop_clears (s : UsdStage) (l : List SdfPath)
    (hl : ∀ q ∈ l, q.IsPrimPath = true)
    (hchain : l.Pairwise (fun a b => (s b).isSome = true → (s a).isSome = true)) :
    ∀ q ∈ l, (uninstanceLoop s l).IsInstance q = false := by
  induction l generalizing s with
  | nil => intro q hq; cases hq
  | cons r rest ih =>
    obtain ⟨hhead, htail⟩ := List.pairwise_cons.mp hchain
    have hr := hl r (List.mem_cons_self _ _)
    have hrest : ∀ q ∈ rest, q.IsPrimPath = true := fun q hq => hl q (List.mem_cons_of_mem _ hq)
    intro q hq
    by_cases hsr : (s r).isSome = true
    · -- the head has a prim: it is cleared and stays so
      have hloop : ∃ s', uninstanceLoop s (r :: rest) = uninstanceLoop s' rest ∧
          s'.IsInstance r = false ∧ ∀ x, (s' x).isSome = (s x).isSome := by
        have hcons : uninstanceLoop s (r :: rest) =
            if s.IsInstance r = true then uninstanceLoop (SetInstanceableFalse s (some r)) rest
            else uninstanceLoop s rest := by
          simp [uninstanceLoop, GetPrimAtPath_primPath hr, hsr]
        rw [hcons]
        by_cases hi : s.IsInstance r = true
        · refine ⟨SetInstanceableFalse s (some r), by simp [hi], ?_, ?_⟩
          · obtain ⟨d, hd⟩ := Option.isSome_iff_exists.mp hsr
            rcases SetInstanceableFalse_data s (some r) r with h | ⟨d', _, h⟩
            · exfalso
              unfold SetInstanceableFalse UsdStage.author UsdStage.data at h
              unfold UsdStage.IsInstance UsdStage.data at hi
              simp only [hr, if_true, hd] at h hi
              simp only [Option.some.injEq] at h
              rw [← h] at hi
              simp at hi
            · exact IsInstance_false_of_data h rfl
          · intro x
            rcases SetInstanceableFalse_data s (some r) x with h | ⟨d', hd', h⟩
            · rw [h]
            · rw [h, hd']
              rfl
        · exact ⟨s, by simp [hi], by simpa using hi, fun _ => rfl⟩
      obtain ⟨s', hs', hir, hsome⟩ := hloop
      rw [hs']
      rcases List.mem_cons.mp hq with rfl | hq'
      · exact uninstanceLoop_IsInstance_le s' rest _ hir
      · refine ih s' hrest ?_ q hq'
        exact htail.imp fun {a b} hab hb => by
          rw [hsome] at hb ⊢
          exact hab hb
    · -- the head has no prim: the loop stops, and no entry has a prim
      have hnone : ∀ x ∈ r :: rest, (s x).isSome = false := by
        intro x hx
        rcases List.mem_cons.mp hx with rfl | hx'
        · simpa using hsr
        · cases hsx : (s x).isSome with
          | false => rfl
          | true => exact absurd (hhead x hx' hsx) hsr
      have hstop : uninstanceLoop s (r :: rest) = s := by
        simp [uninstanceLoop, GetPrimAtPath_primPath hr, hsr]
      rw [hstop]
      exact IsInstance_false_of_none (hnone q hq)

/-- The postcondition of `_UninstancePrim` for a path with at least one
element, on a stage closed under parent. -/
theorem _UninstancePrim_primPath (stage : UsdStage) (path : SdfPath)
    (hclosed : ParentClosed stage) (hpath : path.IsPrimPath = true) :
    (_UninstancePrim stage path).2 = some path ∧
      ((_UninstancePrim stage path).1.GetPrimAtPath path).isSome = true ∧
      (∀ q ∈ path.GetPrefixes,
        ((_UninstancePrim stage path).1 q).isSome = true ∧
          (_UninstancePrim stage path).1.IsInstance q = false) ∧
      (_UninstancePrim stage path).1.IsInstance path = false ∧
      _IsInstanceProxyPath (_UninstancePrim stage path).1 path = false ∧
      ∀ q, q ∉ path.GetPrefixes →
        (_UninstancePrim stage path).1.IsInstance q = stage.IsInstance q := by
  -- the stage after the loop
  have hloop : ∀ q ∈ path.GetPrefixes,
      (uninstanceLoop stage path.GetPrefixes).IsInstance q = false := by
    apply uninstanceLoop_clears stage _ (fun q hq => SdfPath.isPrimPath_of_mem_GetPrefixes hq)
    refine List.Pairwise.imp_of_mem ?_ (SdfPath.GetPrefixes_pairwise path)
    intro a b _ hb hab hsb
    exact hclosed b (SdfPath.isPrimPath_of_mem_GetPrefixes hb) hsb a hab
  -- what `OverridePrim` does to it
  have hover : ∀ (s : UsdStage) (q : SdfPath),
      (s.OverridePrim path).1 q = s q ∨
        (q ∈ path.GetPrefixes ∧ s q = none ∧ (s.OverridePrim path).1 q = some overPrimData) := by
    intro s q
    unfold UsdStage.OverridePrim
    cases hprim : s.GetPrimAtPath path with
    | some prim => exact Or.inl rfl
    | none =>
      simp only [hpath, if_true]
      by_cases hq : q ∈ path.GetPrefixes ∧ (s q).isNone = true
      · right
        refine ⟨hq.1, ?_, by simp [hq.1, hq.2]⟩
        cases hs : s q with
        | none => rfl
        | some d => simp [hs] at hq
      · left
        simp only [hq, if_false]
  have hself : path ∈ path.GetPrefixes := SdfPath.mem_GetPrefixes_self hpath
  have hpfx : ∀ q ∈ path.GetPrefixes,
      ((_UninstancePrim stage path).1 q).isSome = true ∧
        (_UninstancePrim stage path).1.IsInstance q = false := by
    intro q hq
    have hqp := SdfPath.isPrimPath_of_mem_GetPrefixes hq
    unfold _UninstancePrim
    rcases hover (uninstanceLoop stage path.GetPrefixes) q with h | ⟨_, _, h⟩
    · constructor
      · by_cases hs : ((uninstanceLoop stage path.GetPrefixes) q).isSome = true
        · rw [h]
          exact hs
        · -- a missing prefix is created together with the prim at the path
          exfalso
          have hex := @OverridePrim_exists (uninstanceLoop stage path.GetPrefixes) path hpath
          rcases hover (uninstanceLoop stage path.GetPrefixes) path with h' | ⟨_, hnone, h'⟩
          · rw [h'] at hex
            rw [uninstanceLoop_isSome] at hex hs
            exact hs (hclosed path hpath hex q hq)
          · have hcreated : (uninstanceLoop stage path.GetPrefixes).GetPrimAtPath path = none := by
              rw [GetPrimAtPath_primPath hpath]
              simp [hnone]
            have hq' : ((uninstanceLoop stage path.GetPrefixes).OverridePrim path).1 q =
                some overPrimData := by
              unfold UsdStage.OverridePrim
              rw [hcreated]
              simp only [hpath, if_true]
              have hn : ((uninstanceLoop stage path.GetPrefixes) q).isNone = true := by
                cases hsq : (uninstanceLoop stage path.GetPrefixes) q with
                | none => rfl
                | some d => simp [hsq] at hs
              simp [hq, hn]
            rw [h] at hq'
            rw [hq'] at hs
            exact hs rfl
      · rw [IsInstance_eq_of_data h]
        exact hloop q hq
    · exact ⟨by rw [h]; rfl, IsInstance_false_of_data h rfl⟩
  have hexists : ((_UninstancePrim stage path).1.GetPrimAtPath path).isSome = true := by
    rw [GetPrimAtPath_primPath hpath, (hpfx path hself).1]
    rfl
  refine ⟨?_, hexists, hpfx, (hpfx path hself).2, ?_, ?_⟩
  · unfold _UninstancePrim
    exact OverridePrim_snd hpath
  · cases hproxy : _IsInstanceProxyPath (_UninstancePrim stage path).1 path with
    | false => rfl
    | true =>
      obtain ⟨q, hne, hpre, hinst⟩ := (_IsInstanceProxyPath_iff _ _).mp hproxy
      have hq : q ∈ path.GetPrefixes :=
        SdfPath.mem_GetPrefixes_iff.mpr ⟨IsInstance_isPrimPath hinst, hpre⟩
      rw [(hpfx q hq).2] at hinst
      exact Bool.noConfusion hinst
  · intro q hq
    unfold _UninstancePrim
    rcases hover (uninstanceLoop stage path.GetPrefixes) q with h | ⟨hmem, _, _⟩
    · rw [IsInstance_eq_of_data h]
      exact IsInstance_eq_of_data (uninstanceLoop_of_not_mem stage _ q hq)
    · exact absurd hmem hq

theorem exampleInstanceStage_parentClosed : ParentClosed exampleInstanceStage := by
  intro q _ hq
  unfold exampleInstanceStage at hq
  by_cases h1 : q = SdfPath.abs ["inst"]
  · subst h1
    decide
  · by_cases h2 : q = SdfPath.abs ["inst", "a"]
    · subst h2
      decide
    · by_cases h3 : q = SdfPath.abs ["inst", "b"]
      · subst h3
        decide
      · simp [h1, h2, h3] at hq

/-! ## Removing a connected element -/

theorem getAssignmentsLoop_append (scene : MayaScene) (ctx : PxrUsdMayaShadingModeExportContext)
    (dsmPlug : MPlug) (l₁ l₂ : List Nat) (st : AssignmentVector × Finset SdfPath) :
    getAssignmentsLoop scene ctx dsmPlug (l₁ ++ l₂) st =
      (getAssignmentsLoop scene ctx dsmPlug l₁ st).bind
        (getAssignmentsLoop scene ctx dsmPlug l₂) := by
  induction l₁ generalizing st with
  | nil => rfl
  | cons i l₁ ih =>
    simp only [List.cons_append, getAssignmentsLoop]
    cases getAssignmentsBody scene ctx dsmPlug i st with
    | none => rfl
    | some st' => exact ih st'

/-- The loop over the connected elements depends on the scene through the
loop body only. -/
theorem getAssignmentsLoop_map (scene scene' : MayaScene)
    (ctx : PxrUsdMayaShadingModeExportContext) (dsmPlug : MPlug) (f : Nat → Nat)
    (hbody : ∀ i st, getAssignmentsBody scene' ctx dsmPlug i st =
      getAssignmentsBody scene ctx dsmPlug (f i) st)
    (l : List Nat) (st : AssignmentVector × Finset SdfPath) :
    getAssignmentsLoop scene' ctx dsmPlug l st =
      getAssignmentsLoop scene ctx dsmPlug (l.map f) st := by
  induction l generalizing st with
  | nil => rfl
  | cons i l ih =>
    simp only [List.map_cons, getAssignmentsLoop, hbody]
    cases getAssignmentsBody scene ctx dsmPlug (f i) st with
    | none => rfl
    | some st' => exact ih st'

/-- The physical index in the scene of the connected element that has index
`i` once the element of index `k` is removed. -/
theorem range_without (k m : Nat) :
    List.range (k + (m + 1)) =
      List.range k ++ k :: (List.range m).map (fun x => k + 1 + x) := by
  rw [List.range_add k (m + 1), List.range_succ_eq_map, List.map_cons, List.map_map]
  congr 2
  apply List.map_congr_left
  intro x _
  simp only [Function.comp]
  omega

theorem range_map_skip (k m : Nat) :
    (List.range (k + m)).map (fun i => if i < k then i else i + 1) =
      List.range k ++ (List.range m).map (fun x => k + 1 + x) := by
  rw [List.range_add k m, List.map_append, List.map_map]
  congr 1
  · conv_rhs => rw [← List.map_id (List.range k)]
    apply List.map_congr_left
    intro i hi
    simp [List.mem_range.mp hi]
  · apply List.map_congr_left
    intro x _
    simp only [Function.comp]
    have : ¬ (k + x < k) := by omega
    simp only [this, if_false]
    omega

theorem collectMembers_congr (scene scene' : MayaScene)
    (hI : scene'.polygonIndices = scene.polygonIndices) (shadingEngine : MObject)
    (dagPath : MDagPath) (usdPath : SdfPath) (members : List (MObject × MObject))
    (ret : AssignmentVector) :
    collectMembers scene' shadingEngine dagPath usdPath members ret =
      collectMembers scene shadingEngine dagPath usdPath members ret := by
  induction members generalizing ret with
  | nil => rfl
  | cons m rest ih =>
    obtain ⟨sgObj, compObj⟩ := m
    simp only [collectMembers, hI, ih]

theorem assignDagPath_congr (scene scene' : MayaScene)
    (hD : scene'.isDagNode = scene.isDagNode)
    (hM : scene'.getConnectedSetsAndMembers = scene.getConnectedSetsAndMembers)
    (hI : scene'.polygonIndices = scene.polygonIndices)
    (ctx : PxrUsdMayaShadingModeExportContext) (dagPath : MDagPath) (instanceNumber : Nat)
    (st : AssignmentVector × Finset SdfPath) :
    assignDagPath scene' ctx dagPath instanceNumber st =
      assignDagPath scene ctx dagPath instanceNumber st := by
  simp only [assignDagPath, hD, hM, collectMembers_congr scene scene' hI]

/-- The loop body with the bounds check and the array access as one optional
lookup. -/
theorem getAssignmentsBody_lookup (scene : MayaScene) (ctx : PxrUsdMayaShadingModeExportContext)
    (dsmPlug : MPlug) (i : Nat) (st : AssignmentVector × Finset SdfPath) :
    getAssignmentsBody scene ctx dsmPlug i st =
      match (scene.getAllPathsTo (instObjGroupsPlug
          (scene.GetConnected (scene.connectionByPhysicalIndex dsmPlug i))).node)[
          (instObjGroupsPlug
            (scene.GetConnected (scene.connectionByPhysicalIndex dsmPlug i))).logicalIndex]? with
      | none => some st
      | some dagPath =>
        assignDagPath scene ctx dagPath (instObjGroupsPlug
          (scene.GetConnected (scene.connectionByPhysicalIndex dsmPlug i))).logicalIndex st := by
  unfold getAssignmentsBody
  simp only
  split
  · rename_i h
    rw [List.getElem?_eq_none h]
  · rename_i h
    rw [List.getElem?_eq_getElem (Nat.lt_of_not_ge h)]
    rfl

/-- The loop body reads the scene through the connected element at the
physical index and the queries on what it is connected to. -/
theorem getAssignmentsBody_congr (scene scene' : MayaScene)
    (ctx : PxrUsdMayaShadingModeExportContext) (dsmPlug : MPlug) (i j : Nat)
    (hconn : scene'.connectionByPhysicalIndex dsmPlug i =
      scene.connectionByPhysicalIndex dsmPlug j)
    (hG : scene'.GetConnected = scene.GetConnected)
    (hP : scene'.getAllPathsTo = scene.getAllPathsTo)
    (hD : scene'.isDagNode = scene.isDagNode)
    (hM : scene'.getConnectedSetsAndMembers = scene.getConnectedSetsAndMembers)
    (hI : scene'.polygonIndices = scene.polygonIndices)
    (st : AssignmentVector × Finset SdfPath) :
    getAssignmentsBody scene' ctx dsmPlug i st = getAssignmentsBody scene ctx dsmPlug j st := by
  rw [getAssignmentsBody_lookup, getAssignmentsBody_lookup]
  simp only [assignDagPath_congr scene scene' hD hM hI, hG, hP, hconn]

/-! ## The root rewrite -/

theorem collectBindableRoots_isSome (dagPathToUsdMap : MDagPath → Option SdfPath)
    (exportParams : PxrUsdMayaExportParams)
    (htable : ∀ d p, dagPathToUsdMap d = some p → p.IsPrimPath = true)
    (l : List MDagPath) (roots : Finset SdfPath) :
    (collectBindableRoots dagPathToUsdMap exportParams l roots).isSome = true := by
  induction l generalizing roots with
  | nil => rfl
  | cons d rest ih =>
    unfold collectBindableRoots
    cases hd : dagPathToUsdMap d with
    | none => exact ih roots
    | some usdPath =>
      simp only
      obtain ⟨q, hq⟩ := Option.isSome_iff_exists.mp
        (applyOverrideRootPath_isSome exportParams.overrideRootPath usdPath
          (Or.inr (htable d usdPath hd)))
      rw [hq]
      exact ih _

/-! ## The claims -/

/-- C1 (as stated, refuted): for the cube whose two face groups are assigned to
the one shading engine, `GetAssignments` returns two entries with the same
bound prim path. -/
theorem GetAssignments_repeats_bound_path :
    PxrUsdMayaShadingModeExportContext.create exampleShadingEngine exampleDagPathToUsdMap
        exampleExportParams = some exampleContext ∧
      GetAssignments exampleScene exampleContext =
        some [(SdfPath.abs ["pCube1", "pCubeShape1"], [0, 1, 2]),
          (SdfPath.abs ["pCube1", "pCubeShape1"], [3, 4, 5])] ∧
      ¬ ([(SdfPath.abs ["pCube1", "pCubeShape1"], [0, 1, 2]),
          (SdfPath.abs ["pCube1", "pCubeShape1"], ([3, 4, 5] : List Int))].map Prod.fst).Nodup := by
  refine ⟨rfl, ?_, ?_⟩
  · decide
  · decide

/-- C1 (amended): when each `getConnectedSetsAndMembers` answer lists the shading
engine at most once, `GetAssignments` returns a vector (as soon as the root
rewrite is defined) in which no bound prim path occurs twice. -/
theorem GetAssignments_nodup_of_listed_once (scene : MayaScene)
    (ctx : PxrUsdMayaShadingModeExportContext) (hOnce : MembersListedOnce scene ctx) :
    (RootRewriteDefined ctx → (GetAssignments scene ctx).isSome = true) ∧
      ∀ v, GetAssignments scene ctx = some v → (v.map Prod.fst).Nodup := by
  refine ⟨GetAssignments_isSome scene ctx, fun v hv => ?_⟩
  have hstep : ∀ dsmPlug i (st st' : AssignmentVector × Finset SdfPath),
      ((st.1.map Prod.fst).Nodup ∧ ∀ a ∈ st.1, a.1 ∈ st.2) →
      getAssignmentsBody scene ctx dsmPlug i st = some st' →
      ((st'.1.map Prod.fst).Nodup ∧ ∀ a ∈ st'.1, a.1 ∈ st'.2) := by
    intro dsmPlug i st st' ⟨hnd, hseen⟩ hbody
    rcases getAssignmentsBody_cases scene ctx dsmPlug i st st' hbody with
      h | ⟨p, hp, hs, h | ⟨dagPath, n, members, r, hm, -, h⟩⟩
    · subst h
      exact ⟨hnd, hseen⟩
    · rw [h, hs]
      exact ⟨hnd, fun a ha => Finset.mem_insert_of_mem (hseen a ha)⟩
    · have hlen := hOnce dagPath n members hm
      rw [h, hs, collectMembers_eq]
      have hfresh : p ∉ st.1.map Prod.fst := by
        intro hmem
        obtain ⟨a, ha, rfl⟩ := List.mem_map.mp hmem
        exact hp (hseen a ha)
      match hf : members.filter (fun m => decide (m.1 = ctx._shadingEngine)), hlen with
      | [], _ =>
        simp only [hf, List.map_nil, List.append_nil] at *
        exact ⟨hnd, fun a ha => Finset.mem_insert_of_mem (hseen a ha)⟩
      | [m], _ =>
        simp only [hf, List.map_cons, List.map_nil, List.map_append] at *
        refine ⟨?_, ?_⟩
        · rw [List.nodup_append]
          refine ⟨hnd, by simp, ?_⟩
          intro x hx hx'
          rw [List.mem_singleton] at hx'
          subst hx'
          exact hfresh hx
        · intro a ha
          rcases List.mem_append.mp ha with ha | ha
          · exact Finset.mem_insert_of_mem (hseen a ha)
          · rw [List.mem_singleton] at ha
            subst ha
            exact Finset.mem_insert_self _ _
      | _ :: _ :: _, hl =>
        rw [hf] at hl
        exact absurd hl (by simp [List.length_cons])
  obtain ⟨seen, hinv⟩ := GetAssignments_invariant scene ctx
    (fun st => (st.1.map Prod.fst).Nodup ∧ ∀ a ∈ st.1, a.1 ∈ st.2)
    ⟨by simp, by simp⟩ hstep v hv
  exact hinv.1

/-- Witness for C1 (amended) on the scene with one merged component. -/
theorem GetAssignments_nodup_of_listed_once_witness :
    MembersListedOnce exampleSceneMerged exampleContext ∧
      GetAssignments exampleSceneMerged exampleContext =
        some [(SdfPath.abs ["pCube1", "pCubeShape1"], [0, 1, 2])] ∧
      ((RootRewriteDefined exampleContext →
          (GetAssignments exampleSceneMerged exampleContext).isSome = true) ∧
        ∀ v, GetAssignments exampleSceneMerged exampleContext = some v →
          (v.map Prod.fst).Nodup) :=
  ⟨exampleSceneMerged_listed_once, by decide,
    GetAssignments_nodup_of_listed_once exampleSceneMerged exampleContext
      exampleSceneMerged_listed_once⟩

/-- C2 (as stated, refuted): for the cube and a sphere that has no prim on the
stage, the first call returns the material `/pCube1/Looks/lambert2SG` and
creates the sphere prim, so that the second call with the same arguments
returns another material, `/lambert2SG`. -/
theorem MakeStandardMaterialPrim_second_call_moves_material :
    (MakeStandardMaterialPrim exampleEnv exampleContext exampleStage exampleCubeAndSphere ""
        none).map (fun r => r.prim) =
        some (some (SdfPath.abs ["pCube1", "Looks", "lambert2SG"])) ∧
      ((MakeStandardMaterialPrim exampleEnv exampleContext exampleStage exampleCubeAndSphere ""
        none).bind fun r₁ =>
          (MakeStandardMaterialPrim exampleEnv exampleContext r₁.stage exampleCubeAndSphere ""
            none).map fun r₂ => (r₂.prim, (r₁.stage (SdfPath.abs ["lambert2SG"])).isSome,
              (r₂.stage (SdfPath.abs ["lambert2SG"])).isSome)) =
        some (some (SdfPath.abs ["lambert2SG"]), false, true) := by
  constructor <;> decide

/-- C2 (amended): on a stage that already has every bound prim of the vector
together with its ancestors, with old-style face sets off, with
collection-based bindings on or no whole-object bound prim path an instance
proxy path, and with no instance at the `Looks` location `<T>/Looks` of a
bound prim path `<T>/...`, two calls in a row with the same assignments and
name both return, return the same prim, and the second call leaves the stage
as the first call left it. -/
theorem MakeStandardMaterialPrim_idempotent (env : ExportEnv)
    (ctx : PxrUsdMayaShadingModeExportContext) (stage : UsdStage)
    (assignments : AssignmentVector) (name : String)
    (boundPrimPaths boundPrimPaths' : Option (Finset SdfPath))
    (hlegacy : env.PIXMAYA_EXPORT_OLD_STYLE_FACESETS = false)
    (hexist : ∀ a ∈ assignments,
      (stage.GetPrimAtPath a.1).isSome = true ∧ ∀ q ∈ a.1.GetPrefixes, (stage q).isSome = true)
    (hproxy : ctx._exportParams.exportCollectionBasedBindings = true ∨
      ∀ a ∈ assignments, a.2 = [] → _IsInstanceProxyPath stage a.1 = false)
    (hlooks : ∀ a ∈ assignments, ∀ top rest, a.1 = SdfPath.abs (top :: rest) →
      stage.IsInstance (SdfPath.abs [top, "Looks"]) = false) :
    ∃ r₁ r₂,
      MakeStandardMaterialPrim env ctx stage assignments name boundPrimPaths = some r₁ ∧
      MakeStandardMaterialPrim env ctx r₁.stage assignments name boundPrimPaths' = some r₂ ∧
      r₂.prim = r₁.prim ∧ r₂.stage = r₁.stage := by
  cases hn : materialNameOf env ctx name with
  | none =>
    refine ⟨⟨stage, none, boundPrimPaths⟩, ⟨stage, none, boundPrimPaths'⟩, ?_, ?_, rfl, rfl⟩
    · rw [MakeStandardMaterialPrim_eq, hn]
    · rw [MakeStandardMaterialPrim_eq, hn]
  | some n =>
    have hready : ReadyToBind ctx assignments stage := by
      intro a ha
      refine ⟨hexist a ha, fun hf hc => ?_⟩
      rcases hproxy with h | h
      · rw [hc] at h
        exact Bool.noConfusion h
      · exact h a ha hf
    by_cases hblocked : ∃ top rest,
        commonAncestorLoop stage assignments SdfPath.empty = SdfPath.abs (top :: rest) ∧
          stage.IsInstance (SdfPath.abs [top]) = true
    · -- the `Looks` scope is refused: both calls return at line 403
      obtain ⟨top, rest, hP, hT⟩ := hblocked
      refine ⟨⟨stage, none, boundPrimPaths⟩, ⟨stage, none, boundPrimPaths'⟩, ?_, ?_, rfl, rfl⟩
      · rw [MakeStandardMaterialPrim_eq, hn, hP]
        simp only [hT, if_true]
      · rw [MakeStandardMaterialPrim_eq, hn, hP]
        simp only [hT, if_true]
    · have hdef : ∀ top rest,
          commonAncestorLoop stage assignments SdfPath.empty = SdfPath.abs (top :: rest) →
            stage.IsInstance (SdfPath.abs [top]) = false ∧
              stage.IsInstance (SdfPath.abs [top, "Looks"]) = false := by
        intro top rest hP
        constructor
        · cases hT : stage.IsInstance (SdfPath.abs [top]) with
          | false => rfl
          | true => exact absurd ⟨top, rest, hP, hT⟩ hblocked
        · -- some bound prim path starts with `top`
          rcases commonAncestorLoop_empty stage assignments with ⟨-, h2⟩ | ⟨c, hc, hne, hQ⟩
          · rw [h2] at hP
            exact SdfPath.noConfusion hP
          · rw [hc] at hP
            cases hP
            obtain ⟨p, hp⟩ := List.exists_mem_of_ne_nil _ hne
            have hpre := (hQ (SdfPath.abs (top :: rest))).mp (SdfPath.hasPrefix_self _) p hp
            unfold existingTargets at hp
            obtain ⟨a, ha, rfl⟩ := List.mem_map.mp (List.mem_filter.mp hp).1
            cases hpa : a.1 with
            | empty =>
              rw [hpa] at hpre
              simp [SdfPath.HasPrefix] at hpre
            | abs l =>
              rw [hpa, SdfPath.hasPrefix_abs] at hpre
              obtain ⟨t, rfl⟩ := hpre
              exact hlooks a ha top (rest ++ t) hpa
      obtain ⟨r₁, h1, hs1, hp1⟩ := MakeStandardMaterialPrim_eq_edits env ctx stage assignments
        name boundPrimPaths n hn hlegacy hready hdef
      have hready' : ReadyToBind ctx assignments r₁.stage := by
        rw [hs1]
        exact readyToBind_applyEdits ctx assignments stage _ hready
      have hloop : commonAncestorLoop r₁.stage assignments SdfPath.empty =
          commonAncestorLoop stage assignments SdfPath.empty :=
        commonAncestorLoop_congr _ _ _
          (fun a ha => by rw [(hready' a ha).1.1, (hready a ha).1.1]) _
      have hclear : ∀ q, stage.IsInstance q = false → r₁.stage.IsInstance q = false := by
        intro q hq
        cases hx : r₁.stage.IsInstance q with
        | false => rfl
        | true =>
          rw [hs1] at hx
          rw [applyEdits_IsInstance _ _ _ hx] at hq
          exact Bool.noConfusion hq
      have hdef' : ∀ top rest,
          commonAncestorLoop r₁.stage assignments SdfPath.empty = SdfPath.abs (top :: rest) →
            r₁.stage.IsInstance (SdfPath.abs [top]) = false ∧
              r₁.stage.IsInstance (SdfPath.abs [top, "Looks"]) = false := by
        intro top rest hP
        rw [hloop] at hP
        exact ⟨hclear _ (hdef top rest hP).1, hclear _ (hdef top rest hP).2⟩
      obtain ⟨r₂, h2, hs2, hp2⟩ := MakeStandardMaterialPrim_eq_edits env ctx r₁.stage
        assignments name boundPrimPaths' n hn hlegacy hready' hdef'
      rw [hloop] at hs2 hp2
      refine ⟨r₁, r₂, h1, h2, hp2.trans hp1.symm, ?_⟩
      rw [hs2, hs1, applyEdits_idem]

/-- Witness for C2 (amended): the two face groups of the cube. -/
theorem MakeStandardMaterialPrim_idempotent_witness :
    exampleEnv.PIXMAYA_EXPORT_OLD_STYLE_FACESETS = false ∧
      (∀ a ∈ exampleTwoFaceGroups,
        (exampleStage.GetPrimAtPath a.1).isSome = true ∧
          ∀ q ∈ a.1.GetPrefixes, (exampleStage q).isSome = true) ∧
      (exampleContext._exportParams.exportCollectionBasedBindings = true ∨
        ∀ a ∈ exampleTwoFaceGroups, a.2 = [] → _IsInstanceProxyPath exampleStage a.1 = false) ∧
      exampleStage.IsInstance (SdfPath.abs ["pCube1", "Looks"]) = false ∧
      ∃ r₁ r₂,
        MakeStandardMaterialPrim exampleEnv exampleContext exampleStage exampleTwoFaceGroups ""
          (some ∅) = some r₁ ∧
        MakeStandardMaterialPrim exampleEnv exampleContext r₁.stage exampleTwoFaceGroups ""
          (some ∅) = some r₂ ∧
        r₂.prim = r₁.prim ∧ r₂.stage = r₁.stage :=
  ⟨by decide, by decide, by decide, by decide,
    MakeStandardMaterialPrim_idempotent exampleEnv exampleContext exampleStage
      exampleTwoFaceGroups "" (some ∅) (some ∅) (by decide) (by decide) (by decide)
      (fun a ha top rest h => by
        have hcube : ∀ b ∈ exampleTwoFaceGroups, b.1 = SdfPath.abs ["pCube1", "pCubeShape1"] := by
          decide
        rw [hcube a ha] at h
        cases h
        decide)⟩

/-- C2 (why old-style face sets are left out): with old-style face sets on, a
second call appends the face group a second time. -/
theorem MakeStandardMaterialPrim_legacy_repeats_face_group :
    ((MakeStandardMaterialPrim { exampleEnv with PIXMAYA_EXPORT_OLD_STYLE_FACESETS := true }
        exampleContext exampleStage [(SdfPath.abs ["pCube1", "pCubeShape1"], [0, 1, 2])] ""
        none).bind fun r₁ =>
          (MakeStandardMaterialPrim
            { exampleEnv with PIXMAYA_EXPORT_OLD_STYLE_FACESETS := true } exampleContext r₁.stage
            [(SdfPath.abs ["pCube1", "pCubeShape1"], [0, 1, 2])] "" none).map fun r₂ =>
              (((r₁.stage (SdfPath.abs ["pCube1", "pCubeShape1"])).map fun d =>
                  d.faceGroups.length),
                ((r₂.stage (SdfPath.abs ["pCube1", "pCubeShape1"])).map fun d =>
                  d.faceGroups.length))) =
      some (some 1, some 2) := by
  decide

/-- C2 (why instance proxy paths are left out): a whole-object bound prim path
that is an instance proxy path when it is reached gets no binding in the first
call, and gets one in the second call once a per-face assignment has
un-instanced its ancestor. -/
theorem MakeStandardMaterialPrim_proxy_bound_on_second_call :
    ((MakeStandardMaterialPrim exampleEnv exampleContext exampleGroupInstanceStage
        [(SdfPath.abs ["grp", "inst", "a"], []), (SdfPath.abs ["grp", "inst", "b"], [0])] ""
        none).bind
      fun r₁ =>
        (MakeStandardMaterialPrim exampleEnv exampleContext r₁.stage
          [(SdfPath.abs ["grp", "inst", "a"], []), (SdfPath.abs ["grp", "inst", "b"], [0])] ""
          none).map
          fun r₂ =>
            (((r₁.stage (SdfPath.abs ["grp", "inst", "a"])).bind fun d => d.materialBinding),
              ((r₂.stage (SdfPath.abs ["grp", "inst", "a"])).bind fun d => d.materialBinding))) =
      some (none, some (SdfPath.abs ["grp", "Looks", "lambert2SG"])) := by
  decide

/-- C2 (why an instance at the `Looks` location is left out): the mesh
`/set/Looks/x` and its ancestors have prims, old-style face sets are off and
no bound prim path is bound as a whole, but the material cannot be defined
below the instance `/set/Looks`, so the first call returns the invalid prim;
its per-face assignment un-instances `/set/Looks`, and the second call
defines the material and returns it. -/
theorem MakeStandardMaterialPrim_material_defined_on_second_call :
    (∀ a ∈ [((SdfPath.abs ["set", "Looks", "x"], [0]) : Assignment)],
        (exampleLooksInstanceStage.GetPrimAtPath a.1).isSome = true ∧
          ∀ q ∈ a.1.GetPrefixes, (exampleLooksInstanceStage q).isSome = true) ∧
      (∀ a ∈ [((SdfPath.abs ["set", "Looks", "x"], [0]) : Assignment)], a.2 = [] →
        _IsInstanceProxyPath exampleLooksInstanceStage a.1 = false) ∧
      exampleEnv.PIXMAYA_EXPORT_OLD_STYLE_FACESETS = false ∧
      exampleLooksInstanceStage.IsInstance (SdfPath.abs ["set", "Looks"]) = true ∧
      ((MakeStandardMaterialPrim exampleEnv exampleContext exampleLooksInstanceStage
          [(SdfPath.abs ["set", "Looks", "x"], [0])] "" none).bind
        fun r₁ =>
          (MakeStandardMaterialPrim exampleEnv exampleContext r₁.stage
            [(SdfPath.abs ["set", "Looks", "x"], [0])] "" none).map
            fun r₂ => (r₁.prim, r₂.prim)) =
        some (none, some (SdfPath.abs ["set", "Looks", "lambert2SG"])) := by
  refine ⟨?_, ?_, ?_, ?_, ?_⟩ <;> decide

/-- C3: every assignment `GetAssignments` returns lies under a bindable root;
a vector is returned whenever the root rewrite is defined; with no explicit
roots the constructor makes the bindable-root set `{/}`, and that set rejects
no absolute path. -/
theorem GetAssignments_root_filtering (scene : MayaScene)
    (ctx : PxrUsdMayaShadingModeExportContext) :
    (RootRewriteDefined ctx → (GetAssignments scene ctx).isSome = true) ∧
    (∀ v, GetAssignments scene ctx = some v →
      ∀ a ∈ v, ∃ r ∈ ctx._bindableRoots, a.1.HasPrefix r = true) ∧
    (∀ shadingEngine dagPathToUsdMap exportParams, exportParams.bindableRoots = [] →
      ∃ ctx0, PxrUsdMayaShadingModeExportContext.create shadingEngine dagPathToUsdMap
          exportParams = some ctx0 ∧
        ctx0._bindableRoots = {SdfPath.AbsoluteRootPath} ∧
        ∀ l, SdfPathFindLongestPrefix ctx0._bindableRoots (SdfPath.abs l) ≠ none) := by
  refine ⟨GetAssignments_isSome scene ctx, fun v hv => ?_, ?_⟩
  · have hstep : ∀ dsmPlug i (st st' : AssignmentVector × Finset SdfPath),
        (∀ a ∈ st.1, ∃ r ∈ ctx._bindableRoots, a.1.HasPrefix r = true) →
        getAssignmentsBody scene ctx dsmPlug i st = some st' →
        (∀ a ∈ st'.1, ∃ r ∈ ctx._bindableRoots, a.1.HasPrefix r = true) := by
      intro dsmPlug i st st' hinv hbody
      rcases getAssignmentsBody_cases scene ctx dsmPlug i st st' hbody with
        h | ⟨p, -, -, h | ⟨dagPath, n, members, r, -, hr, h⟩⟩
      · subst h
        exact hinv
      · rw [h]
        exact hinv
      · rw [h, collectMembers_eq]
        intro a ha
        rcases List.mem_append.mp ha with ha | ha
        · exact hinv a ha
        · obtain ⟨m, -, rfl⟩ := List.mem_map.mp ha
          exact ⟨r, SdfPathFindLongestPrefix_some hr⟩
    obtain ⟨seen, hinv⟩ := GetAssignments_invariant scene ctx
      (fun st => ∀ a ∈ st.1, ∃ r ∈ ctx._bindableRoots, a.1.HasPrefix r = true)
      (by simp) hstep v hv
    exact hinv
  · intro shadingEngine dagPathToUsdMap exportParams hroots
    refine ⟨{ _shadingEngine := shadingEngine
              _dagPathToUsdMap := dagPathToUsdMap
              _exportParams := exportParams
              _bindableRoots := {SdfPath.AbsoluteRootPath}
              _surfaceShaderPlugName := "surfaceShader" }, ?_, rfl, fun l => ?_⟩
    · simp [PxrUsdMayaShadingModeExportContext.create, hroots]
    · rw [SdfPathFindLongestPrefix_root]
      exact Option.some_ne_none _

/-- C4: when no bound prim path of the vector has a prim on the stage (the empty
vector included), `MakeStandardMaterialPrim` returns the invalid prim and
leaves the stage and the set of bound prim paths as they were. -/
theorem MakeStandardMaterialPrim_placement_failure (env : ExportEnv)
    (ctx : PxrUsdMayaShadingModeExportContext) (stage : UsdStage)
    (assignments : AssignmentVector) (name : String) (boundPrimPaths : Option (Finset SdfPath))
    (h : ∀ a ∈ assignments, stage.GetPrimAtPath a.1 = none) :
    MakeStandardMaterialPrim env ctx stage assignments name boundPrimPaths =
      some ⟨stage, none, boundPrimPaths⟩ := by
  rw [MakeStandardMaterialPrim_eq]
  have hloop : commonAncestorLoop stage assignments SdfPath.empty = SdfPath.empty := by
    rcases commonAncestorLoop_empty stage assignments with ⟨-, h2⟩ | ⟨c, -, h2, -⟩
    · exact h2
    · exact absurd (existingTargets_eq_nil h) h2
  rw [hloop]
  cases materialNameOf env ctx name <;> rfl

/-- Witness for C4: a sphere that has no prim on the example stage. -/
theorem MakeStandardMaterialPrim_placement_failure_witness :
    (∀ a ∈ [((SdfPath.abs ["pSphere1", "pSphereShape1"], []) : Assignment)],
        exampleStage.GetPrimAtPath a.1 = none) ∧
      MakeStandardMaterialPrim exampleEnv exampleContext exampleStage
          [(SdfPath.abs ["pSphere1", "pSphereShape1"], [])] "" (some ∅) =
        some ⟨exampleStage, none, some ∅⟩ :=
  ⟨by decide,
    MakeStandardMaterialPrim_placement_failure exampleEnv exampleContext exampleStage
      [(SdfPath.abs ["pSphere1", "pSphereShape1"], [])] "" (some ∅) (by decide)⟩

/-- C5 (why a material name is required): with an empty name and a shading
engine that is no dependency node the call returns at line 322 with the
invalid prim, whatever the assignments. -/
theorem MakeStandardMaterialPrim_no_material_without_name :
    (exampleStage.GetPrimAtPath (SdfPath.abs ["pCube1", "pCubeShape1"])).isSome = true ∧
      materialNameOf exampleEnvNoDependencyNode exampleContext "" = none ∧
      (MakeStandardMaterialPrim exampleEnvNoDependencyNode exampleContext exampleStage
          [(SdfPath.abs ["pCube1", "pCubeShape1"], [])] "" none).map
        (fun r => (r.prim, (r.stage (SdfPath.abs ["pCube1", "Looks"])).isSome)) =
        some (none, false) := by
  refine ⟨?_, ?_, ?_⟩ <;> decide

/-- C6 (as stated, refuted): for the cube and the sphere the material is created
under `/pCube1/Looks`, and `/pCube1` is not a prefix of the bound prim path of
the sphere, which has no prim on the stage. -/
theorem MakeStandardMaterialPrim_looks_not_above_missing_target :
    (MakeStandardMaterialPrim exampleEnv exampleContext exampleStage exampleCubeAndSphere ""
        none).map (fun r => r.prim) = some (some (SdfPath.abs ["pCube1", "Looks", "lambert2SG"])) ∧
      ((SdfPath.abs ["pSphere1", "pSphereShape1"], ([] : List Int)) ∈ exampleCubeAndSphere ∧
        (SdfPath.abs ["pSphere1", "pSphereShape1"]).HasPrefix (SdfPath.abs ["pCube1"]) = false) := by
  refine ⟨?_, ?_, ?_⟩ <;> decide

/-- C6 (amended): `MakeStandardMaterialPrim` returns, and when the material it
returns lies under a scope `/<T>/Looks`, the top-level path `/<T>` is a prefix
of every bound prim path of the vector that has a prim on the stage at the
time of the call. -/
theorem MakeStandardMaterialPrim_looks_above_existing_targets (env : ExportEnv)
    (ctx : PxrUsdMayaShadingModeExportContext) (stage : UsdStage)
    (assignments : AssignmentVector) (name : String) (boundPrimPaths : Option (Finset SdfPath)) :
    ∃ r, MakeStandardMaterialPrim env ctx stage assignments name boundPrimPaths = some r ∧
      ∀ T materialName, r.prim = some (SdfPath.abs [T, "Looks", materialName]) →
        ∀ a ∈ assignments, (stage.GetPrimAtPath a.1).isSome = true →
          a.1.HasPrefix (SdfPath.abs [T]) = true := by
  rw [MakeStandardMaterialPrim_eq]
  cases materialNameOf env ctx name with
  | none => exact ⟨_, rfl, fun T m h => Option.noConfusion h⟩
  | some materialName =>
    rcases commonAncestorLoop_empty stage assignments with ⟨-, h2⟩ | ⟨c, hc, -, hQ⟩
    · rw [h2]
      exact ⟨_, rfl, fun T m h => Option.noConfusion h⟩
    · rw [hc]
      cases c with
      | nil =>
        refine ⟨_, rfl, fun T m h => ?_⟩
        have := bindAll_prim env ctx stage [] (env.SanitizeName materialName) assignments
          boundPrimPaths
        rw [show SdfPath.AbsoluteRootPath = SdfPath.abs [] from rfl, this] at h
        simp at h
      | cons top l =>
        simp only
        by_cases hT : stage.IsInstance (SdfPath.abs [top]) = true
        · rw [if_pos hT]
          exact ⟨_, rfl, fun T m h => Option.noConfusion h⟩
        rw [if_neg hT]
        by_cases hL : stage.IsInstance (SdfPath.abs [top, "Looks"]) = true
        · rw [if_pos hL]
          exact ⟨_, rfl, fun T m h => Option.noConfusion h⟩
        rw [if_neg hL]
        refine ⟨_, rfl, fun T m h a ha hsome => ?_⟩
        rw [bindAll_prim _ _ _ [top, "Looks"] _ _ _] at h
        have hT : top = T := by
          simp at h
          exact h.1
        subst hT
        have hmem : a.1 ∈ existingTargets stage assignments := by
          unfold existingTargets
          rw [List.mem_filter]
          exact ⟨List.mem_map.mpr ⟨a, ha, rfl⟩, hsome⟩
        refine (hQ (SdfPath.abs [top])).mp ?_ a.1 hmem
        rw [SdfPath.hasPrefix_abs]
        exact ⟨l, rfl⟩

/-- C7: when a non-empty explicit list of bindable roots has no root that is a
key of the table, the constructor succeeds with an empty bindable-root set, and
for every scene `GetAssignments` returns nothing but the empty vector, which it
does return whenever the root rewrite is defined. -/
theorem GetAssignments_empty_of_unmapped_roots (shadingEngine : MObject)
    (dagPathToUsdMap : MDagPath → Option SdfPath) (exportParams : PxrUsdMayaExportParams)
    (hne : exportParams.bindableRoots ≠ [])
    (hunmapped : ∀ d ∈ exportParams.bindableRoots, dagPathToUsdMap d = none) :
    ∃ ctx, PxrUsdMayaShadingModeExportContext.create shadingEngine dagPathToUsdMap
        exportParams = some ctx ∧
      ctx._bindableRoots = ∅ ∧
      ∀ scene : MayaScene,
        (∀ v, GetAssignments scene ctx = some v → v = []) ∧
        (RootRewriteDefined ctx → GetAssignments scene ctx = some []) := by
  let ctx : PxrUsdMayaShadingModeExportContext :=
    { _shadingEngine := shadingEngine
      _dagPathToUsdMap := dagPathToUsdMap
      _exportParams := exportParams
      _bindableRoots := ∅
      _surfaceShaderPlugName := "surfaceShader" }
  have hcreate : PxrUsdMayaShadingModeExportContext.create shadingEngine dagPathToUsdMap
      exportParams = some ctx := by
    have : exportParams.bindableRoots.isEmpty = false := by
      cases hb : exportParams.bindableRoots with
      | nil => exact absurd hb hne
      | cons _ _ => rfl
    simp only [PxrUsdMayaShadingModeExportContext.create, this,
      collectBindableRoots_unmapped _ _ _ _ hunmapped]
    rfl
  refine ⟨ctx, hcreate, rfl, fun scene => ?_⟩
  have hempty : ∀ v, GetAssignments scene ctx = some v → v = [] := by
    intro v hv
    have hstep : ∀ dsmPlug i (st st' : AssignmentVector × Finset SdfPath),
        st.1 = [] →
        getAssignmentsBody scene ctx dsmPlug i st = some st' → st'.1 = [] := by
      intro dsmPlug i st st' hinv hbody
      rcases getAssignmentsBody_cases scene ctx dsmPlug i st st' hbody with
        h | ⟨p, -, -, h | ⟨dagPath, n, members, r, -, hr, h⟩⟩
      · subst h
        exact hinv
      · rw [h]
        exact hinv
      · exact absurd (SdfPathFindLongestPrefix_some hr).1 (Finset.not_mem_empty r)
    obtain ⟨seen, hinv⟩ := GetAssignments_invariant scene ctx (fun st => st.1 = [])
      rfl hstep v hv
    exact hinv
  refine ⟨hempty, fun hdef => ?_⟩
  obtain ⟨v, hv⟩ := Option.isSome_iff_exists.mp (GetAssignments_isSome scene ctx hdef)
  rw [hv, hempty v hv]

/-- Witness for C7: the cube scene with a bindable root that is not in the
table. -/
theorem GetAssignments_empty_of_unmapped_roots_witness :
    exampleUnmappedRootParams.bindableRoots ≠ [] ∧
      (∀ d ∈ exampleUnmappedRootParams.bindableRoots, exampleDagPathToUsdMap d = none) ∧
      ∃ ctx, PxrUsdMayaShadingModeExportContext.create exampleShadingEngine
          exampleDagPathToUsdMap exampleUnmappedRootParams = some ctx ∧
        ctx._bindableRoots = ∅ ∧
        ∀ scene : MayaScene,
          (∀ v, GetAssignments scene ctx = some v → v = []) ∧
          (RootRewriteDefined ctx → GetAssignments scene ctx = some []) :=
  ⟨by decide, by decide,
    GetAssignments_empty_of_unmapped_roots exampleShadingEngine exampleDagPathToUsdMap
      exampleUnmappedRootParams (by decide) (by decide)⟩

/-- C8: in a successful call, let `before` be the loop state when a
whole-object assignment `(t, [])` is reached and `after` the state right after
it.  The material prim was defined at the placement location before the
loop, still exists in the returned stage and is what the call returns.  When collection-based bindings are off and no strict
ancestor of `t` is an instance prim of `before`, the step authors the direct
binding of the prim at the prim path `t` to the material, and the binding is
there in the returned stage; otherwise the step authors nothing.  In every
case `t` is recorded in the set of bound prim paths when one is supplied. -/
theorem MakeStandardMaterialPrim_whole_object_binding (env : ExportEnv)
    (ctx : PxrUsdMayaShadingModeExportContext) (stage : UsdStage)
    (pre post : AssignmentVector) (t : SdfPath) (name : String)
    (boundPrimPaths : Option (Finset SdfPath)) (r : MakeResult)
    (hcall : MakeStandardMaterialPrim env ctx stage (pre ++ (t, []) :: post) name
      boundPrimPaths = some r)
    (hsucc : r.prim.isSome = true) :
    ∃ n materialPath materialName stage0 before after,
      materialNameOf env ctx name = some n ∧ materialName = env.SanitizeName n ∧
      materialPath = materialLocation
        (commonAncestorLoop stage (pre ++ (t, []) :: post) SdfPath.empty) materialName ∧
      stage0 = stageWithMaterial stage
        (commonAncestorLoop stage (pre ++ (t, []) :: post) SdfPath.empty) materialName ∧
      r.prim = some materialPath ∧
      (∃ d, stage0 materialPath = some d ∧ d.typeName = "Material" ∧ d.defined = true) ∧
      (r.stage materialPath).isSome = true ∧
      before = pre.foldl (bindAssignment env ctx (some materialPath) materialPath materialName)
        (stage0, boundPrimPaths) ∧
      after = bindAssignment env ctx (some materialPath) materialPath materialName before
        (t, []) ∧
      (r.stage, r.boundPrimPaths) =
        post.foldl (bindAssignment env ctx (some materialPath) materialPath materialName) after ∧
      (ctx._exportParams.exportCollectionBasedBindings = false →
        ¬ HasInstanceAncestor before.1 t → t.IsPrimPath = true →
        (∃ d, after.1 t = some d ∧ d.materialBinding = some materialPath) ∧
          ∃ d, r.stage t = some d ∧ d.materialBinding = some materialPath) ∧
      ((ctx._exportParams.exportCollectionBasedBindings = true ∨
          HasInstanceAncestor before.1 t) → after.1 = before.1) ∧
      after.2 = before.2.map (fun b => insert t b) ∧
      (∀ b, boundPrimPaths = some b → ∃ b', r.boundPrimPaths = some b' ∧ t ∈ b') := by
  obtain ⟨n, materialPath, stage0, hn, hmp, hs0, hprim, -, hmat, hfold⟩ :=
    MakeStandardMaterialPrim_success env ctx stage _ name boundPrimPaths r hcall hsucc
  rw [List.foldl_append, List.foldl_cons] at hfold
  obtain ⟨e1, e2, e3⟩ := bindAssignment_whole_object_spec env ctx (some materialPath)
    materialPath (env.SanitizeName n)
    (pre.foldl (bindAssignment env ctx (some materialPath) materialPath (env.SanitizeName n))
      (stage0, boundPrimPaths)) t
  have hs1 : r.stage = (post.foldl
      (bindAssignment env ctx (some materialPath) materialPath (env.SanitizeName n))
      (bindAssignment env ctx (some materialPath) materialPath (env.SanitizeName n)
        (pre.foldl (bindAssignment env ctx (some materialPath) materialPath (env.SanitizeName n))
          (stage0, boundPrimPaths)) (t, []))).1 :=
    congrArg Prod.fst hfold
  have hs2 : r.boundPrimPaths = (post.foldl
      (bindAssignment env ctx (some materialPath) materialPath (env.SanitizeName n))
      (bindAssignment env ctx (some materialPath) materialPath (env.SanitizeName n)
        (pre.foldl (bindAssignment env ctx (some materialPath) materialPath (env.SanitizeName n))
          (stage0, boundPrimPaths)) (t, []))).2 :=
    congrArg Prod.snd hfold
  refine ⟨n, materialPath, env.SanitizeName n, stage0, _, _, hn, rfl, hmp, hs0, hprim, hmat, ?_,
    rfl, rfl, hfold, ?_, ?_, e1, ?_⟩
  · -- the material prim is never removed
    rw [hs1]
    obtain ⟨d, hd, -⟩ := hmat
    apply (bindLoop_keeps_binding env ctx _ _ _ post _ materialPath).1
    apply (bindAssignment_keeps_binding env ctx _ _ _ _ _ materialPath).1
    apply (bindLoop_keeps_binding env ctx _ _ _ pre _ materialPath).1
    simp [hd]
  · intro hc hp ht
    have hp' : _IsInstanceProxyPath (pre.foldl
        (bindAssignment env ctx (some materialPath) materialPath (env.SanitizeName n))
        (stage0, boundPrimPaths)).1 t = false := by
      cases hx : _IsInstanceProxyPath (pre.foldl
        (bindAssignment env ctx (some materialPath) materialPath (env.SanitizeName n))
        (stage0, boundPrimPaths)).1 t with
      | false => rfl
      | true => exact absurd ((_IsInstanceProxyPath_iff _ _).mp hx) hp
    have hafter := e3 hc hp' ht
    refine ⟨hafter, ?_⟩
    rw [hs1]
    exact (bindLoop_keeps_binding env ctx (some materialPath) materialPath _ post _ t).2 hafter
  · rintro (h | h)
    · exact e2 (Or.inl h)
    · exact e2 (Or.inr ((_IsInstanceProxyPath_iff _ _).mpr h))
  · intro b hb
    rw [hs2]
    have hb0 : ∃ b0, (pre.foldl
        (bindAssignment env ctx (some materialPath) materialPath (env.SanitizeName n))
        (stage0, boundPrimPaths)).2 = some b0 := by
      refine foldl_invariant _
        (fun st : UsdStage × Option (Finset SdfPath) => ∃ b0, st.2 = some b0) pre ?_ _ ⟨b, hb⟩
      intro st a _ ⟨b0, hb0⟩
      obtain ⟨b', hb', -⟩ := bindAssignment_bound env ctx (some materialPath) materialPath
        (env.SanitizeName n) st a b0 hb0
      exact ⟨b', hb'⟩
    obtain ⟨b0, hb0⟩ := hb0
    refine foldl_invariant _
      (fun st : UsdStage × Option (Finset SdfPath) => ∃ b', st.2 = some b' ∧ t ∈ b') post ?_ _ ?_
    · intro st a _ ⟨b1, hb1, hmem⟩
      obtain ⟨b', hb', hsub⟩ := bindAssignment_bound env ctx (some materialPath) materialPath
        (env.SanitizeName n) st a b1 hb1
      exact ⟨b', hb', hsub hmem⟩
    · show ∃ b', (bindAssignment env ctx (some materialPath) materialPath (env.SanitizeName n)
        _ (t, [])).2 = some b' ∧ t ∈ b'
      rw [e1, hb0]
      exact ⟨_, rfl, Finset.mem_insert_self _ _⟩

/-- Witness for C8: the cube of the example stage bound as a whole. -/
theorem MakeStandardMaterialPrim_whole_object_binding_witness :
    ∃ r, MakeStandardMaterialPrim exampleEnv exampleContext exampleStage
        ([] ++ (SdfPath.abs ["pCube1", "pCubeShape1"], []) :: []) "" (some ∅) = some r ∧
      r.prim.isSome = true ∧
      (∃ materialPath, r.prim = some materialPath ∧
        ∃ d, r.stage (SdfPath.abs ["pCube1", "pCubeShape1"]) = some d ∧
          d.materialBinding = some materialPath) ∧
      ∃ b', r.boundPrimPaths = some b' ∧ SdfPath.abs ["pCube1", "pCubeShape1"] ∈ b' := by
  obtain ⟨r, hr⟩ := MakeStandardMaterialPrim_isSome exampleEnv exampleContext exampleStage
    ([] ++ (SdfPath.abs ["pCube1", "pCubeShape1"], []) :: []) "" (some ∅)
  have hs : r.prim.isSome = true := by
    have h : (MakeStandardMaterialPrim exampleEnv exampleContext exampleStage
        ([] ++ (SdfPath.abs ["pCube1", "pCubeShape1"], []) :: []) "" (some ∅)).map
          (fun r => r.prim.isSome) = some true := by decide
    rw [hr] at h
    exact Option.some.inj h
  obtain ⟨n, materialPath, materialName, stage0, before, after, hn, hm, -, hs0, hprim, -, -,
    hbefore, -, -, hbind, -, -, hbound⟩ :=
    MakeStandardMaterialPrim_whole_object_binding exampleEnv exampleContext exampleStage [] []
      (SdfPath.abs ["pCube1", "pCubeShape1"]) "" (some ∅) r hr hs
  refine ⟨r, hr, hs, ⟨materialPath, hprim, ?_⟩, hbound ∅ rfl⟩
  refine (hbind rfl ?_ rfl).2
  have hn' : n = "lambert2SG" := by
    have : materialNameOf exampleEnv exampleContext "" = some "lambert2SG" := by decide
    rw [this] at hn
    exact (Option.some.inj hn).symm
  rw [← _IsInstanceProxyPath_iff, hbefore, hs0, hm, hn']
  simp only [List.foldl_nil]
  decide

/-- C9 (as stated, refuted): after binding the two face groups of the cube, the
subset named after the material holds the faces of the second group, not those
of the first assignment. -/
theorem MakeStandardMaterialPrim_subset_overwritten :
    (MakeStandardMaterialPrim exampleEnv exampleContext exampleStage exampleTwoFaceGroups ""
        none).map (fun r =>
          (r.prim, (r.stage (SdfPath.abs ["pCube1", "pCubeShape1", "lambert2SG"])).bind
            fun d => d.indices)) =
        some (some (SdfPath.abs ["pCube1", "Looks", "lambert2SG"]), some [3, 4, 5]) ∧
      ((SdfPath.abs ["pCube1", "pCubeShape1"], ([0, 1, 2] : List Int)) ∈ exampleTwoFaceGroups ∧
        ([0, 1, 2] : List Int) ≠ [] ∧ ([0, 1, 2] : List Int) ≠ [3, 4, 5]) := by
  refine ⟨?_, ?_, ?_, ?_⟩ <;> decide

/-- C9 (amended): with old-style face sets off, for an assignment `(t, faces)`
of a successful call with `faces` not empty and `t` a prim path, the stage the
call returns has the material-bind family of the prim at `t` tagged
`partition` and holds under `t` a `GeomSubset` named after the material with
element type `face`; the subset holds exactly `faces` provided no later
assignment of the vector with face indices has the same bound prim path; and
the subset path is in the set of bound prim paths when one is supplied. -/
theorem MakeStandardMaterialPrim_subset_partition (env : ExportEnv)
    (ctx : PxrUsdMayaShadingModeExportContext) (stage : UsdStage)
    (pre post : AssignmentVector) (t : SdfPath) (faces : List Int) (name : String)
    (boundPrimPaths : Option (Finset SdfPath)) (r : MakeResult)
    (hlegacy : env.PIXMAYA_EXPORT_OLD_STYLE_FACESETS = false) (hfaces : faces ≠ [])
    (ht : t.IsPrimPath = true)
    (hcall : MakeStandardMaterialPrim env ctx stage (pre ++ (t, faces) :: post) name
      boundPrimPaths = some r)
    (hsucc : r.prim.isSome = true) :
    ∃ n, materialNameOf env ctx name = some n ∧
      (∃ d, r.stage t = some d ∧ d.materialBindFamilyType = some "partition") ∧
      (∃ d, r.stage (t.AppendChild (env.SanitizeName n)) = some d ∧
        d.typeName = "GeomSubset" ∧ d.elementType = some "face" ∧
        d.familyName = some "materialBind" ∧
        ((∀ a ∈ post, a.1 = t → a.2 = []) → d.indices = some faces)) ∧
      (∀ b, boundPrimPaths = some b →
        ∃ b', r.boundPrimPaths = some b' ∧ t.AppendChild (env.SanitizeName n) ∈ b') := by
  obtain ⟨n, materialPath, stage0, hn, -, -, -, -, -, hfold⟩ :=
    MakeStandardMaterialPrim_success env ctx stage _ name boundPrimPaths r hcall hsucc
  refine ⟨n, hn, ?_⟩
  rw [List.foldl_append, List.foldl_cons] at hfold
  generalize hbefore : pre.foldl
    (bindAssignment env ctx (some materialPath) materialPath (env.SanitizeName n))
    (stage0, boundPrimPaths) = before at hfold
  have hstep : IsSubsetStep env (t, faces) := ⟨hfaces, hlegacy⟩
  obtain ⟨e1, e2, e3⟩ := bindAssignment_subset_spec env ctx (some materialPath) materialPath
    (env.SanitizeName n) before t faces hstep ht
  generalize bindAssignment env ctx (some materialPath) materialPath (env.SanitizeName n)
    before (t, faces) = after at hfold e1 e2 e3
  have hsp := SdfPath.appendChild_isPrimPath ht (env.SanitizeName n)
  -- the family type survives the later steps
  have h1 : ∃ d, (post.foldl
      (bindAssignment env ctx (some materialPath) materialPath (env.SanitizeName n)) after).1 t =
        some d ∧ d.materialBindFamilyType = some "partition" := by
    refine foldl_invariant _ (fun st => ∃ d, st.1 t = some d ∧
      d.materialBindFamilyType = some "partition") post ?_ after e1
    intro st a _ ⟨d, hd, hft⟩
    by_cases hs : IsSubsetStep env a
    · obtain ⟨d', hd', -, -, hc, -⟩ := bindAssignment_frames_subset env ctx (some materialPath)
        materialPath (env.SanitizeName n) st a hs t d hd
      rcases hc with hc | hc
      · exact ⟨d', hd', hc.trans hft⟩
      · obtain ⟨p, f⟩ := a
        simp only at hc
        subst hc
        exact (bindAssignment_subset_spec env ctx (some materialPath) materialPath
          (env.SanitizeName n) st t f hs ht).1
    · obtain ⟨d', hd', -, -, hc, -⟩ := bindAssignment_frames_other env ctx (some materialPath)
        materialPath (env.SanitizeName n) st a hs t d hd
      rcases hc with hc | hc
      · exact ⟨d', hd', hc.trans hft⟩
      · exact absurd hc (SdfPath.isPrimPath_ne_empty ht)
  -- so do the type, the element type and the family name of the subset
  have h2 : ∃ d, (post.foldl
      (bindAssignment env ctx (some materialPath) materialPath (env.SanitizeName n)) after).1
        (t.AppendChild (env.SanitizeName n)) = some d ∧
      (d.typeName = "GeomSubset" ∧ d.elementType = some "face" ∧
        d.familyName = some "materialBind") := by
    obtain ⟨d, hd, hty, hel, -, hfam⟩ := e2
    refine foldl_invariant _ (fun st => ∃ d, st.1 (t.AppendChild (env.SanitizeName n)) = some d ∧
      (d.typeName = "GeomSubset" ∧ d.elementType = some "face" ∧
        d.familyName = some "materialBind")) post ?_ after ⟨d, hd, hty, hel, hfam⟩
    intro st a _ ⟨d, hd, hty, hel, hfam⟩
    by_cases hs : IsSubsetStep env a
    · obtain ⟨d', hd', -, -, -, c1, c2, c3, -⟩ := bindAssignment_frames_subset env ctx
        (some materialPath) materialPath (env.SanitizeName n) st a hs _ d hd
      refine ⟨d', hd', ?_, ?_, ?_⟩
      · rcases c1 with c | c
        · exact c.trans hty
        · exact c.2
      · rcases c2 with c | c
        · exact c.trans hel
        · exact c.2
      · rcases c3 with c | c
        · exact c.trans hfam
        · exact c.2
    · obtain ⟨d', hd', -, -, -, c1, c2, c3, -⟩ := bindAssignment_frames_other env ctx
        (some materialPath) materialPath (env.SanitizeName n) st a hs _ d hd
      refine ⟨d', hd', ?_, ?_, ?_⟩
      · rcases c1 with c | c
        · exact c.trans hty
        · exact c.2
      · rcases c2 with c | c
        · exact c.trans hel
        · exact c.2
      · rcases c3 with c | c
        · exact c.trans hfam
        · exact c.2
  -- and the indices, unless a later step writes the same subset
  have h3 : (∀ a ∈ post, a.1 = t → a.2 = []) → ∃ d, (post.foldl
      (bindAssignment env ctx (some materialPath) materialPath (env.SanitizeName n)) after).1
        (t.AppendChild (env.SanitizeName n)) = some d ∧ d.indices = some faces := by
    intro hlast
    obtain ⟨d, hd, -, -, hidx, -⟩ := e2
    refine foldl_invariant _ (fun st => ∃ d, st.1 (t.AppendChild (env.SanitizeName n)) = some d ∧
      d.indices = some faces) post ?_ after ⟨d, hd, hidx⟩
    intro st a ha ⟨d, hd, hidx⟩
    by_cases hs : IsSubsetStep env a
    · obtain ⟨d', hd', -, -, -, -, -, -, c⟩ := bindAssignment_frames_subset env ctx
        (some materialPath) materialPath (env.SanitizeName n) st a hs _ d hd
      rcases c with c | c
      · exact ⟨d', hd', c.trans hidx⟩
      · exact absurd (hlast a ha (SdfPath.appendChild_inj ht _ c.1).symm) hs.1
    · obtain ⟨d', hd', -, -, -, -, -, -, c⟩ := bindAssignment_frames_other env ctx
        (some materialPath) materialPath (env.SanitizeName n) st a hs _ d hd
      rcases c with c | c
      · exact ⟨d', hd', c.trans hidx⟩
      · exact absurd c.1 (SdfPath.isPrimPath_ne_empty hsp)
  -- the recorded subset path stays recorded
  have h4 : ∀ b, boundPrimPaths = some b → ∃ b', (post.foldl
      (bindAssignment env ctx (some materialPath) materialPath (env.SanitizeName n)) after).2 =
        some b' ∧ t.AppendChild (env.SanitizeName n) ∈ b' := by
    intro b hb
    have hb0 : ∃ b0, before.2 = some b0 := by
      rw [← hbefore]
      refine foldl_invariant _
        (fun st : UsdStage × Option (Finset SdfPath) => ∃ b0, st.2 = some b0) pre ?_ _ ⟨b, hb⟩
      intro st a _ ⟨b0, hb0⟩
      obtain ⟨b', hb', -⟩ := bindAssignment_bound env ctx (some materialPath) materialPath
        (env.SanitizeName n) st a b0 hb0
      exact ⟨b', hb'⟩
    obtain ⟨b0, hb0⟩ := hb0
    refine foldl_invariant _ (fun st => ∃ b', st.2 = some b' ∧
      t.AppendChild (env.SanitizeName n) ∈ b') post ?_ after ?_
    · intro st a _ ⟨b1, hb1, hmem⟩
      obtain ⟨b', hb', hsub⟩ := bindAssignment_bound env ctx (some materialPath) materialPath
        (env.SanitizeName n) st a b1 hb1
      exact ⟨b', hb', hsub hmem⟩
    · show ∃ b', after.2 = some b' ∧ t.AppendChild (env.SanitizeName n) ∈ b'
      rw [e3, hb0]
      exact ⟨_, rfl, Finset.mem_insert_self _ _⟩
  have hs1 : r.stage = (post.foldl
      (bindAssignment env ctx (some materialPath) materialPath (env.SanitizeName n)) after).1 :=
    congrArg Prod.fst hfold
  have hs2 : r.boundPrimPaths = (post.foldl
      (bindAssignment env ctx (some materialPath) materialPath (env.SanitizeName n)) after).2 :=
    congrArg Prod.snd hfold
  rw [hs1, hs2]
  refine ⟨h1, ?_, h4⟩
  obtain ⟨d, hd, hty, hel, hfam⟩ := h2
  refine ⟨d, hd, hty, hel, hfam, fun hlast => ?_⟩
  obtain ⟨d', hd', hidx⟩ := h3 hlast
  rw [hd] at hd'
  rw [Option.some.inj hd']
  exact hidx

/-- Witness for C9 (amended): one face group of the cube. -/
theorem MakeStandardMaterialPrim_subset_partition_witness :
    exampleEnv.PIXMAYA_EXPORT_OLD_STYLE_FACESETS = false ∧ ([0, 1, 2] : List Int) ≠ [] ∧
      (SdfPath.abs ["pCube1", "pCubeShape1"]).IsPrimPath = true ∧
      ∃ r, MakeStandardMaterialPrim exampleEnv exampleContext exampleStage
          ([] ++ (SdfPath.abs ["pCube1", "pCubeShape1"], [0, 1, 2]) :: []) "" (some ∅) = some r ∧
        r.prim.isSome = true ∧
        ∃ n, materialNameOf exampleEnv exampleContext "" = some n ∧
          (∃ d, r.stage (SdfPath.abs ["pCube1", "pCubeShape1"]) = some d ∧
            d.materialBindFamilyType = some "partition") ∧
          (∃ d, r.stage ((SdfPath.abs ["pCube1", "pCubeShape1"]).AppendChild
              (exampleEnv.SanitizeName n)) = some d ∧
            d.typeName = "GeomSubset" ∧ d.elementType = some "face" ∧
            d.familyName = some "materialBind" ∧
            ((∀ a ∈ ([] : AssignmentVector), a.1 = SdfPath.abs ["pCube1", "pCubeShape1"] →
              a.2 = []) → d.indices = some [0, 1, 2])) ∧
          (∀ b, some (∅ : Finset SdfPath) = some b →
            ∃ b', r.boundPrimPaths = some b' ∧
              (SdfPath.abs ["pCube1", "pCubeShape1"]).AppendChild (exampleEnv.SanitizeName n) ∈
                b') := by
  obtain ⟨r, hr⟩ := MakeStandardMaterialPrim_isSome exampleEnv exampleContext exampleStage
    ([] ++ (SdfPath.abs ["pCube1", "pCubeShape1"], [0, 1, 2]) :: []) "" (some ∅)
  have hs : r.prim.isSome = true := by
    have h : (MakeStandardMaterialPrim exampleEnv exampleContext exampleStage
        ([] ++ (SdfPath.abs ["pCube1", "pCubeShape1"], [0, 1, 2]) :: []) "" (some ∅)).map
          (fun r => r.prim.isSome) = some true := by decide
    rw [hr] at h
    exact Option.some.inj h
  exact ⟨by decide, by decide, by decide, r, hr, hs,
    MakeStandardMaterialPrim_subset_partition exampleEnv exampleContext exampleStage [] []
      (SdfPath.abs ["pCube1", "pCubeShape1"]) [0, 1, 2] "" (some ∅) r (by decide) (by decide)
      (by decide) hr hs⟩

/-- C10 (the code at the failing input): for the element with logical index
2147483648 of the array `colorEntryList`, with multi-element arrays allowed,
`GetStandardAttrName` returns `colorEntryList_-2147483648` and not
`colorEntryList_2147483648`. -/
theorem GetStandardAttrName_large_index :
    exampleLargeIndexPlug.isElement = true ∧
      exampleLargeIndexPlug.array.partialName = "colorEntryList" ∧
      exampleLargeIndexPlug.logicalIndex = 2147483648 ∧
      GetStandardAttrName exampleLargeIndexPlug true = "colorEntryList_-2147483648" ∧
      GetStandardAttrName exampleLargeIndexPlug true ≠
        exampleLargeIndexPlug.array.partialName ++ "_" ++
          toString exampleLargeIndexPlug.logicalIndex := by
  refine ⟨?_, ?_, ?_, ?_, ?_⟩ <;> decide

/-- C11, refuted as stated: on a valid shader prim the token returned for
`outColor` is the attribute name `outputs:rgb`, not `rgb`. -/
theorem GetShadingAttributeNameForMayaAttrName_returns_full_name :
    exampleFileTextureWriter._usdPrim.isSome = true ∧
      (exampleFileTextureWriter.GetShadingAttributeNameForMayaAttrName "outColor").1
        = "outputs:rgb" ∧
      (exampleFileTextureWriter.GetShadingAttributeNameForMayaAttrName "outColor").1 ≠ "rgb" := by
  decide

/-- C11, amended: on a valid shader prim `GetShadingAttributeNameForMayaAttrName`
creates the output `rgb` (of type `Float3`) for `outColor`, the outputs `r`,
`g`, `b` for `outColorR`, `outColorG`, `outColorB` and the output `a` for
`outAlpha` and the four `outTransparency` names (all of type `Float`), and
returns the full attribute name of that output, `outputs:` followed by its
name; for every other name it returns the empty token and makes no call. -/
theorem GetShadingAttributeNameForMayaAttrName_spec
    (writer : PxrUsdTranslators_FileTextureWriter) (hvalid : writer._usdPrim.isSome = true) :
    writer.GetShadingAttributeNameForMayaAttrName "outColor" =
        ("outputs:rgb", [ShaderAuthoring.CreateOutput "rgb" SdfValueTypeName.Float3]) ∧
    writer.GetShadingAttributeNameForMayaAttrName "outColorR" =
        ("outputs:r", [ShaderAuthoring.CreateOutput "r" SdfValueTypeName.Float]) ∧
    writer.GetShadingAttributeNameForMayaAttrName "outColorG" =
        ("outputs:g", [ShaderAuthoring.CreateOutput "g" SdfValueTypeName.Float]) ∧
    writer.GetShadingAttributeNameForMayaAttrName "outColorB" =
        ("outputs:b", [ShaderAuthoring.CreateOutput "b" SdfValueTypeName.Float]) ∧
    (∀ n ∈ ["outAlpha", "outTransparency", "outTransparencyR", "outTransparencyG",
        "outTransparencyB"],
      writer.GetShadingAttributeNameForMayaAttrName n =
        ("outputs:a", [ShaderAuthoring.CreateOutput "a" SdfValueTypeName.Float])) ∧
    (∀ n, n ∉ fileTextureOutputNames →
      writer.GetShadingAttributeNameForMayaAttrName n = ("", [])) := by
  refine ⟨?_, ?_, ?_, ?_, ?_, ?_⟩
  · simp [PxrUsdTranslators_FileTextureWriter.GetShadingAttributeNameForMayaAttrName, hvalid]
    decide
  · simp [PxrUsdTranslators_FileTextureWriter.GetShadingAttributeNameForMayaAttrName, hvalid]
    decide
  · simp [PxrUsdTranslators_FileTextureWriter.GetShadingAttributeNameForMayaAttrName, hvalid]
    decide
  · simp [PxrUsdTranslators_FileTextureWriter.GetShadingAttributeNameForMayaAttrName, hvalid]
    decide
  · intro n hn
    simp only [List.mem_cons, List.mem_singleton, List.not_mem_nil, or_false] at hn
    rcases hn with rfl | rfl | rfl | rfl | rfl <;>
    · simp [PxrUsdTranslators_FileTextureWriter.GetShadingAttributeNameForMayaAttrName, hvalid]
      decide
  · intro n hn
    simp only [fileTextureOutputNames, List.mem_cons, List.mem_singleton, List.not_mem_nil,
      or_false, not_or] at hn
    obtain ⟨h1, h2, h3, h4, h5, h6, h7, h8, h9⟩ := hn
    have hempty : ("" : String).isEmpty = true := by decide
    simp [PxrUsdTranslators_FileTextureWriter.GetShadingAttributeNameForMayaAttrName, h1, h2,
      h3, h4, h5, h6, h7, h8, h9, hempty]

/-- Witness for C11: the example writer holds a valid shader prim. -/
theorem GetShadingAttributeNameForMayaAttrName_spec_witness :
    exampleFileTextureWriter._usdPrim.isSome = true ∧
      exampleFileTextureWriter.GetShadingAttributeNameForMayaAttrName "outAlpha" =
        ("outputs:a", [ShaderAuthoring.CreateOutput "a" SdfValueTypeName.Float]) ∧
      exampleFileTextureWriter.GetShadingAttributeNameForMayaAttrName "outSize" = ("", []) :=
  have h := GetShadingAttributeNameForMayaAttrName_spec exampleFileTextureWriter rfl
  ⟨rfl, h.2.2.2.2.1 "outAlpha" (by decide), h.2.2.2.2.2 "outSize" (by decide)⟩

/-- C12: when the function set attaches to the node, the shader prim is valid
and the lookups and reads of `Write` up to the `scale` passage succeed
(`fileTextureName` and its string, `colorGain` with its three children
`r`, `g`, `b` when authored, `alphaGain` with its value `a` when authored),
the calls `Write` makes after those of the base class contain a call on the
`scale` input exactly when `colorGain` or `alphaGain` is authored, and then
exactly one: it creates `scale` as a `Float4` and sets it at `usdTime` to the
vector whose first three components are `r`, `g`, `b` if `colorGain` is
authored and `1.0f` otherwise, and whose fourth is `a` if `alphaGain` is
authored and `1.0f` otherwise.  Failures in the later passages do not change
this. -/
theorem Write_scale_from_gains (env : ShaderWriterEnv)
    (writer : PxrUsdTranslators_FileTextureWriter) (usdTime : UsdTimeCode)
    (fileTextureNamePlug colorGainPlug alphaGainPlug : MPlug) (fileTextureName : String)
    (r g b a : float)
    (hnode : env.scene.isDependencyNode writer.mayaObject = true)
    (hprim : writer._usdPrim.isSome = true)
    (hfile : env.scene.findPlug writer.mayaObject "fileTextureName" = some fileTextureNamePlug)
    (hname : env.asString fileTextureNamePlug = some fileTextureName)
    (hcolor : env.scene.findPlug writer.mayaObject "colorGain" = some colorGainPlug)
    (halpha : env.scene.findPlug writer.mayaObject "alphaGain" = some alphaGainPlug)
    (hrgb : env.IsAuthored colorGainPlug = true →
      env.asFloat (env.child colorGainPlug 0) = some r ∧
        env.asFloat (env.child colorGainPlug 1) = some g ∧
        env.asFloat (env.child colorGainPlug 2) = some b)
    (ha : env.IsAuthored alphaGainPlug = true → env.asFloat alphaGainPlug = some a) :
    ∃ own, writer.Write env usdTime = env.UsdMayaShaderWriter_Write usdTime ++ own ∧
      own.filter (fun c => decide (c.inputName = some "scale")) =
        if env.IsAuthored colorGainPlug = true ∨ env.IsAuthored alphaGainPlug = true then
          [ShaderAuthoring.CreateInputSet "scale" SdfValueTypeName.Float4
            (VtValue.vec4f
              ⟨if env.IsAuthored colorGainPlug then r else float.one,
                if env.IsAuthored colorGainPlug then g else float.one,
                if env.IsAuthored colorGainPlug then b else float.one,
                if env.IsAuthored alphaGainPlug then a else float.one⟩)
            usdTime]
        else [] := by
  -- the `file` passage
  obtain ⟨file, hfileCalls⟩ : ∃ file, writeFile env writer usdTime
      (env.UsdMayaShaderWriter_Write usdTime) =
        Except.ok (env.UsdMayaShaderWriter_Write usdTime ++
          [ShaderAuthoring.CreateInputSet "file" SdfValueTypeName.Asset (VtValue.asset file)
            usdTime]) := by
    unfold writeFile
    simp only [hfile, hname]
    exact ⟨_, rfl⟩
  -- the `scale` passage
  have hreadColor : readColor env colorGainPlug
      (false, ⟨float.one, float.one, float.one, float.one⟩) =
      some (env.IsAuthored colorGainPlug,
        ⟨if env.IsAuthored colorGainPlug then r else float.one,
          if env.IsAuthored colorGainPlug then g else float.one,
          if env.IsAuthored colorGainPlug then b else float.one, float.one⟩) := by
    unfold readColor
    by_cases hc : env.IsAuthored colorGainPlug = true
    · obtain ⟨h0, h1, h2⟩ := hrgb hc
      simp [hc, readChildren_three env colorGainPlug _ r g b h0 h1 h2]
    · simp [hc]
  obtain ⟨S, hS⟩ : ∃ S : List ShaderAuthoring, S =
      if env.IsAuthored colorGainPlug = true ∨ env.IsAuthored alphaGainPlug = true then
        [ShaderAuthoring.CreateInputSet "scale" SdfValueTypeName.Float4
          (VtValue.vec4f
            ⟨if env.IsAuthored colorGainPlug then r else float.one,
              if env.IsAuthored colorGainPlug then g else float.one,
              if env.IsAuthored colorGainPlug then b else float.one,
              if env.IsAuthored alphaGainPlug then a else float.one⟩)
          usdTime]
      else [] := ⟨_, rfl⟩
  have hscale : ∀ calls, writeGain env writer usdTime "colorGain" "alphaGain" "scale"
      ⟨float.one, float.one, float.one, float.one⟩ calls = Except.ok (calls ++ S) := by
    intro calls
    rw [hS]
    unfold writeGain
    simp only [hcolor, halpha, hreadColor]
    unfold readAlpha
    by_cases hal : env.IsAuthored alphaGainPlug = true
    · simp [hal, ha hal, GfVec4f.set]
    · by_cases hc : env.IsAuthored colorGainPlug = true
      · simp [hal, hc]
      · simp [hal, hc]
  -- the passages after it
  obtain ⟨ext, hext, hP⟩ := afterScale_extends env writer usdTime
    (env.UsdMayaShaderWriter_Write usdTime ++
      [ShaderAuthoring.CreateInputSet "file" SdfValueTypeName.Asset (VtValue.asset file)
        usdTime] ++ S)
  refine ⟨[ShaderAuthoring.CreateInputSet "file" SdfValueTypeName.Asset (VtValue.asset file)
    usdTime] ++ S ++ ext, ?_, ?_⟩
  · unfold PxrUsdTranslators_FileTextureWriter.Write
    simp only [hnode, hprim, Bool.not_true, Bool.false_eq_true, if_false, hfileCalls, hscale]
    rw [← List.append_assoc, ← List.append_assoc]
    exact hext
  · have hrest : ext.filter (fun c => decide (c.inputName = some "scale")) = [] := by
      rw [List.filter_eq_nil_iff]
      intro c hc
      simpa using hP c hc
    have hSfilter : S.filter (fun c => decide (c.inputName = some "scale")) = S := by
      rw [hS]
      split <;> simp [ShaderAuthoring.inputName]
    rw [List.filter_append, List.filter_append, hrest, List.append_nil, hSfilter, ← hS]
    simp [ShaderAuthoring.inputName]

/-- Witness for C12: the example `file` node has an authored `colorGain` and
an unauthored `alphaGain`. -/
theorem Write_scale_from_gains_witness :
    ∃ own, exampleFileTextureWriter.Write exampleWriterEnv ⟨0⟩ = [] ++ own ∧
      own.filter (fun c => decide (c.inputName = some "scale")) =
        [ShaderAuthoring.CreateInputSet "scale" SdfValueTypeName.Float4
          (VtValue.vec4f ⟨⟨10⟩, ⟨20⟩, ⟨30⟩, float.one⟩) ⟨0⟩] :=
  Write_scale_from_gains exampleWriterEnv exampleFileTextureWriter ⟨0⟩
    (examplePlug "fileTextureName") (examplePlug "colorGain") (examplePlug "alphaGain")
    "textures/wood.png" ⟨10⟩ ⟨20⟩ ⟨30⟩ ⟨0⟩ rfl rfl rfl rfl rfl rfl
    (fun _ => ⟨by decide, by decide, by decide⟩) (fun _ => by decide)

/-- C13: on a stage whose prims are closed under parent, after
`_UninstancePrim(stage, path, reason)` for a TargetPath `path` (any path but
the empty one) the returned prim is the prim at `path`, a prim exists at
`path` and at each of its prefixes, neither that prim nor any prefix of the
path is an instance, so the path is no instance proxy path, and the instance
flag of every prim that is not at a prefix of the path is as before. -/
theorem _UninstancePrim_postcondition (stage : UsdStage) (path : SdfPath)
    (hclosed : ParentClosed stage) (hpath : path ≠ SdfPath.empty) :
    (_UninstancePrim stage path).2 = some path ∧
      ((_UninstancePrim stage path).1.GetPrimAtPath path).isSome = true ∧
      (∀ q ∈ path.GetPrefixes,
        ((_UninstancePrim stage path).1 q).isSome = true ∧
          (_UninstancePrim stage path).1.IsInstance q = false) ∧
      (_UninstancePrim stage path).1.IsInstance path = false ∧
      _IsInstanceProxyPath (_UninstancePrim stage path).1 path = false ∧
      ∀ q, q ∉ path.GetPrefixes →
        (_UninstancePrim stage path).1.IsInstance q = stage.IsInstance q := by
  cases path with
  | empty => exact absurd rfl hpath
  | abs l =>
    cases l with
    | nil =>
      -- the absolute root: no prefix is visited and the pseudo-root is returned
      have h : _UninstancePrim stage (SdfPath.abs []) = (stage, some (SdfPath.abs [])) := by
        simp [_UninstancePrim, SdfPath.GetPrefixes, uninstanceLoop, UsdStage.OverridePrim,
          UsdStage.GetPrimAtPath, SdfPath.AbsoluteRootPath]
      rw [h]
      refine ⟨rfl, ?_, ?_, ?_, ?_, fun _ _ => rfl⟩
      · simp [UsdStage.GetPrimAtPath, SdfPath.AbsoluteRootPath]
      · intro q hq
        simp [SdfPath.GetPrefixes] at hq
      · simp [UsdStage.IsInstance, UsdStage.data, SdfPath.IsPrimPath]
      · simp [_IsInstanceProxyPath, SdfPath.GetParentPath, SdfPath.GetPrefixes]
    | cons a l => exact _UninstancePrim_primPath stage _ hclosed rfl

/-- Witness for C13: below the instance `/inst` of the example stage, the path
`/inst/a` is an instance proxy path before the call and not after it, and the
prim `/inst/b` beside it keeps its flag. -/
theorem _UninstancePrim_postcondition_witness :
    _IsInstanceProxyPath exampleInstanceStage (SdfPath.abs ["inst", "a"]) = true ∧
      (_UninstancePrim exampleInstanceStage (SdfPath.abs ["inst", "a"])).1.IsInstance
        (SdfPath.abs ["inst"]) = false ∧
      _IsInstanceProxyPath (_UninstancePrim exampleInstanceStage (SdfPath.abs ["inst", "a"])).1
        (SdfPath.abs ["inst", "a"]) = false ∧
      (_UninstancePrim exampleInstanceStage (SdfPath.abs ["inst", "a"])).1.IsInstance
        (SdfPath.abs ["inst", "b"]) = exampleInstanceStage.IsInstance (SdfPath.abs ["inst", "b"]) :=
  have h := _UninstancePrim_postcondition exampleInstanceStage (SdfPath.abs ["inst", "a"])
    exampleInstanceStage_parentClosed (by decide)
  ⟨by decide, (h.2.2.1 _ (by decide)).2, h.2.2.2.2.1, h.2.2.2.2.2 _ (by decide)⟩

/-- C14: a connected element of `dagSetMembers` whose resolved instance number
is at least the number of DAG paths to its owning node leaves the vector and
the set of seen paths as they are, and `GetAssignments()` returns what it
returns on the scene graph with that connected element removed; it does
return a vector whenever the root rewrite is defined. -/
theorem GetAssignments_skips_out_of_range_instance (scene : MayaScene)
    (ctx : PxrUsdMayaShadingModeExportContext) (dsmPlug : MPlug) (k : Nat)
    (hplug : scene.findPlug ctx._shadingEngine "dagSetMembers" = some dsmPlug)
    (hk : k < scene.numConnectedElements dsmPlug)
    (hrange : InstanceNumberOutOfRange scene dsmPlug k) :
    (∀ st, getAssignmentsBody scene ctx dsmPlug k st = some st) ∧
      GetAssignments scene ctx = GetAssignments (removeConnectedElement scene k) ctx ∧
      (RootRewriteDefined ctx → ∃ v, GetAssignments scene ctx = some v) := by
  have hbody : ∀ st, getAssignmentsBody scene ctx dsmPlug k st = some st := by
    intro st
    unfold getAssignmentsBody
    exact dif_pos hrange
  refine ⟨hbody, ?_, fun hdef => Option.isSome_iff_exists.mp (GetAssignments_isSome scene ctx hdef)⟩
  unfold GetAssignments
  by_cases hdep : scene.isDependencyNode ctx._shadingEngine = true
  · have hdep' : (removeConnectedElement scene k).isDependencyNode ctx._shadingEngine = true := hdep
    have hplug' : (removeConnectedElement scene k).findPlug ctx._shadingEngine "dagSetMembers" =
        some dsmPlug := hplug
    simp only [hdep, hdep', hplug, hplug', Bool.not_true, Bool.false_eq_true, if_false]
    congr 1
    obtain ⟨m, hm⟩ : ∃ m, scene.numConnectedElements dsmPlug = k + (m + 1) :=
      ⟨scene.numConnectedElements dsmPlug - k - 1, by omega⟩
    have hnum : (removeConnectedElement scene k).numConnectedElements dsmPlug = k + m := by
      simp only [removeConnectedElement, hk, if_true]
      omega
    have hstep : ∀ i st, getAssignmentsBody (removeConnectedElement scene k) ctx dsmPlug i st =
        getAssignmentsBody scene ctx dsmPlug (if i < k then i else i + 1) st := by
      intro i st
      refine getAssignmentsBody_congr scene (removeConnectedElement scene k) ctx dsmPlug i _ ?_
        rfl rfl rfl rfl rfl st
      simp only [removeConnectedElement, hk, if_true]
    rw [hnum, hm, getAssignmentsLoop_map scene _ ctx dsmPlug _ hstep, range_map_skip,
      range_without, getAssignmentsLoop_append, getAssignmentsLoop_append]
    congr 1
    funext st
    simp only [getAssignmentsLoop, hbody]
  · have hdep' : ¬ (removeConnectedElement scene k).isDependencyNode ctx._shadingEngine = true :=
      hdep
    simp [hdep, hdep']

/-- Witness for C14: in the example scene with the stale connection
`dagSetMembers[1]` from `instObjGroups[7]`, that element is out of range, and
the vector is the one of the scene without it. -/
theorem GetAssignments_skips_out_of_range_instance_witness :
    InstanceNumberOutOfRange exampleSceneStaleInstance
        (MPlug.mk exampleShadingEngine "dagSetMembers" false false 0 none none) 1 ∧
      GetAssignments exampleSceneStaleInstance exampleContext =
        GetAssignments (removeConnectedElement exampleSceneStaleInstance 1) exampleContext ∧
      GetAssignments exampleSceneStaleInstance exampleContext = some exampleTwoFaceGroups :=
  have h := GetAssignments_skips_out_of_range_instance exampleSceneStaleInstance exampleContext
    (MPlug.mk exampleShadingEngine "dagSetMembers" false false 0 none none) 1 rfl
    (by decide) (by unfold InstanceNumberOutOfRange; decide)
  ⟨by unfold InstanceNumberOutOfRange; decide, h.2.1, by decide⟩

/-- C15, refuted as stated: the prefix list of the absolute root path `/` is
empty, so for a table that holds `/` and the override root `/ns` the rewrite
has no element 0 to read, neither in the constructor nor in
`GetAssignments()`. -/
theorem root_rewrite_undefined_at_absolute_root :
    SdfPath.AbsoluteRootPath.GetPrefixes = [] ∧
      exampleRootTable exampleDagPath = some SdfPath.AbsoluteRootPath ∧
      (applyOverrideRootPath (SdfPath.abs ["ns"]) SdfPath.AbsoluteRootPath).isSome = false ∧
      (PxrUsdMayaShadingModeExportContext.create exampleShadingEngine exampleRootTable
        exampleOverrideParams).isSome = false ∧
      (GetAssignments exampleScene exampleRootTableContext).isSome = false := by
  decide

/-- C15, amended: for every target path with at least one element (every prim
path) and every non-empty override root path, the prefix list of the path is
not empty, its element 0 is the root prim path of the path, and the rewrite
`usdPath.ReplacePrefix(usdPath.GetPrefixes()[0], overrideRootPath)` is
defined; when all target paths of the table are such paths, the constructor
and `GetAssignments()` never read past the end of a prefix list. -/
theorem root_rewrite_defined_of_prim_paths (scene : MayaScene) (shadingEngine : MObject)
    (dagPathToUsdMap : MDagPath → Option SdfPath) (exportParams : PxrUsdMayaExportParams)
    (hover : exportParams.overrideRootPath.IsEmpty = false)
    (htable : ∀ d p, dagPathToUsdMap d = some p → p.IsPrimPath = true) :
    (∀ d usdPath, dagPathToUsdMap d = some usdPath →
      ∃ p0 rest, usdPath.GetPrefixes = p0 :: rest ∧ p0.IsRootPrimPath = true ∧
        applyOverrideRootPath exportParams.overrideRootPath usdPath =
          some (usdPath.ReplacePrefix p0 exportParams.overrideRootPath)) ∧
      ∃ ctx, PxrUsdMayaShadingModeExportContext.create shadingEngine dagPathToUsdMap
          exportParams = some ctx ∧
        ∃ v, GetAssignments scene ctx = some v := by
  constructor
  · intro d usdPath hd
    have hp := htable d usdPath hd
    cases usdPath with
    | empty => simp [SdfPath.IsPrimPath] at hp
    | abs l =>
      cases l with
      | nil => simp [SdfPath.IsPrimPath] at hp
      | cons a l =>
        refine ⟨SdfPath.abs [a], (l.inits.drop 1).map (fun m => SdfPath.abs (a :: m)), ?_, rfl, ?_⟩
        · cases l <;> simp [SdfPath.GetPrefixes, List.inits]
        · have hpre : (SdfPath.abs (a :: l)).GetPrefixes =
              SdfPath.abs [a] :: (l.inits.drop 1).map (fun m => SdfPath.abs (a :: m)) := by
            cases l <;> simp [SdfPath.GetPrefixes, List.inits]
          simp only [applyOverrideRootPath, hover, hpre]
          rfl
  · have hroots : ∃ roots, (if exportParams.bindableRoots.isEmpty then
          some {SdfPath.AbsoluteRootPath}
        else collectBindableRoots dagPathToUsdMap exportParams exportParams.bindableRoots ∅) =
        some roots := by
      split
      · exact ⟨_, rfl⟩
      · exact Option.isSome_iff_exists.mp
          (collectBindableRoots_isSome dagPathToUsdMap exportParams htable _ _)
    obtain ⟨roots, hroots⟩ := hroots
    refine ⟨⟨shadingEngine, dagPathToUsdMap, exportParams, roots, "surfaceShader"⟩, ?_, ?_⟩
    · unfold PxrUsdMayaShadingModeExportContext.create
      simp only [hroots, Option.map_some']
    · exact Option.isSome_iff_exists.mp (GetAssignments_isSome scene _ (Or.inr htable))

/-- Witness for C15: the example table holds the prim path
`/pCube1/pCubeShape1` only, and the override root `/ns` rewrites it to
`/ns/pCubeShape1`. -/
theorem root_rewrite_defined_of_prim_paths_witness :
    ∃ p0 rest, (SdfPath.abs ["pCube1", "pCubeShape1"]).GetPrefixes = p0 :: rest ∧
      p0.IsRootPrimPath = true ∧
      applyOverrideRootPath (SdfPath.abs ["ns"]) (SdfPath.abs ["pCube1", "pCubeShape1"]) =
        some ((SdfPath.abs ["pCube1", "pCubeShape1"]).ReplacePrefix p0 (SdfPath.abs ["ns"])) :=
  (root_rewrite_defined_of_prim_paths exampleScene exampleShadingEngine exampleDagPathToUsdMap
    exampleOverrideParams rfl
    (fun d p h => by
      unfold exampleDagPathToUsdMap at h
      split at h
      · cases h
        rfl
      · cases h)).1 exampleDagPath _ (by decide)

end UsdMaya
